import Mathlib

/-!
Faculty availability: blocked slots, slot selection and the availability serializer.

A shallow embedding of

* `src/server/client/src/pages/FacultyManagement.jsx`
  (`calculateBlockedSlots`, the blocked-slot `useEffect`, `handleSlotClick`,
  `convertSlotsToAvailability`, `handleEdit`),
* `src/server/controllers/facultyController.js`
  (`createFaculty`, `updateFaculty`, `deleteFaculty`) together with the schema of
  `src/server/models/Faculty.js`.

Modelling conventions.

* A JavaScript object used as a string-keyed dictionary is an insertion-ordered
  association list (`JsObject`): `get` is `obj[key]`, `set` is `obj[key] = v`.
* Identifiers (`_id`), days and codes are `String`; periods are `Nat` and are printed
  in decimal inside a key, as a template literal does for a non-negative integer.
* A field that the page guards with `?.` or a truthiness test is an `Option`.
* React state is an explicit record `State`; a handler is a function `State → State`.
-/

namespace FacultyManagement

/-! ## String-keyed objects -/

/-- A JavaScript object used as a dictionary: string keys in insertion order. -/
abbrev JsObject (α : Type) := List (String × α)

namespace JsObject

/-- The value of `obj[key]`: `none` stands for `undefined`. -/
def get {α : Type} (obj : JsObject α) (key : String) : Option α :=
  List.lookup key obj

/-- The object after `obj[key] = v`: an existing key keeps its position, a new key is
appended. -/
def set {α : Type} : JsObject α → String → α → JsObject α
  | [], key, v => [(key, v)]
  | (k, w) :: rest, key, v =>
    if k = key then (k, v) :: rest else (k, w) :: set rest key v

/-- The result of `Object.keys(obj)`. -/
def keys {α : Type} (obj : JsObject α) : List String :=
  obj.map Prod.fst

end JsObject

/-! ## Data of the page -/

/-- The constant `DAYS` of the page. -/
def DAYS : List String := ["Monday", "Tuesday", "Wednesday", "Thursday", "Friday"]

/-- A populated section of a faculty record. -/
structure Section where
  _id : String
  code : String
  deriving DecidableEq, Repr

/-- A populated subject of a faculty record: its code and the value of
`subject.department?._id` (`none` when it is missing). -/
structure Subject where
  code : String
  departmentId : Option String
  deriving DecidableEq, Repr

/-- One availability entry `{ day, periods }`. -/
structure Availability where
  day : String
  periods : List Nat
  deriving DecidableEq, Repr

/-- A faculty record as the page receives it from `GET /api/faculty`. -/
structure Faculty where
  _id : String
  name : String
  subject : Option Subject
  sections : Option (List Section)
  availability : Option (List Availability)
  deriving DecidableEq, Repr

/-- A conflict descriptor `{ facultyName, subject, sectionCode }`. -/
structure Descriptor where
  facultyName : String
  subject : String
  sectionCode : Option String
  deriving DecidableEq, Repr

/-- The template literal `${day}-${period}`. -/
def slotKey (day : String) (period : Nat) : String :=
  day ++ "-" ++ toString period

/-- The expression `faculty.subject?.code || 'N/A'`. -/
def subjectLabel (faculty : Faculty) : String :=
  match faculty.subject with
  | none => "N/A"
  | some s => if s.code = "" then "N/A" else s.code

/-- The expression `faculty.sections?.some(section => section._id === selectedSectionId)`,
as a truth value. -/
def teachesThisSection (faculty : Faculty) (selectedSectionId : String) : Bool :=
  match faculty.sections with
  | none => false
  | some ss => ss.any (fun s => decide (s._id = selectedSectionId))

/-- The expression `faculty.sections.find(s => s._id === selectedSectionId)?.code`. -/
def sectionCodeOf (faculty : Faculty) (selectedSectionId : String) : Option String :=
  match faculty.sections with
  | none => none
  | some ss => (ss.find? (fun s => decide (s._id = selectedSectionId))).map Section.code

/-- The descriptor pushed for `faculty` and `selectedSectionId`. -/
def descriptorOf (faculty : Faculty) (selectedSectionId : String) : Descriptor :=
  { facultyName := faculty.name
    subject := subjectLabel faculty
    sectionCode := sectionCodeOf faculty selectedSectionId }

/-- The two statements `if (!blocked[key]) blocked[key] = []` and
`blocked[key].push(d)`. -/
def pushBlocked (blocked : JsObject (List Descriptor)) (key : String) (d : Descriptor) :
    JsObject (List Descriptor) :=
  let blocked1 :=
    match blocked.get key with
    | none => blocked.set key []
    | some _ => blocked
  match blocked1.get key with
  | none => blocked1
  | some l => blocked1.set key (l ++ [d])

/-- The body of `faculty.availability.forEach(avail => avail.periods.forEach(...))`. -/
def blockFaculty (blocked : JsObject (List Descriptor)) (faculty : Faculty)
    (selectedSectionId : String) (availability : List Availability) :
    JsObject (List Descriptor) :=
  availability.foldl
    (fun b avail =>
      avail.periods.foldl
        (fun b1 period =>
          pushBlocked b1 (slotKey avail.day period) (descriptorOf faculty selectedSectionId))
        b)
    blocked

/-- The body of `otherFaculty.forEach(faculty => ...)` for one selected section. -/
def blockSection (blocked : JsObject (List Descriptor)) (otherFaculty : List Faculty)
    (selectedSectionId : String) : JsObject (List Descriptor) :=
  otherFaculty.foldl
    (fun b faculty =>
      match teachesThisSection faculty selectedSectionId, faculty.availability with
      | true, some availability => blockFaculty b faculty selectedSectionId availability
      | _, _ => b)
    blocked

/-- The list `facultyList.filter(f => f._id !== editingId)`; `editingId` is `none`
for `null`. -/
def otherFaculty (facultyList : List Faculty) (editingId : Option String) : List Faculty :=
  facultyList.filter (fun f => decide (some f._id ≠ editingId))

/-- The function `calculateBlockedSlots`: the object `blocked` it hands to
`setBlockedSlots`. -/
def calculateBlockedSlots (facultyList : List Faculty) (selectedSections : List String)
    (editingId : Option String) : JsObject (List Descriptor) :=
  selectedSections.foldl
    (fun b selectedSectionId =>
      blockSection b (otherFaculty facultyList editingId) selectedSectionId)
    []

/-- The form data of the page. -/
structure FormData where
  name : String
  subject : String
  department : String
  selectedSections : List String
  availability : Option (List Availability)
  deriving DecidableEq, Repr

/-- The React state of the page that the grid uses. -/
structure State where
  facultyList : List Faculty
  periods : List Nat
  formData : FormData
  editingId : Option String
  selectedSlots : JsObject Bool
  blockedSlots : JsObject (List Descriptor)
  deriving DecidableEq, Repr

/-- The period list `Array.from({ length: numPeriods }, (_, i) => i + 1)`. -/
def periodsOf (numPeriods : Nat) : List Nat :=
  (List.range numPeriods).map (fun i => i + 1)

/-- The effect that recomputes the blocked slots (dependencies: the selected
sections, the roster and the editing id). -/
def blockedSlotsEffect (st : State) : State :=
  if st.formData.selectedSections.length > 0 then
    { st with blockedSlots :=
        calculateBlockedSlots st.facultyList st.formData.selectedSections st.editingId }
  else
    { st with blockedSlots := [] }

/-- Truthiness of `selectedSlots[key]`. -/
def isSelected (selectedSlots : JsObject Bool) (key : String) : Bool :=
  match selectedSlots.get key with
  | some b => b
  | none => false

/-- The handler `handleSlotClick`; the alert shown for a blocked slot is not part of
the state. -/
def handleSlotClick (st : State) (day : String) (period : Nat) : State :=
  let key := slotKey day period
  match st.blockedSlots.get key with
  | some _ => st
  | none => { st with selectedSlots := st.selectedSlots.set key (!(isSelected st.selectedSlots key)) }

/-- The function `convertSlotsToAvailability`, reading `periods` and `selectedSlots`. -/
def convertSlotsToAvailability (periods : List Nat) (selectedSlots : JsObject Bool) :
    List Availability :=
  DAYS.foldl
    (fun availability day =>
      let periodsForDay :=
        periods.foldl
          (fun acc period =>
            if isSelected selectedSlots (slotKey day period) then acc ++ [period] else acc)
          []
      if periodsForDay.length > 0 then
        availability ++ [{ day := day, periods := periodsForDay }]
      else availability)
    []

/-- The object `slots` that `handleEdit` builds from `faculty.availability`. -/
def restoreSlots (availability : Option (List Availability)) : JsObject Bool :=
  match availability with
  | none => []
  | some av =>
    av.foldl
      (fun slots avail =>
        avail.periods.foldl (fun s period => s.set (slotKey avail.day period) true) slots)
      []

/-- The handler `handleEdit`: the state it sets (`editingId`, `formData`,
`selectedSlots`). The blocked-slot effect runs after it, see `blockedSlotsEffect`. -/
def handleEdit (st : State) (faculty : Faculty) : State :=
  { st with
    editingId := some faculty._id
    formData :=
      { name := faculty.name
        subject := match faculty.subject with
          | some s => s.code
          | none => ""
        department := match faculty.subject with
          | some s => s.departmentId.getD ""
          | none => ""
        selectedSections := match faculty.sections with
          | some ss => ss.map Section._id
          | none => []
        availability := faculty.availability }
    selectedSlots := restoreSlots faculty.availability }

/-- The handler `handleSectionToggle`: the state it sets. The blocked-slot effect runs
after it, see `blockedSlotsEffect`. -/
def handleSectionToggle (st : State) (sectionId : String) : State :=
  { st with
    formData :=
      { st.formData with
        selectedSections :=
          if st.formData.selectedSections.contains sectionId then
            st.formData.selectedSections.filter (fun id => decide (id ≠ sectionId))
          else st.formData.selectedSections ++ [sectionId] } }

/-! ## The faculty controller and its store -/

/-- A subject document; `department` is the `_id` of the populated department, `none`
when the reference does not resolve. -/
structure StoredSubject where
  _id : String
  code : String
  department : Option String
  deriving DecidableEq, Repr

/-- A section document. -/
structure StoredSection where
  _id : String
  code : String
  department : String
  deriving DecidableEq, Repr

/-- A faculty document of `models/Faculty.js`: references are identifiers. -/
structure StoredFaculty where
  _id : String
  name : String
  subject : String
  department : String
  sections : List String
  availability : List Availability
  deriving DecidableEq, Repr

/-- The collections the controller reads and writes. -/
structure Store where
  subjects : List StoredSubject
  sections : List StoredSection
  faculty : List StoredFaculty
  deriving DecidableEq, Repr

/-- The request body `{ name, subjectCode, sections, availability }`; a missing field is
`none`. -/
structure Body where
  name : Option String
  subjectCode : Option String
  sections : Option (List String)
  availability : Option (List Availability)
  deriving DecidableEq, Repr

/-- The JSON response with its HTTP status. -/
structure Response where
  status : Nat
  success : Bool
  message : String
  data : Option StoredFaculty
  deriving DecidableEq, Repr

/-- The failure response `res.status(status).json({ success: false, message })`. -/
def failure (status : Nat) (message : String) : Response :=
  { status := status, success := false, message := message, data := none }

/-- The response of a `catch` block. -/
def serverError : Response := failure 500 "Server error"

/-- The validators that `facultySchema` declares: `name` is required (after trimming),
`availability` holds at least one entry, and each entry's `day` is in the `enum`. -/
def schemaValid (doc : StoredFaculty) : Bool :=
  decide (doc.name ≠ "") && decide (doc.availability.length > 0) &&
    doc.availability.all (fun a => decide (a.day ∈ DAYS))

/-- The characters that `String.prototype.trim` removes: white space and line
terminators, by code point. -/
def isTrimChar (c : Char) : Bool :=
  let n := c.toNat
  n = 9 || n = 10 || n = 11 || n = 12 || n = 13 || n = 32 || n = 160 || n = 5760 ||
    (8192 ≤ n && n ≤ 8202) || n = 8232 || n = 8233 || n = 8239 || n = 8287 ||
    n = 12288 || n = 65279

/-- The method `name.trim()`. -/
def trim (s : String) : String :=
  String.mk ((s.data.dropWhile isTrimChar).reverse.dropWhile isTrimChar).reverse

/-- The query `Subject.findOne({ code: subjectCode })`. -/
def findSubject (st : Store) (subjectCode : String) : Option StoredSubject :=
  st.subjects.find? (fun s => decide (s.code = subjectCode))

/-- The query `Faculty.findById(id)`. -/
def findFaculty (st : Store) (id : String) : Option StoredFaculty :=
  st.faculty.find? (fun f => decide (f._id = id))

/-- The first document with identifier `id` replaced by `doc`. -/
def replaceById (id : String) (doc : StoredFaculty) : List StoredFaculty → List StoredFaculty
  | [] => []
  | f :: rest => if f._id = id then doc :: rest else f :: replaceById id doc rest

/-- The first document with identifier `id` removed. -/
def removeById (id : String) : List StoredFaculty → List StoredFaculty
  | [] => []
  | f :: rest => if f._id = id then rest else f :: removeById id rest

/-- The handler `createFaculty` up to and including the write `Faculty.create`
(lines 66-113), with the answer it gives when the read that follows the write
succeeds; `data` is the written document, not yet populated. `newId` is the
identifier the store gives the new document. A thrown error (a failed schema
validation, a duplicate identifier, a subject whose department is missing) is answered
by the `catch` block. The read that follows the write is in `createFacultyHandler`. -/
def createFaculty (st : Store) (body : Body) (newId : String) : Response × Store :=
  match body.name, body.subjectCode, body.sections, body.availability with
  | some name, some subjectCode, some sections, some availability =>
    if name = "" ∨ subjectCode = "" then
      (failure 400 "Name, subject, sections, and availability are required", st)
    else if sections.length = 0 then
      (failure 400 "At least one section must be selected", st)
    else if availability.length = 0 then
      (failure 400 "At least one availability slot is required", st)
    else
      match findSubject st subjectCode with
      | none => (failure 404 ("Subject with code \"" ++ subjectCode ++ "\" not found"), st)
      | some subject =>
        match subject.department with
        | none => (serverError, st)
        | some department =>
          let doc : StoredFaculty :=
            { _id := newId
              name := trim name
              subject := subject._id
              department := department
              sections := sections
              availability := availability }
          if schemaValid doc = true ∧ (findFaculty st newId).isNone = true then
            ({ status := 201, success := true, message := "Faculty created successfully",
               data := some doc },
             { st with faculty := st.faculty ++ [doc] })
          else (serverError, st)
  | _, _, _, _ =>
    (failure 400 "Name, subject, sections, and availability are required", st)

/-- The handler `updateFaculty` for `req.params.id = id`, up to and including the
write `findByIdAndUpdate`, with the answer it gives when the populating read chained
on it succeeds; `data` is the written document, not yet populated. The update
validators (`runValidators: true`) run before the document is looked up. The
populating read is in `updateFacultyHandler`. -/
def updateFaculty (st : Store) (id : String) (body : Body) : Response × Store :=
  match body.name, body.subjectCode, body.sections, body.availability with
  | some name, some subjectCode, some sections, some availability =>
    if name = "" ∨ subjectCode = "" then
      (failure 400 "Name, subject, sections, and availability are required", st)
    else if sections.length = 0 then
      (failure 400 "At least one section must be selected", st)
    else
      match findSubject st subjectCode with
      | none => (failure 404 ("Subject with code \"" ++ subjectCode ++ "\" not found"), st)
      | some subject =>
        match subject.department with
        | none => (serverError, st)
        | some department =>
          let doc : StoredFaculty :=
            { _id := id
              name := trim name
              subject := subject._id
              department := department
              sections := sections
              availability := availability }
          if schemaValid doc = true then
            match findFaculty st id with
            | none => (failure 404 "Faculty not found", st)
            | some _ =>
              ({ status := 200, success := true, message := "Faculty updated successfully",
                 data := some doc },
               { st with faculty := replaceById id doc st.faculty })
          else (serverError, st)
  | _, _, _, _ =>
    (failure 400 "Name, subject, sections, and availability are required", st)

/-- The handler `deleteFaculty` for `req.params.id = id`. -/
def deleteFaculty (st : Store) (id : String) : Response × Store :=
  match findFaculty st id with
  | none => (failure 404 "Faculty not found", st)
  | some _ =>
    ({ status := 200, success := true, message := "Faculty deleted successfully",
       data := none },
     { st with faculty := removeById id st.faculty })

/-- Two availability lists have a `(day, period)` in common. -/
def commonSlot (a b : List Availability) : Prop :=
  ∃ x ∈ a, ∃ y ∈ b, x.day = y.day ∧ ∃ p ∈ x.periods, p ∈ y.periods

/-- Two section lists have a section in common. -/
def sharedSection (s t : List String) : Prop :=
  ∃ x ∈ s, x ∈ t

/-- Two faculty documents claim the same timetable cell of a section both teach. -/
def Conflict (f g : StoredFaculty) : Prop :=
  sharedSection f.sections g.sections ∧ commonSlot f.availability g.availability

instance (a b : List Availability) : Decidable (commonSlot a b) := by
  unfold commonSlot; infer_instance

instance (s t : List String) : Decidable (sharedSection s t) := by
  unfold sharedSection; infer_instance

instance (f g : StoredFaculty) : Decidable (Conflict f g) := by
  unfold Conflict; infer_instance

/-- The central invariant of the store: no two faculty documents that share a section
have a `(day, period)` in common. -/
def centralInvariant (st : Store) : Prop :=
  st.faculty.Pairwise (fun f g => ¬ Conflict f g)

instance (st : Store) : Decidable (centralInvariant st) := by
  unfold centralInvariant; infer_instance

/-- The identifiers of the faculty documents are pairwise distinct. -/
def uniqueIds (st : Store) : Prop :=
  (st.faculty.map StoredFaculty._id).Nodup

instance (st : Store) : Decidable (uniqueIds st) := by
  unfold uniqueIds; infer_instance

/-- The submission of `body` claims a timetable cell of a section that the stored
document `g` also claims. -/
def submissionConflict (body : Body) (g : StoredFaculty) : Prop :=
  sharedSection (body.sections.getD []) g.sections ∧
    commonSlot (body.availability.getD []) g.availability

instance (body : Body) (g : StoredFaculty) : Decidable (submissionConflict body g) := by
  unfold submissionConflict; infer_instance

/-! ## Auxiliary notions used to state the properties -/

/-- The descriptor list of a cell: `blocked[key]`, read as the empty list when the key
is absent. -/
def conflictsAt (blocked : JsObject (List Descriptor)) (key : String) : List Descriptor :=
  (blocked.get key).getD []

/-- The `(key, descriptor)` pairs that one faculty pushes for one selected section, in
the order of the two inner loops. -/
def facultyPushes (faculty : Faculty) (selectedSectionId : String) :
    List (String × Descriptor) :=
  match teachesThisSection faculty selectedSectionId, faculty.availability with
  | true, some availability =>
    availability.flatMap (fun avail =>
      avail.periods.map (fun period =>
        (slotKey avail.day period, descriptorOf faculty selectedSectionId)))
  | _, _ => []

/-- Every push of `calculateBlockedSlots`, in execution order: selected sections
outermost, then the other faculty. -/
def allPushes (others : List Faculty) (selectedSections : List String) :
    List (String × Descriptor) :=
  selectedSections.flatMap (fun sid => others.flatMap (fun f => facultyPushes f sid))

/-- Replaying a sequence of pushes on a blocked map. -/
def replay (blocked : JsObject (List Descriptor)) (pushes : List (String × Descriptor)) :
    JsObject (List Descriptor) :=
  pushes.foldl (fun b e => pushBlocked b e.1 e.2) blocked

/-- The faculty has an availability entry for `day` that contains `period`; a missing
availability list has no entry. -/
def availableAt (faculty : Faculty) (day : String) (period : Nat) : Prop :=
  ∃ avail ∈ faculty.availability.getD [], avail.day = day ∧ period ∈ avail.periods

/-- The faculty teaches the section with identifier `sid`; a missing section list has
no section. -/
def teaches (faculty : Faculty) (sid : String) : Prop :=
  ∃ s ∈ faculty.sections.getD [], s._id = sid

instance (faculty : Faculty) (day : String) (period : Nat) :
    Decidable (availableAt faculty day period) := by
  unfold availableAt; infer_instance

instance (faculty : Faculty) (sid : String) : Decidable (teaches faculty sid) := by
  unfold teaches; infer_instance

/-- Well-formed availability of every roster record: no two entries of a record have
the same day and no entry lists a period twice. -/
def rosterWellFormed (R : List Faculty) : Prop :=
  ∀ f ∈ R, ((f.availability.getD []).map Availability.day).Nodup ∧
    ∀ a ∈ f.availability.getD [], a.periods.Nodup

/-- The descriptors that faculty `f` pushes at `key` for the selected section `sid`. -/
def pushedAt (key : String) (f : Faculty) (sid : String) : List Descriptor :=
  ((facultyPushes f sid).filter (fun ev => decide (ev.1 = key))).map Prod.snd

/-- The periods of `day` that the serializer collects. -/
def periodsForDay (periods : List Nat) (selectedSlots : JsObject Bool) (day : String) :
    List Nat :=
  periods.filter (fun period => isSelected selectedSlots (slotKey day period))

/-- The entry the serializer emits for `day`, if any. -/
def dayEntry (periods : List Nat) (selectedSlots : JsObject Bool) (day : String) :
    Option Availability :=
  if (periodsForDay periods selectedSlots day).length > 0 then
    some { day := day, periods := periodsForDay periods selectedSlots day }
  else none

/-- A well-formed availability list for `n` periods a day: every entry's day is one of
the five weekdays, its periods are non-empty, strictly ascending (hence duplicate-free)
and within `1..n`, and no two entries have the same day. -/
def wellFormedAvailability (n : Nat) (x : List Availability) : Prop :=
  (∀ a ∈ x, a.day ∈ DAYS ∧ a.periods ≠ [] ∧ a.periods.Pairwise (fun p q => p < q) ∧
      ∀ p ∈ a.periods, 1 ≤ p ∧ p ≤ n) ∧
    (x.map Availability.day).Nodup

instance (n : Nat) (x : List Availability) : Decidable (wellFormedAvailability n x) := by
  unfold wellFormedAvailability; infer_instance

/-- The entries' days appear in the order of `DAYS` (Monday to Friday). -/
def inWeekOrder (x : List Availability) : Prop :=
  List.Sublist (x.map Availability.day) DAYS

instance (x : List Availability) : Decidable (inWeekOrder x) := by
  unfold inWeekOrder; infer_instance

/-! ## Example data -/

/-- A record teaching only `sec2`, free on Monday period 1. -/
def exampleFirst : Faculty :=
  { _id := "f1", name := "F1", subject := none,
    sections := some [⟨"sec2", "2B"⟩], availability := some [⟨"Monday", [1]⟩] }

/-- A record teaching only `sec1`, free on Monday period 1. -/
def exampleSecond : Faculty :=
  { _id := "f2", name := "F2", subject := none,
    sections := some [⟨"sec1", "2A"⟩], availability := some [⟨"Monday", [1]⟩] }

/-- The initial state of the page (the `useState` defaults), with an empty roster. -/
def initialState : State :=
  { facultyList := []
    periods := [1, 2, 3, 4, 5]
    formData :=
      { name := "", subject := "", department := "", selectedSections := [],
        availability := some [] }
    editingId := none
    selectedSlots := []
    blockedSlots := [] }

/-- A store with one subject, one section and one faculty document that teaches the
section on Monday period 1. -/
def exampleStore : Store :=
  { subjects := [⟨"sub1", "CS101", some "dep1"⟩]
    sections := [⟨"sec1", "2A", "dep1"⟩]
    faculty := [⟨"f1", "Asha", "sub1", "dep1", ["sec1"], [⟨"Monday", [1]⟩]⟩] }

/-- A submission for the same section and the same cell as the stored document of
`exampleStore`. -/
def exampleClash : Body :=
  { name := some "Ravi", subjectCode := some "CS101", sections := some ["sec1"],
    availability := some [⟨"Monday", [1]⟩] }

/-- A submission for the same section as the stored document of `exampleStore`, in
another cell. -/
def exampleFree : Body :=
  { name := some "Ravi", subjectCode := some "CS101", sections := some ["sec1"],
    availability := some [⟨"Monday", [2]⟩] }

/-! ## Further notions for the controller -/

/-- The section identifier resolves to a stored section of the given department. -/
def sectionInDepartment (st : Store) (department : String) (sid : String) : Prop :=
  ∃ s ∈ st.sections, s._id = sid ∧ s.department = department

instance (st : Store) (department sid : String) :
    Decidable (sectionInDepartment st department sid) := by
  unfold sectionInDepartment; infer_instance

/-- The availability list has two entries for the same day. -/
def hasDuplicateDay (availability : List Availability) : Prop :=
  ¬ (availability.map Availability.day).Nodup

/-- The availability list has an entry with an empty period list. -/
def hasEmptyPeriods (availability : List Availability) : Prop :=
  ∃ a ∈ availability, a.periods = []

instance (availability : List Availability) : Decidable (hasDuplicateDay availability) := by
  unfold hasDuplicateDay; infer_instance

instance (availability : List Availability) : Decidable (hasEmptyPeriods availability) := by
  unfold hasEmptyPeriods; infer_instance

/-- The document that the controller writes for the identifier `id`. -/
def facultyDocument (id name : String) (subject : StoredSubject) (department : String)
    (sections : List String) (availability : List Availability) : StoredFaculty :=
  { _id := id
    name := trim name
    subject := subject._id
    department := department
    sections := sections
    availability := availability }

/-- The store of `exampleStore` with a second section, of another department. -/
def exampleStoreOther : Store :=
  { exampleStore with
    sections := [⟨"sec1", "2A", "dep1"⟩, ⟨"sec9", "3A", "dep2"⟩] }

/-! ## The blocked-slot computation with its dereferences made explicit

In this second reading of `calculateBlockedSlots` the roster is taken as the page
receives it: beside the sections, the subject and the availability of a record, the
period list of an availability entry may be missing. A method call on a value that may
be `undefined` (`faculty.sections.find`, `faculty.availability.forEach`,
`avail.periods.forEach`) is a possible `TypeError`, and the result is an `Except`.
Optional chaining (`?.`) and truthiness tests raise nothing. -/

/-- An availability entry as received: `periods` is `none` when the field is missing. -/
structure RawAvailability where
  day : String
  periods : Option (List Nat)
  deriving DecidableEq, Repr

/-- A faculty record as received, with possibly incomplete availability entries. -/
structure RawFaculty where
  _id : String
  name : String
  subject : Option Subject
  sections : Option (List Section)
  availability : Option (List RawAvailability)
  deriving DecidableEq, Repr

/-- The typed view of an entry: a missing period list is read as the empty list. -/
def RawAvailability.typed (a : RawAvailability) : Availability :=
  { day := a.day, periods := a.periods.getD [] }

/-- The typed view of a record, used to read its name, subject and sections. -/
def RawFaculty.typed (f : RawFaculty) : Faculty :=
  { _id := f._id
    name := f.name
    subject := f.subject
    sections := f.sections
    availability := f.availability.map (fun l => l.map RawAvailability.typed) }

/-- A typed entry as a received one: its period list is present. -/
def Availability.raw (a : Availability) : RawAvailability :=
  { day := a.day, periods := some a.periods }

/-- A typed record as a received one: every period list is present. -/
def Faculty.raw (f : Faculty) : RawFaculty :=
  { _id := f._id
    name := f.name
    subject := f.subject
    sections := f.sections
    availability := f.availability.map (fun l => l.map Availability.raw) }

/-- Every availability entry of every record carries a period list. -/
def periodsPresent (R : List RawFaculty) : Prop :=
  ∀ f ∈ R, ∀ a ∈ f.availability.getD [], a.periods.isSome = true

instance (R : List RawFaculty) : Decidable (periodsPresent R) := by
  unfold periodsPresent; infer_instance

/-- The expression `faculty.sections.find(s => s._id === selectedSectionId)?.code`; the
call of `find` raises when `faculty.sections` is missing. -/
def sectionCodeOfChecked (faculty : Faculty) (selectedSectionId : String) :
    Except String (Option String) :=
  match faculty.sections with
  | none => Except.error "TypeError: cannot read properties of undefined (reading 'find')"
  | some ss =>
    Except.ok ((ss.find? (fun s => decide (s._id = selectedSectionId))).map Section.code)

/-- The two inner loops over `faculty.availability` and `avail.periods`: the call
`avail.periods.forEach` raises when the period list is missing, and the loop body
holds the dereference of `faculty.sections`. -/
def blockFacultyChecked (blocked : JsObject (List Descriptor)) (faculty : RawFaculty)
    (selectedSectionId : String) (availability : List RawAvailability) :
    Except String (JsObject (List Descriptor)) :=
  availability.foldlM
    (fun b avail =>
      match avail.periods with
      | none =>
        Except.error "TypeError: cannot read properties of undefined (reading 'forEach')"
      | some periods =>
        periods.foldlM
          (fun b1 period => do
            let sectionCode ← sectionCodeOfChecked faculty.typed selectedSectionId
            pure (pushBlocked b1 (slotKey avail.day period)
              { facultyName := faculty.name
                subject := subjectLabel faculty.typed
                sectionCode := sectionCode }))
          b)
    blocked

/-- The loop over the other faculty for one selected section: the test
`teachesThisSection && faculty.availability`, then `faculty.availability.forEach`,
which raises when the availability is missing. -/
def blockSectionChecked (blocked : JsObject (List Descriptor)) (others : List RawFaculty)
    (selectedSectionId : String) : Except String (JsObject (List Descriptor)) :=
  others.foldlM
    (fun b faculty =>
      if teachesThisSection faculty.typed selectedSectionId &&
          faculty.availability.isSome then
        match faculty.availability with
        | none =>
          Except.error "TypeError: cannot read properties of undefined (reading 'forEach')"
        | some availability => blockFacultyChecked b faculty selectedSectionId availability
      else pure b)
    blocked

/-- The function `calculateBlockedSlots` on a roster as received, with its possible
errors. -/
def calculateBlockedSlotsChecked (facultyList : List RawFaculty)
    (selectedSections : List String) (editingId : Option String) :
    Except String (JsObject (List Descriptor)) :=
  selectedSections.foldlM
    (fun b selectedSectionId =>
      blockSectionChecked b
        (facultyList.filter (fun f => decide (some f._id ≠ editingId))) selectedSectionId)
    []

/-! ## Sequences of clicks -/

/-- The state after a finite sequence of `handleSlotClick` calls, one `(day, period)`
after the other. -/
def clickSequence (st : State) (clicks : List (String × Nat)) : State :=
  clicks.foldl (fun s c => handleSlotClick s c.1 c.2) st

/-- No selected cell is blocked: no cell `(day, period)` whose key is selected has its
key in the blocked map. -/
def noSelectedCellBlocked (selectedSlots : JsObject Bool)
    (blockedSlots : JsObject (List Descriptor)) : Prop :=
  ∀ (day : String) (period : Nat),
    isSelected selectedSlots (slotKey day period) = true →
      slotKey day period ∉ blockedSlots.keys

/-! ## The handlers with the read that follows the write -/

/-- A faculty document as the controller returns it, after `populate('subject')`,
`populate('department')` and `populate('sections')`. The store holds no collection of
departments: the populated department is kept as its identifier. -/
structure PopulatedFaculty where
  _id : String
  name : String
  subject : Option StoredSubject
  department : String
  sections : List StoredSection
  availability : List Availability
  deriving DecidableEq, Repr

/-- The three `populate` calls: the subject of that identifier, if any, and the stored
sections that the section identifiers resolve to, in the order of the identifiers. -/
def populate (st : Store) (doc : StoredFaculty) : PopulatedFaculty :=
  { _id := doc._id
    name := doc.name
    subject := st.subjects.find? (fun s => decide (s._id = doc.subject))
    department := doc.department
    sections := doc.sections.filterMap (fun sid =>
      st.sections.find? (fun s => decide (s._id = sid)))
    availability := doc.availability }

/-- The JSON response of a handler, with the populated document. -/
structure HandlerResponse where
  status : Nat
  success : Bool
  message : String
  data : Option PopulatedFaculty
  deriving DecidableEq, Repr

/-- The failure response `res.status(status).json({ success: false, message })`. -/
def handlerFailure (status : Nat) (message : String) : HandlerResponse :=
  { status := status, success := false, message := message, data := none }

/-- The whole handler `createFaculty`: after the write, the read
`Faculty.findById(faculty._id)` with its three `populate` calls (lines 115-121) and
the 201 response. `readThrows` says that this read throws (a fault of the store); a
throw, like a document that the read does not find, is answered by the `catch` block
with 500, after the write. -/
def createFacultyHandler (st : Store) (body : Body) (newId : String) (readThrows : Bool) :
    HandlerResponse × Store :=
  match (createFaculty st body newId).1.data with
  | none =>
    ({ status := (createFaculty st body newId).1.status
       success := (createFaculty st body newId).1.success
       message := (createFaculty st body newId).1.message
       data := none },
     (createFaculty st body newId).2)
  | some faculty =>
    if readThrows then
      (handlerFailure 500 "Server error", (createFaculty st body newId).2)
    else
      match findFaculty (createFaculty st body newId).2 faculty._id with
      | none => (handlerFailure 500 "Server error", (createFaculty st body newId).2)
      | some found =>
        ({ status := 201, success := true, message := "Faculty created successfully",
           data := some (populate (createFaculty st body newId).2 found) },
         (createFaculty st body newId).2)

/-- The whole handler `updateFaculty`: the three `populate` calls chained on
`findByIdAndUpdate` (lines 186-188) run after the update is applied. `readThrows`
says that this populating read throws; the throw is answered by the `catch` block with
500, after the write. -/
def updateFacultyHandler (st : Store) (id : String) (body : Body) (readThrows : Bool) :
    HandlerResponse × Store :=
  match (updateFaculty st id body).1.data with
  | none =>
    ({ status := (updateFaculty st id body).1.status
       success := (updateFaculty st id body).1.success
       message := (updateFaculty st id body).1.message
       data := none },
     (updateFaculty st id body).2)
  | some faculty =>
    if readThrows then
      (handlerFailure 500 "Server error", (updateFaculty st id body).2)
    else
      ({ status := 200, success := true, message := "Faculty updated successfully",
         data := some (populate (updateFaculty st id body).2 faculty) },
       (updateFaculty st id body).2)

/-! ## Decimal printing is injective -/

theorem digitChar_ne_dash {n : Nat} (h : n < 10) : Nat.digitChar n ≠ '-' := by
  interval_cases n <;> decide

theorem digitChar_inj {a b : Nat} (ha : a < 10) (hb : b < 10)
    (h : Nat.digitChar a = Nat.digitChar b) : a = b := by
  interval_cases a <;> interval_cases b <;> first | rfl | (exact absurd h (by decide))

theorem toDigitsCore_append (fuel : Nat) :
    ∀ (n : Nat) (ds : List Char),
      Nat.toDigitsCore 10 fuel n ds = Nat.toDigitsCore 10 fuel n [] ++ ds := by
  induction fuel with
  | zero => intro n ds; simp [Nat.toDigitsCore]
  | succ fuel ih =>
    intro n ds
    simp only [Nat.toDigitsCore]
    split
    · simp
    · rw [ih (n / 10) (Nat.digitChar (n % 10) :: ds), ih (n / 10) [Nat.digitChar (n % 10)]]
      simp

theorem toDigitsCore_fuel (fuel : Nat) :
    ∀ (n fuel2 : Nat), n < fuel → n < fuel2 →
      Nat.toDigitsCore 10 fuel n [] = Nat.toDigitsCore 10 fuel2 n [] := by
  induction fuel with
  | zero => intro n fuel2 h; omega
  | succ fuel ih =>
    intro n fuel2 h1 h2
    obtain ⟨f2, rfl⟩ : ∃ f2, fuel2 = f2 + 1 := ⟨fuel2 - 1, by omega⟩
    simp only [Nat.toDigitsCore]
    split
    · rfl
    · rename_i hne
      have hlt : n / 10 < n := Nat.div_lt_self (by omega) (by decide)
      rw [toDigitsCore_append fuel, toDigitsCore_append f2,
        ih (n / 10) f2 (by omega) (by omega)]

theorem toDigits_small {n : Nat} (h : n < 10) : Nat.toDigits 10 n = [Nat.digitChar n] := by
  have h0 : n / 10 = 0 := Nat.div_eq_of_lt h
  simp [Nat.toDigits, Nat.toDigitsCore, h0, Nat.mod_eq_of_lt h]

theorem toDigits_large {n : Nat} (h : 10 ≤ n) :
    Nat.toDigits 10 n = Nat.toDigits 10 (n / 10) ++ [Nat.digitChar (n % 10)] := by
  have h0 : n / 10 ≠ 0 := by omega
  have hlt : n / 10 < n := Nat.div_lt_self (by omega) (by decide)
  unfold Nat.toDigits
  rw [Nat.toDigitsCore]
  simp only [h0, if_false]
  rw [toDigitsCore_append, toDigitsCore_fuel n (n / 10) (n / 10 + 1) hlt (by omega)]

theorem toDigits_ne_nil (n : Nat) : Nat.toDigits 10 n ≠ [] := by
  by_cases h : n < 10
  · simp [toDigits_small h]
  · simp [toDigits_large (by omega : 10 ≤ n)]

theorem dash_not_mem_toDigits (n : Nat) : '-' ∉ Nat.toDigits 10 n := by
  induction n using Nat.strong_induction_on with
  | _ n ih =>
    by_cases h : n < 10
    · simp [toDigits_small h, (digitChar_ne_dash h).symm]
    · have hlt : n / 10 < n := Nat.div_lt_self (by omega) (by decide)
      simp [toDigits_large (by omega : 10 ≤ n), ih _ hlt, (digitChar_ne_dash (Nat.mod_lt n (by decide : 10 > 0))).symm]

theorem toDigits_inj : ∀ (n m : Nat), Nat.toDigits 10 n = Nat.toDigits 10 m → n = m := by
  intro n
  induction n using Nat.strong_induction_on with
  | _ n ih =>
    intro m h
    by_cases hn : n < 10 <;> by_cases hm : m < 10
    · rw [toDigits_small hn, toDigits_small hm] at h
      exact digitChar_inj hn hm (by simpa using h)
    · rw [toDigits_small hn, toDigits_large (by omega : 10 ≤ m)] at h
      have := congrArg List.length h
      have h2 := List.length_pos.2 (toDigits_ne_nil (m / 10))
      simp only [List.length_append, List.length_singleton, List.length_cons,
        List.length_nil] at this
      omega
    · rw [toDigits_small hm, toDigits_large (by omega : 10 ≤ n)] at h
      have := congrArg List.length h
      have h2 := List.length_pos.2 (toDigits_ne_nil (n / 10))
      simp only [List.length_append, List.length_singleton, List.length_cons,
        List.length_nil] at this
      omega
    · rw [toDigits_large (by omega : 10 ≤ n), toDigits_large (by omega : 10 ≤ m)] at h
      have hlt : n / 10 < n := Nat.div_lt_self (by omega) (by decide)
      obtain ⟨h1, h2⟩ := List.append_inj' h rfl
      have e1 := ih _ hlt _ h1
      have e2 := digitChar_inj (Nat.mod_lt _ (by decide)) (Nat.mod_lt _ (by decide))
        (by simpa using h2)
      omega

/-- Two lists that agree after a separator absent from both tails agree part by part. -/
theorem split_at_last {α : Type} (a : α) :
    ∀ (r1 r2 l1 l2 : List α), a ∉ r1 → a ∉ r2 →
      l1 ++ a :: r1 = l2 ++ a :: r2 → l1 = l2 ∧ r1 = r2 := by
  intro r1 r2 l1 l2 h1 h2 h
  have hr := congrArg List.reverse h
  simp only [List.reverse_append, List.reverse_cons, List.append_assoc,
    List.singleton_append] at hr
  have key : ∀ (x y u v : List α), a ∉ x → a ∉ y → x ++ a :: u = y ++ a :: v →
      x = y ∧ u = v := by
    intro x
    induction x with
    | nil =>
      intro y u v _ hy e
      cases y with
      | nil => simpa using e
      | cons b y =>
        simp at e
        exact absurd e.1 (by intro hb; exact hy (by simp [hb]))
    | cons c x ihx =>
      intro y u v hx hy e
      cases y with
      | nil =>
        simp at e
        exact absurd e.1 (by intro hb; exact hx (by simp [hb]))
      | cons b y =>
        simp at e
        have := ihx y u v (by intro hm; exact hx (by simp [hm]))
          (by intro hm; exact hy (by simp [hm])) e.2
        exact ⟨by rw [e.1, this.1], this.2⟩
  have := key r1.reverse r2.reverse l1.reverse l2.reverse (by simpa using h1)
    (by simpa using h2) hr
  exact ⟨List.reverse_injective this.2, List.reverse_injective this.1⟩

/-- The key `${day}-${period}` determines the day and the period. -/
theorem slotKey_inj {d1 d2 : String} {p1 p2 : Nat} (h : slotKey d1 p1 = slotKey d2 p2) :
    d1 = d2 ∧ p1 = p2 := by
  have hd := congrArg String.data h
  simp only [slotKey, String.data_append] at hd
  have e1 : (toString p1).data = Nat.toDigits 10 p1 := rfl
  have e2 : (toString p2).data = Nat.toDigits 10 p2 := rfl
  rw [e1, e2] at hd
  simp only [List.append_assoc, List.singleton_append] at hd
  obtain ⟨h1, h2⟩ := split_at_last '-' _ _ _ _ (dash_not_mem_toDigits p1)
    (dash_not_mem_toDigits p2) hd
  exact ⟨String.ext h1, toDigits_inj _ _ h2⟩


/-! ## Reading an object after a write -/

namespace JsObject

theorem get_nil {α : Type} (key : String) : get ([] : JsObject α) key = none := rfl

theorem get_cons {α : Type} (k : String) (w : α) (rest : JsObject α) (key : String) :
    get ((k, w) :: rest) key = if key = k then some w else get rest key := by
  unfold get
  by_cases h : key = k
  · subst h; simp [List.lookup]
  · have hb : (key == k) = false := by simpa using h
    simp [List.lookup, hb, h]

theorem get_set {α : Type} (obj : JsObject α) (key k : String) (v : α) :
    (obj.set key v).get k = if k = key then some v else obj.get k := by
  induction obj with
  | nil =>
    by_cases h : k = key <;> simp [set, get_cons, get_nil, h]
  | cons e rest ih =>
    obtain ⟨k0, w⟩ := e
    by_cases h0 : k0 = key
    · subst h0
      by_cases h : k = k0 <;> simp [set, get_cons, h]
    · by_cases h : k = key
      · subst h
        have hne : ¬ k = k0 := fun e => h0 e.symm
        simp [set, h0, get_cons, ih, hne]
      · by_cases h1 : k = k0 <;> simp [set, h0, get_cons, ih, h, h1]

end JsObject

theorem get_pushBlocked (blocked : JsObject (List Descriptor)) (key k : String)
    (d : Descriptor) :
    (pushBlocked blocked key d).get k =
      if k = key then some (conflictsAt blocked key ++ [d]) else blocked.get k := by
  unfold pushBlocked conflictsAt
  cases hget : blocked.get key with
  | none =>
    by_cases h : k = key
    · simp [JsObject.get_set, h]
    · simp [JsObject.get_set, h]
  | some l =>
    by_cases h : k = key
    · simp [JsObject.get_set, h, hget]
    · simp [JsObject.get_set, h, hget]

theorem conflictsAt_pushBlocked (blocked : JsObject (List Descriptor)) (key k : String)
    (d : Descriptor) :
    conflictsAt (pushBlocked blocked key d) k =
      if k = key then conflictsAt blocked key ++ [d] else conflictsAt blocked k := by
  unfold conflictsAt
  rw [get_pushBlocked]
  by_cases h : k = key <;> simp [h, conflictsAt]

theorem replay_nil (blocked : JsObject (List Descriptor)) : replay blocked [] = blocked := rfl

theorem replay_cons (blocked : JsObject (List Descriptor)) (e : String × Descriptor)
    (pushes : List (String × Descriptor)) :
    replay blocked (e :: pushes) = replay (pushBlocked blocked e.1 e.2) pushes := rfl

theorem replay_append (blocked : JsObject (List Descriptor))
    (p q : List (String × Descriptor)) :
    replay blocked (p ++ q) = replay (replay blocked p) q := by
  simp [replay, List.foldl_append]

/-- The descriptor list of a cell after a replay: the old list followed by the
descriptors pushed at that key, in order. -/
theorem conflictsAt_replay (pushes : List (String × Descriptor)) :
    ∀ (blocked : JsObject (List Descriptor)) (k : String),
      conflictsAt (replay blocked pushes) k =
        conflictsAt blocked k ++
          (pushes.filter (fun e => decide (e.1 = k))).map Prod.snd := by
  induction pushes with
  | nil => intro blocked k; simp [replay_nil]
  | cons e rest ih =>
    intro blocked k
    rw [replay_cons, ih, conflictsAt_pushBlocked]
    by_cases h : k = e.1
    · subst h; simp
    · have h2 : ¬ e.1 = k := fun x => h x.symm
      simp [h, h2]

/-- A key is present after a replay iff it was present before or was pushed. -/
theorem get_replay_isSome (pushes : List (String × Descriptor)) :
    ∀ (blocked : JsObject (List Descriptor)) (k : String),
      ((replay blocked pushes).get k).isSome = true ↔
        (blocked.get k).isSome = true ∨ ∃ e ∈ pushes, e.1 = k := by
  induction pushes with
  | nil => intro blocked k; simp [replay_nil]
  | cons e rest ih =>
    intro blocked k
    rw [replay_cons, ih, get_pushBlocked]
    by_cases h : k = e.1
    · subst h; simp
    · have h2 : ¬ e.1 = k := fun x => h x.symm
      simp [h, h2]

/-- A replay from the empty map is empty only if nothing is pushed. -/
theorem replay_eq_nil_iff (pushes : List (String × Descriptor)) :
    replay [] pushes = [] ↔ pushes = [] := by
  constructor
  · intro h
    cases pushes with
    | nil => rfl
    | cons e rest =>
      have h1 := (get_replay_isSome (e :: rest) [] e.1).2 (Or.inr ⟨e, by simp, rfl⟩)
      rw [h] at h1
      simp [JsObject.get_nil] at h1
  · intro h; subst h; rfl

theorem blockFaculty_eq_replay (faculty : Faculty) (sid : String)
    (availability : List Availability) :
    ∀ (blocked : JsObject (List Descriptor)),
      blockFaculty blocked faculty sid availability =
        replay blocked (availability.flatMap (fun avail =>
          avail.periods.map (fun period =>
            (slotKey avail.day period, descriptorOf faculty sid)))) := by
  induction availability with
  | nil => intro blocked; rfl
  | cons a rest ih =>
    intro blocked
    have hin : ∀ (ps : List Nat) (b : JsObject (List Descriptor)),
        ps.foldl (fun b1 period =>
          pushBlocked b1 (slotKey a.day period) (descriptorOf faculty sid)) b =
        replay b (ps.map (fun period => (slotKey a.day period, descriptorOf faculty sid))) := by
      intro ps
      induction ps with
      | nil => intro b; rfl
      | cons p ps ihp => intro b; simp only [List.foldl_cons, List.map_cons, replay_cons, ihp]
    unfold blockFaculty at ih ⊢
    simp only [List.foldl_cons, List.flatMap_cons, replay_append]
    rw [ih, hin]

theorem blockSection_eq_replay (sid : String) (others : List Faculty) :
    ∀ (blocked : JsObject (List Descriptor)),
      blockSection blocked others sid =
        replay blocked (others.flatMap (fun f => facultyPushes f sid)) := by
  induction others with
  | nil => intro blocked; rfl
  | cons f rest ih =>
    intro blocked
    unfold blockSection at ih ⊢
    simp only [List.foldl_cons, List.flatMap_cons, replay_append]
    rw [ih]
    congr 1
    unfold facultyPushes
    cases teachesThisSection f sid <;> cases f.availability <;>
      simp [replay_nil, blockFaculty_eq_replay]

/-- The blocked map is the replay, from the empty map, of every push in execution
order. -/
theorem calculateBlockedSlots_eq_replay (facultyList : List Faculty)
    (selectedSections : List String) (editingId : Option String) :
    calculateBlockedSlots facultyList selectedSections editingId =
      replay [] (allPushes (otherFaculty facultyList editingId) selectedSections) := by
  unfold calculateBlockedSlots allPushes
  generalize otherFaculty facultyList editingId = others
  generalize ([] : JsObject (List Descriptor)) = b
  induction selectedSections generalizing b with
  | nil => rfl
  | cons sid rest ih =>
    simp only [List.foldl_cons, List.flatMap_cons, replay_append]
    rw [ih, blockSection_eq_replay]

/-! ## Which pushes happen -/

theorem teachesThisSection_iff (faculty : Faculty) (sid : String) :
    teachesThisSection faculty sid = true ↔ teaches faculty sid := by
  unfold teachesThisSection teaches
  cases faculty.sections with
  | none => simp
  | some ss => simp

theorem mem_facultyPushes (faculty : Faculty) (sid : String) (e : String × Descriptor) :
    e ∈ facultyPushes faculty sid ↔
      teaches faculty sid ∧ ∃ avail ∈ faculty.availability.getD [],
        ∃ period ∈ avail.periods,
          e = (slotKey avail.day period, descriptorOf faculty sid) := by
  rw [← teachesThisSection_iff]
  unfold facultyPushes
  cases ht : teachesThisSection faculty sid <;> cases ha : faculty.availability <;>
    simp [List.mem_flatMap, eq_comm]

theorem mem_allPushes (others : List Faculty) (selectedSections : List String)
    (e : String × Descriptor) :
    e ∈ allPushes others selectedSections ↔
      ∃ sid ∈ selectedSections, ∃ f ∈ others, e ∈ facultyPushes f sid := by
  simp [allPushes, List.mem_flatMap]

theorem mem_otherFaculty (facultyList : List Faculty) (editingId : Option String)
    (f : Faculty) :
    f ∈ otherFaculty facultyList editingId ↔ f ∈ facultyList ∧ some f._id ≠ editingId := by
  simp [otherFaculty]

/-- Some push of faculty `f` for section `sid` lands on the key of `(day, period)` iff
`f` teaches `sid` and is available in that cell. -/
theorem exists_push_at (f : Faculty) (sid day : String) (period : Nat) :
    (∃ e ∈ facultyPushes f sid, e.1 = slotKey day period) ↔
      teaches f sid ∧ availableAt f day period := by
  unfold availableAt
  constructor
  · rintro ⟨e, he, hk⟩
    obtain ⟨ht, a, ha, p, hp, rfl⟩ := (mem_facultyPushes f sid e).1 he
    obtain ⟨hd, hpp⟩ := slotKey_inj hk
    exact ⟨ht, a, ha, hd, hpp ▸ hp⟩
  · rintro ⟨ht, a, ha, hd, hp⟩
    refine ⟨(slotKey a.day period, descriptorOf f sid), ?_, by simp [hd]⟩
    exact (mem_facultyPushes f sid _).2 ⟨ht, a, ha, period, hp, rfl⟩

theorem mem_keys_iff {α : Type} (obj : JsObject α) (key : String) :
    key ∈ obj.keys ↔ (obj.get key).isSome = true := by
  induction obj with
  | nil => simp [JsObject.keys, JsObject.get_nil]
  | cons e rest ih =>
    obtain ⟨k, w⟩ := e
    rw [JsObject.get_cons]
    by_cases h : key = k
    · simp [JsObject.keys, h]
    · simp only [JsObject.keys, List.map_cons, List.mem_cons, h, false_or, if_false] at ih ⊢
      exact ih

/-- A key is in the blocked map iff some push lands on it. -/
theorem mem_keys_calculateBlockedSlots (facultyList : List Faculty)
    (selectedSections : List String) (editingId : Option String) (key : String) :
    key ∈ (calculateBlockedSlots facultyList selectedSections editingId).keys ↔
      ∃ e ∈ allPushes (otherFaculty facultyList editingId) selectedSections, e.1 = key := by
  rw [mem_keys_iff, calculateBlockedSlots_eq_replay, get_replay_isSome]
  simp [JsObject.get_nil]

theorem facultyPushes_of_no_availability (f : Faculty) (sid : String)
    (h : f.availability = none ∨ f.availability = some []) : facultyPushes f sid = [] := by
  unfold facultyPushes
  rcases h with h | h <;> rw [h] <;> cases teachesThisSection f sid <;> simp

theorem allPushes_nil_of_forall (others : List Faculty) (selectedSections : List String)
    (h : ∀ sid ∈ selectedSections, ∀ f ∈ others, facultyPushes f sid = []) :
    allPushes others selectedSections = [] := by
  unfold allPushes
  simp only [List.flatMap_eq_nil_iff]
  exact h

/-! ## The serializer as a filter -/

theorem foldl_push_filter {α : Type} (c : α → Bool) (l : List α) :
    ∀ init : List α,
      l.foldl (fun acc x => if c x then acc ++ [x] else acc) init = init ++ l.filter c := by
  induction l with
  | nil => intro init; simp
  | cons x rest ih =>
    intro init
    by_cases h : c x = true
    · simp [List.foldl_cons, List.filter_cons, h, ih]
    · simp [List.foldl_cons, List.filter_cons, h, ih]

theorem foldl_push_filterMap {α β : Type} (g : α → Option β) (step : List β → α → List β)
    (hstep : ∀ acc x, step acc x = match g x with
      | some b => acc ++ [b]
      | none => acc) (l : List α) :
    ∀ init : List β, l.foldl step init = init ++ l.filterMap g := by
  induction l with
  | nil => intro init; simp
  | cons x rest ih =>
    intro init
    rw [List.foldl_cons, ih, hstep, List.filterMap_cons]
    cases g x <;> simp

/-- The serializer keeps, for each day of `DAYS` in order, the entry of that day. -/
theorem convertSlotsToAvailability_eq (periods : List Nat) (selectedSlots : JsObject Bool) :
    convertSlotsToAvailability periods selectedSlots =
      DAYS.filterMap (dayEntry periods selectedSlots) := by
  unfold convertSlotsToAvailability
  rw [foldl_push_filterMap (dayEntry periods selectedSlots)]
  · simp
  · intro acc day
    have hp : List.foldl
        (fun acc period =>
          if isSelected selectedSlots (slotKey day period) = true then acc ++ [period]
          else acc) [] periods = periodsForDay periods selectedSlots day := by
      rw [foldl_push_filter (fun period => isSelected selectedSlots (slotKey day period))]
      simp [periodsForDay]
    simp only [hp, dayEntry]
    split <;> rfl

theorem mem_periodsOf (n p : Nat) : p ∈ periodsOf n ↔ 1 ≤ p ∧ p ≤ n := by
  unfold periodsOf
  simp only [List.mem_map, List.mem_range]
  constructor
  · rintro ⟨i, hi, rfl⟩; omega
  · rintro ⟨h1, h2⟩; exact ⟨p - 1, by omega, by omega⟩

theorem periodsOf_pairwise (n : Nat) : (periodsOf n).Pairwise (fun p q => p < q) := by
  unfold periodsOf
  rw [List.pairwise_map]
  exact (List.pairwise_lt_range n).imp (fun h => by omega)

theorem mem_periodsForDay (n : Nat) (selectedSlots : JsObject Bool) (day : String) (p : Nat) :
    p ∈ periodsForDay (periodsOf n) selectedSlots day ↔
      (1 ≤ p ∧ p ≤ n) ∧ isSelected selectedSlots (slotKey day p) = true := by
  simp [periodsForDay, mem_periodsOf]

theorem dayEntry_eq_some (periods : List Nat) (selectedSlots : JsObject Bool)
    (day : String) (a : Availability) :
    dayEntry periods selectedSlots day = some a ↔
      periodsForDay periods selectedSlots day ≠ [] ∧
        a = { day := day, periods := periodsForDay periods selectedSlots day } := by
  unfold dayEntry
  by_cases h : periodsForDay periods selectedSlots day = []
  · simp [h]
  · have hpos : (periodsForDay periods selectedSlots day).length > 0 :=
      List.length_pos.2 h
    simp [hpos, h, eq_comm]

theorem mem_convertSlotsToAvailability (periods : List Nat) (selectedSlots : JsObject Bool)
    (a : Availability) :
    a ∈ convertSlotsToAvailability periods selectedSlots ↔
      a.day ∈ DAYS ∧ a.periods ≠ [] ∧
        a.periods = periodsForDay periods selectedSlots a.day := by
  rw [convertSlotsToAvailability_eq, List.mem_filterMap]
  constructor
  · rintro ⟨d, hd, hsome⟩
    obtain ⟨hne, rfl⟩ := (dayEntry_eq_some _ _ _ _).1 hsome
    exact ⟨hd, hne, rfl⟩
  · rintro ⟨hd, hne, heq⟩
    refine ⟨a.day, hd, (dayEntry_eq_some _ _ _ _).2 ⟨heq ▸ hne, ?_⟩⟩
    cases a
    simp only at heq ⊢
    rw [← heq]

theorem map_day_filterMap_sublist (periods : List Nat) (selectedSlots : JsObject Bool) :
    ∀ l : List String,
      List.Sublist ((l.filterMap (dayEntry periods selectedSlots)).map Availability.day) l := by
  intro l
  induction l with
  | nil => simp
  | cons d rest ih =>
    rw [List.filterMap_cons]
    cases h : dayEntry periods selectedSlots d with
    | none => exact ih.cons d
    | some a =>
      obtain ⟨_, rfl⟩ := (dayEntry_eq_some _ _ _ _).1 h
      simpa using ih.cons₂ d

/-! ## The slots restored by `handleEdit` -/

theorem isSelected_set (selectedSlots : JsObject Bool) (key k : String) (v : Bool) :
    isSelected (selectedSlots.set key v) k = if k = key then v else isSelected selectedSlots k := by
  unfold isSelected
  rw [JsObject.get_set]
  by_cases h : k = key <;> simp [h]

theorem isSelected_foldl_periods (day k : String) (ps : List Nat) :
    ∀ sel : JsObject Bool,
      isSelected (ps.foldl (fun s period => s.set (slotKey day period) true) sel) k = true ↔
        isSelected sel k = true ∨ ∃ p ∈ ps, slotKey day p = k := by
  induction ps with
  | nil => intro sel; simp
  | cons p rest ih =>
    intro sel
    rw [List.foldl_cons, ih, isSelected_set]
    by_cases h : k = slotKey day p
    · subst h; simp
    · have h2 : ¬ slotKey day p = k := fun x => h x.symm
      simp [h, h2]

theorem isSelected_foldl_availability (k : String) (x : List Availability) :
    ∀ sel : JsObject Bool,
      isSelected
          (x.foldl
            (fun slots avail =>
              avail.periods.foldl (fun s period => s.set (slotKey avail.day period) true) slots)
            sel) k = true ↔
        isSelected sel k = true ∨ ∃ a ∈ x, ∃ p ∈ a.periods, slotKey a.day p = k := by
  induction x with
  | nil => intro sel; simp
  | cons a rest ih =>
    intro sel
    rw [List.foldl_cons, ih, isSelected_foldl_periods]
    simp only [List.mem_cons, exists_eq_or_imp, or_assoc]

/-- A cell is selected in the restored slots iff the availability list has it. -/
theorem isSelected_restoreSlots (x : List Availability) (day : String) (period : Nat) :
    isSelected (restoreSlots (some x)) (slotKey day period) = true ↔
      ∃ a ∈ x, a.day = day ∧ period ∈ a.periods := by
  unfold restoreSlots
  rw [isSelected_foldl_availability]
  have h0 : isSelected ([] : JsObject Bool) (slotKey day period) = false := rfl
  simp only [h0, Bool.false_eq_true, false_or]
  constructor
  · rintro ⟨a, ha, p, hp, hk⟩
    obtain ⟨hd, hpp⟩ := slotKey_inj hk
    exact ⟨a, ha, hd, hpp ▸ hp⟩
  · rintro ⟨a, ha, hd, hp⟩
    exact ⟨a, ha, period, hp, by rw [hd]⟩

theorem filter_periodsOf_eq (n : Nat) (l : List Nat)
    (hs : l.Pairwise (fun p q => p < q)) (hr : ∀ p ∈ l, 1 ≤ p ∧ p ≤ n) :
    (periodsOf n).filter (fun p => decide (p ∈ l)) = l := by
  have hs1 : ((periodsOf n).filter (fun p => decide (p ∈ l))).Pairwise (fun p q => p < q) :=
    (periodsOf_pairwise n).filter _
  have hn1 : ((periodsOf n).filter (fun p => decide (p ∈ l))).Nodup :=
    hs1.imp (fun h => Nat.ne_of_lt h)
  have hn2 : l.Nodup := hs.imp (fun h => Nat.ne_of_lt h)
  have hperm : ((periodsOf n).filter (fun p => decide (p ∈ l))).Perm l := by
    rw [List.perm_ext_iff_of_nodup hn1 hn2]
    intro p
    simp only [List.mem_filter, mem_periodsOf, decide_eq_true_eq]
    constructor
    · exact fun h => h.2
    · exact fun h => ⟨hr p h, h⟩
  exact List.eq_of_perm_of_sorted hperm hs1 hs

/-- The serializer's periods for the day of an entry of a well-formed list are the
entry's periods. -/
theorem periodsForDay_restoreSlots (n : Nat) (x : List Availability)
    (hx : wellFormedAvailability n x) (a : Availability) (ha : a ∈ x) :
    periodsForDay (periodsOf n) (restoreSlots (some x)) a.day = a.periods := by
  obtain ⟨hall, hnd⟩ := hx
  obtain ⟨_, _, hs, hr⟩ := hall a ha
  rw [← filter_periodsOf_eq n a.periods hs hr]
  unfold periodsForDay
  apply List.filter_congr
  intro p _
  rw [Bool.eq_iff_iff, isSelected_restoreSlots, decide_eq_true_eq]
  constructor
  · rintro ⟨b, hb, hd, hp⟩
    have hba : b = a := List.inj_on_of_nodup_map hnd hb ha hd
    exact hba ▸ hp
  · exact fun hp => ⟨a, ha, rfl, hp⟩

theorem dayEntry_restoreSlots_of_mem (n : Nat) (x : List Availability)
    (hx : wellFormedAvailability n x) (a : Availability) (ha : a ∈ x) :
    dayEntry (periodsOf n) (restoreSlots (some x)) a.day = some a := by
  rw [dayEntry_eq_some, periodsForDay_restoreSlots n x hx a ha]
  exact ⟨(hx.1 a ha).2.1, rfl⟩

theorem dayEntry_restoreSlots_of_not_mem (n : Nat) (x : List Availability) (day : String)
    (hd : day ∉ x.map Availability.day) :
    dayEntry (periodsOf n) (restoreSlots (some x)) day = none := by
  have hnil : periodsForDay (periodsOf n) (restoreSlots (some x)) day = [] := by
    unfold periodsForDay
    rw [List.filter_eq_nil_iff]
    intro p _ hsel
    obtain ⟨a, ha, had, _⟩ := (isSelected_restoreSlots x day p).1 hsel
    exact hd (List.mem_map.2 ⟨a, ha, had⟩)
  simp [dayEntry, hnil]

/-- Filtering a duplicate-free day list by a function that returns the entry of each
day of `x` and nothing for another day gives back `x`, when the days of `x` are a
sublist of the day list. -/
theorem filterMap_eq_of_sublist (g : String → Option Availability) :
    ∀ (D : List String) (x : List Availability), D.Nodup →
      List.Sublist (x.map Availability.day) D →
      (∀ a ∈ x, g a.day = some a) →
      (∀ d ∈ D, d ∉ x.map Availability.day → g d = none) →
      D.filterMap g = x := by
  intro D
  induction D with
  | nil =>
    intro x _ hsub _ _
    have : x.map Availability.day = [] := List.sublist_nil.1 hsub
    simpa using this.symm
  | cons d rest ih =>
    intro x hnd hsub hsome hnone
    rw [List.nodup_cons] at hnd
    cases x with
    | nil =>
      have hall : ∀ d' ∈ d :: rest, g d' = none := fun d' hd' => hnone d' hd' (by simp)
      rw [List.filterMap_eq_nil_iff]
      exact hall
    | cons a xs =>
      by_cases had : a.day = d
      · have hsub2 : List.Sublist (xs.map Availability.day) rest := by
          rw [List.map_cons, had] at hsub
          exact List.Sublist.of_cons_cons hsub
        have hga : g d = some a := had ▸ hsome a (List.mem_cons_self _ _)
        rw [List.filterMap_cons, hga]
        show a :: List.filterMap g rest = a :: xs
        congr 1
        apply ih xs hnd.2 hsub2 (fun b hb => hsome b (List.mem_cons_of_mem _ hb))
        intro d' hd' hnot
        apply hnone d' (List.mem_cons_of_mem _ hd')
        rw [List.map_cons, List.mem_cons, had]
        rintro (h | h)
        · exact hnd.1 (h ▸ hd')
        · exact hnot h
      · have hsub2 : List.Sublist ((a :: xs).map Availability.day) rest := by
          rw [List.map_cons] at hsub ⊢
          cases hsub with
          | cons _ h => exact h
          | cons₂ _ h => exact absurd rfl had
        have hdn : d ∉ (a :: xs).map Availability.day :=
          fun hmem => hnd.1 (hsub2.subset hmem)
        rw [List.filterMap_cons, hnone d (List.mem_cons_self _ _) hdn]
        show List.filterMap g rest = a :: xs
        exact ih (a :: xs) hnd.2 hsub2 hsome
          (fun d' hd' hnot => hnone d' (List.mem_cons_of_mem _ hd') hnot)

/-! ## What the controller writes -/

theorem commonSlot_symm {a b : List Availability} (h : commonSlot a b) : commonSlot b a := by
  obtain ⟨x, hx, y, hy, hd, p, hp, hq⟩ := h
  exact ⟨y, hy, x, hx, hd.symm, p, hq, hp⟩

theorem sharedSection_symm {s t : List String} (h : sharedSection s t) : sharedSection t s := by
  obtain ⟨x, hx, hy⟩ := h
  exact ⟨x, hy, hx⟩

theorem Conflict_symm {f g : StoredFaculty} (h : Conflict f g) : Conflict g f :=
  ⟨sharedSection_symm h.1, commonSlot_symm h.2⟩

theorem findFaculty_isNone (st : Store) (id : String)
    (h : (findFaculty st id).isNone = true) : id ∉ st.faculty.map StoredFaculty._id := by
  unfold findFaculty at h
  rw [Option.isNone_iff_eq_none, List.find?_eq_none] at h
  intro hmem
  obtain ⟨f, hf, hid⟩ := List.mem_map.1 hmem
  exact h f hf (by simpa using hid)

/-- The store after `createFaculty`: unchanged, or extended by one document that
carries the new identifier and the submitted sections and availability. -/
theorem createFaculty_store (st : Store) (body : Body) (newId : String) :
    (createFaculty st body newId).2 = st ∨
      ∃ doc : StoredFaculty, doc._id = newId ∧ doc.sections = body.sections.getD [] ∧
        doc.availability = body.availability.getD [] ∧
        newId ∉ st.faculty.map StoredFaculty._id ∧
        (createFaculty st body newId).1.success = true ∧
        (createFaculty st body newId).2 = { st with faculty := st.faculty ++ [doc] } := by
  obtain ⟨name, code, secs, av⟩ := body
  cases name <;> cases code <;> cases secs <;> cases av <;>
    try (left; rfl)
  rename_i name code secs av
  unfold createFaculty
  simp only
  split_ifs with h1 h2 h3
  · left; rfl
  · left; rfl
  · left; rfl
  · split
    · left; rfl
    · split
      · left; rfl
      · split_ifs with h4
        · right
          exact ⟨_, rfl, rfl, rfl, findFaculty_isNone st newId h4.2, rfl, rfl⟩
        · left; rfl

theorem mem_replaceById (id : String) (doc : StoredFaculty) (l : List StoredFaculty)
    (b : StoredFaculty) (h : b ∈ replaceById id doc l) : b = doc ∨ b ∈ l := by
  induction l with
  | nil => simp [replaceById] at h
  | cons f rest ih =>
    unfold replaceById at h
    split_ifs at h with hf
    · rcases List.mem_cons.1 h with h1 | h1
      · exact Or.inl h1
      · exact Or.inr (List.mem_cons_of_mem _ h1)
    · rcases List.mem_cons.1 h with h1 | h1
      · exact Or.inr (h1 ▸ List.mem_cons_self _ _)
      · rcases ih h1 with h2 | h2
        · exact Or.inl h2
        · exact Or.inr (List.mem_cons_of_mem _ h2)

theorem map_id_replaceById (id : String) (doc : StoredFaculty) (hdoc : doc._id = id)
    (l : List StoredFaculty) :
    (replaceById id doc l).map StoredFaculty._id = l.map StoredFaculty._id := by
  induction l with
  | nil => rfl
  | cons f rest ih =>
    unfold replaceById
    split_ifs with hf
    · simp [hdoc, hf]
    · simp [ih]

theorem pairwise_replaceById (r : StoredFaculty → StoredFaculty → Prop) (id : String)
    (doc : StoredFaculty) (l : List StoredFaculty) (hp : l.Pairwise r)
    (hnd : (l.map StoredFaculty._id).Nodup)
    (hdoc : ∀ g ∈ l, g._id ≠ id → r g doc ∧ r doc g) :
    (replaceById id doc l).Pairwise r := by
  induction l with
  | nil => simp [replaceById]
  | cons f rest ih =>
    rw [List.pairwise_cons] at hp
    rw [List.map_cons, List.nodup_cons] at hnd
    unfold replaceById
    split_ifs with hf
    · rw [List.pairwise_cons]
      refine ⟨fun b hb => ?_, hp.2⟩
      have hbid : b._id ≠ id := by
        intro hb2
        exact hnd.1 (List.mem_map.2 ⟨b, hb, by rw [hb2, hf]⟩)
      exact (hdoc b (List.mem_cons_of_mem _ hb) hbid).2
    · rw [List.pairwise_cons]
      refine ⟨fun b hb => ?_, ih hp.2 hnd.2 (fun g hg => hdoc g (List.mem_cons_of_mem _ hg))⟩
      rcases mem_replaceById id doc rest b hb with h1 | h1
      · exact h1 ▸ (hdoc f (List.mem_cons_self _ _) hf).1
      · exact hp.1 b h1

/-- The store after `updateFaculty`: unchanged, or with the first document of the
given identifier replaced by one that carries the submitted sections and
availability. -/
theorem updateFaculty_store (st : Store) (id : String) (body : Body) :
    (updateFaculty st id body).2 = st ∨
      ∃ doc : StoredFaculty, doc._id = id ∧ doc.sections = body.sections.getD [] ∧
        doc.availability = body.availability.getD [] ∧
        (updateFaculty st id body).1.success = true ∧
        (updateFaculty st id body).2 = { st with faculty := replaceById id doc st.faculty } := by
  obtain ⟨name, code, secs, av⟩ := body
  cases name <;> cases code <;> cases secs <;> cases av <;>
    try (left; rfl)
  rename_i name code secs av
  unfold updateFaculty
  simp only
  split_ifs with h1 h2
  · left; rfl
  · left; rfl
  · split
    · left; rfl
    · split
      · left; rfl
      · split_ifs with h4
        · split
          · left; rfl
          · right
            exact ⟨_, rfl, rfl, rfl, rfl, rfl⟩
        · left; rfl

/-! ## The blocked map -/

theorem otherFaculty_append (R1 R2 : List Faculty) (e : Option String) :
    otherFaculty (R1 ++ R2) e = otherFaculty R1 e ++ otherFaculty R2 e := by
  simp [otherFaculty]

theorem allPushes_drop (others1 others2 : List Faculty) (f : Faculty)
    (selectedSections : List String)
    (h : ∀ sid, facultyPushes f sid = []) :
    allPushes (others1 ++ f :: others2) selectedSections =
      allPushes (others1 ++ others2) selectedSections := by
  unfold allPushes
  congr 1
  funext sid
  simp [List.flatMap_append, List.flatMap_cons, h sid]

/-- C1. The key of `(day, period)` is in the map built by `calculateBlockedSlots`
exactly when some roster faculty whose id differs from the editing id teaches a
selected section and has an availability entry for that day containing that period;
the recomputation effect stores that map; the map is empty for an empty selection
and for a roster holding only the edited record; and a faculty without availability
can be dropped from the roster without changing the map. -/
theorem blocked_key_iff_conflicting_faculty (R : List Faculty) (S : List String)
    (e : Option String) :
    (∀ (day : String) (period : Nat),
        slotKey day period ∈ (calculateBlockedSlots R S e).keys ↔
          ∃ f ∈ R, some f._id ≠ e ∧ (∃ sid ∈ S, teaches f sid) ∧ availableAt f day period) ∧
    (∀ st : State, st.facultyList = R → st.formData.selectedSections = S →
        st.editingId = e → (blockedSlotsEffect st).blockedSlots = calculateBlockedSlots R S e) ∧
    calculateBlockedSlots R [] e = [] ∧
    ((∀ f ∈ R, some f._id = e) → calculateBlockedSlots R S e = []) ∧
    (∀ (R1 R2 : List Faculty) (f : Faculty), R = R1 ++ f :: R2 →
        (f.availability = none ∨ f.availability = some []) →
        calculateBlockedSlots R S e = calculateBlockedSlots (R1 ++ R2) S e) := by
  refine ⟨?_, ?_, rfl, ?_, ?_⟩
  · intro day period
    rw [mem_keys_calculateBlockedSlots]
    constructor
    · rintro ⟨ev, hev, hk⟩
      obtain ⟨sid, hsid, f, hf, hmem⟩ := (mem_allPushes _ _ _).1 hev
      obtain ⟨hfR, hne⟩ := (mem_otherFaculty R e f).1 hf
      obtain ⟨ht, hav⟩ := (exists_push_at f sid day period).1 ⟨ev, hmem, hk⟩
      exact ⟨f, hfR, hne, ⟨sid, hsid, ht⟩, hav⟩
    · rintro ⟨f, hfR, hne, ⟨sid, hsid, ht⟩, hav⟩
      obtain ⟨ev, hmem, hk⟩ := (exists_push_at f sid day period).2 ⟨ht, hav⟩
      exact ⟨ev, (mem_allPushes _ _ _).2
        ⟨sid, hsid, f, (mem_otherFaculty R e f).2 ⟨hfR, hne⟩, hmem⟩, hk⟩
  · intro st hR hS he
    subst hR hS he
    unfold blockedSlotsEffect
    by_cases h : st.formData.selectedSections.length > 0
    · simp [h]
    · have h0 : st.formData.selectedSections = [] := by
        cases hs : st.formData.selectedSections with
        | nil => rfl
        | cons a l => simp [hs] at h
      simp [h0, calculateBlockedSlots]
  · intro h
    have hnil : otherFaculty R e = [] := by
      unfold otherFaculty
      rw [List.filter_eq_nil_iff]
      intro f hf
      simp [h f hf]
    rw [calculateBlockedSlots_eq_replay, hnil, replay_eq_nil_iff]
    exact allPushes_nil_of_forall _ _ (fun sid _ f hf => by simp at hf)
  · intro R1 R2 f hR hno
    subst hR
    rw [calculateBlockedSlots_eq_replay, calculateBlockedSlots_eq_replay,
      otherFaculty_append, otherFaculty_append]
    by_cases hf : some f._id ≠ e
    · have h1 : otherFaculty (f :: R2) e = f :: otherFaculty R2 e := by
        simp [otherFaculty, hf]
      rw [h1, allPushes_drop _ _ f S (fun sid => facultyPushes_of_no_availability f sid hno)]
    · have h1 : otherFaculty (f :: R2) e = otherFaculty R2 e := by
        simp only [otherFaculty, List.filter_cons, decide_eq_true_eq, hf, if_false]
      rw [h1]

/-- C1, at a concrete roster: with `F1` teaching `sec1` on Monday periods 1 and 2, a
second record without availability and the edited record `F2`, the blocked keys for
`S = [sec1]` are those of `F1`; the general statement is applied to drop the record
without availability and to empty the map when only the edited record remains. -/
theorem blocked_key_iff_conflicting_faculty_witness :
    (calculateBlockedSlots
        [⟨"f1", "F1", some ⟨"CS", none⟩, some [⟨"sec1", "2A"⟩], some [⟨"Monday", [1, 2]⟩]⟩,
         ⟨"f4", "F4", none, some [⟨"sec1", "2A"⟩], none⟩,
         ⟨"f2", "F2", none, some [⟨"sec1", "2A"⟩], some [⟨"Monday", [1]⟩]⟩]
        ["sec1"] (some "f2")).keys = ["Monday-1", "Monday-2"] ∧
    calculateBlockedSlots
        [⟨"f1", "F1", some ⟨"CS", none⟩, some [⟨"sec1", "2A"⟩], some [⟨"Monday", [1, 2]⟩]⟩,
         ⟨"f4", "F4", none, some [⟨"sec1", "2A"⟩], none⟩,
         ⟨"f2", "F2", none, some [⟨"sec1", "2A"⟩], some [⟨"Monday", [1]⟩]⟩]
        ["sec1"] (some "f2") =
      calculateBlockedSlots
        [⟨"f1", "F1", some ⟨"CS", none⟩, some [⟨"sec1", "2A"⟩], some [⟨"Monday", [1, 2]⟩]⟩,
         ⟨"f2", "F2", none, some [⟨"sec1", "2A"⟩], some [⟨"Monday", [1]⟩]⟩]
        ["sec1"] (some "f2") ∧
    calculateBlockedSlots
        [⟨"f2", "F2", none, some [⟨"sec1", "2A"⟩], some [⟨"Monday", [1]⟩]⟩]
        ["sec1"] (some "f2") = [] :=
  ⟨by decide,
   (blocked_key_iff_conflicting_faculty _ ["sec1"] (some "f2")).2.2.2.2
     [⟨"f1", "F1", some ⟨"CS", none⟩, some [⟨"sec1", "2A"⟩], some [⟨"Monday", [1, 2]⟩]⟩]
     [⟨"f2", "F2", none, some [⟨"sec1", "2A"⟩], some [⟨"Monday", [1]⟩]⟩]
     ⟨"f4", "F4", none, some [⟨"sec1", "2A"⟩], none⟩ rfl (Or.inl rfl),
   (blocked_key_iff_conflicting_faculty _ ["sec1"] (some "f2")).2.2.2.1
     (by decide)⟩

/-- C8. Self-exclusion: the map built with editing id `e` is the map built from the
roster without the records of id `e` (with or without an editing id); every
descriptor in it comes from a record whose id differs from `e`; and the map is empty
when no other record teaches a selected section. -/
theorem blocked_map_excludes_edited_record (R : List Faculty) (S : List String)
    (e : Option String) :
    calculateBlockedSlots R S e =
        calculateBlockedSlots (R.filter (fun f => decide (some f._id ≠ e))) S none ∧
    calculateBlockedSlots R S e =
        calculateBlockedSlots (R.filter (fun f => decide (some f._id ≠ e))) S e ∧
    (∀ (key : String) (d : Descriptor),
        d ∈ conflictsAt (calculateBlockedSlots R S e) key →
          ∃ f ∈ R, some f._id ≠ e ∧ ∃ sid ∈ S, teaches f sid ∧ d = descriptorOf f sid) ∧
    ((∀ f ∈ R, (∃ sid ∈ S, teaches f sid) → some f._id = e) →
        calculateBlockedSlots R S e = []) := by
  refine ⟨?_, ?_, ?_, ?_⟩
  · simp only [calculateBlockedSlots_eq_replay]
    congr 2
    simp [otherFaculty]
  · simp only [calculateBlockedSlots_eq_replay]
    congr 2
    simp [otherFaculty, List.filter_filter]
  · intro key d hd
    rw [calculateBlockedSlots_eq_replay, conflictsAt_replay] at hd
    simp only [conflictsAt, JsObject.get_nil, Option.getD_none, List.nil_append,
      List.mem_map, List.mem_filter, decide_eq_true_eq] at hd
    obtain ⟨ev, ⟨hev, _⟩, rfl⟩ := hd
    obtain ⟨sid, hsid, f, hf, hmem⟩ := (mem_allPushes _ _ _).1 hev
    obtain ⟨hfR, hne⟩ := (mem_otherFaculty R e f).1 hf
    obtain ⟨ht, a, _, p, _, rfl⟩ := (mem_facultyPushes f sid ev).1 hmem
    exact ⟨f, hfR, hne, sid, hsid, ht, rfl⟩
  · intro h
    rw [calculateBlockedSlots_eq_replay, replay_eq_nil_iff]
    apply allPushes_nil_of_forall
    intro sid hsid f hf
    obtain ⟨hfR, hne⟩ := (mem_otherFaculty R e f).1 hf
    by_contra hcon
    obtain ⟨ev, hev⟩ := List.exists_mem_of_ne_nil _ hcon
    obtain ⟨ht, _⟩ := (mem_facultyPushes f sid ev).1 hev
    exact hne (h f hfR ⟨sid, hsid, ht⟩)

/-- C8, Scenario D: editing `F1` itself with a section that `F1` teaches gives an
empty blocked map, by the general statement. -/
theorem blocked_map_excludes_edited_record_witness :
    calculateBlockedSlots
        [⟨"f1", "F1", some ⟨"CS", none⟩, some [⟨"sec1", "2A"⟩], some [⟨"Monday", [1, 2]⟩]⟩,
         ⟨"f3", "F3", none, some [⟨"sec9", "3A"⟩], some [⟨"Monday", [1]⟩]⟩]
        ["sec1"] (some "f1") = [] :=
  (blocked_map_excludes_edited_record _ ["sec1"] (some "f1")).2.2.2 (by decide)

/-! ## Counting and ordering the descriptors of a cell -/

theorem pushedAt_others (key sid : String) (others : List Faculty) :
    ((others.flatMap (fun f => facultyPushes f sid)).filter
        (fun ev => decide (ev.1 = key))).map Prod.snd =
      others.flatMap (fun f => pushedAt key f sid) := by
  induction others with
  | nil => rfl
  | cons f fs ihf =>
    simp only [List.flatMap_cons, List.filter_append, List.map_append, ihf, pushedAt]

/-- The descriptor list of a cell: selected sections in order, and for each of them
the other faculty in roster order. -/
theorem conflictsAt_calculateBlockedSlots (R : List Faculty) (S : List String)
    (e : Option String) (key : String) :
    conflictsAt (calculateBlockedSlots R S e) key =
      S.flatMap (fun sid => (otherFaculty R e).flatMap (fun f => pushedAt key f sid)) := by
  rw [calculateBlockedSlots_eq_replay, conflictsAt_replay]
  simp only [conflictsAt, JsObject.get_nil, Option.getD_none, List.nil_append, allPushes]
  generalize otherFaculty R e = others
  induction S with
  | nil => rfl
  | cons sid rest ih =>
    simp only [List.flatMap_cons, List.filter_append, List.map_append, ih, pushedAt_others]

theorem keys_of_facultyPushes_nodup (f : Faculty) (sid : String)
    (hday : ((f.availability.getD []).map Availability.day).Nodup)
    (hper : ∀ a ∈ f.availability.getD [], a.periods.Nodup) :
    ((facultyPushes f sid).map Prod.fst).Nodup := by
  unfold facultyPushes
  cases teachesThisSection f sid
  · simp
  · cases hav : f.availability with
    | none => simp
    | some av =>
      rw [hav] at hday hper
      simp only [Option.getD_some] at hday hper
      simp only
      clear hav
      induction av with
      | nil => simp
      | cons a rest ih =>
        rw [List.map_cons, List.nodup_cons] at hday
        simp only [List.flatMap_cons, List.map_append, List.map_map]
        rw [List.nodup_append]
        refine ⟨?_, ih (fun b hb => hper b (List.mem_cons_of_mem _ hb)) hday.2, ?_⟩
        · have hinj : Function.Injective
              (Prod.fst ∘ fun period => (slotKey a.day period, descriptorOf f sid)) := by
            intro p q hpq
            exact (slotKey_inj hpq).2
          exact (hper a (List.mem_cons_self _ _)).map hinj
        · intro k hk1 hk2
          simp only [List.mem_map, Function.comp] at hk1
          obtain ⟨p, _, rfl⟩ := hk1
          simp only [List.mem_map, List.mem_flatMap] at hk2
          obtain ⟨ev, ⟨b, hb, q, _, rfl⟩, hk⟩ := hk2
          have hd := (slotKey_inj hk).1
          exact hday.1 (List.mem_map.2 ⟨b, hb, hd⟩)

/-- A well-formed record pushes one descriptor at a cell it occupies for a section it
teaches, and none otherwise. -/
theorem length_pushedAt (f : Faculty) (sid day : String) (period : Nat)
    (hday : ((f.availability.getD []).map Availability.day).Nodup)
    (hper : ∀ a ∈ f.availability.getD [], a.periods.Nodup) :
    (pushedAt (slotKey day period) f sid).length =
      if teaches f sid ∧ availableAt f day period then 1 else 0 := by
  have hnd := keys_of_facultyPushes_nodup f sid hday hper
  have hcount : (pushedAt (slotKey day period) f sid).length =
      List.count (slotKey day period) ((facultyPushes f sid).map Prod.fst) := by
    unfold pushedAt
    rw [List.length_map, ← List.countP_eq_length_filter, List.count_eq_countP,
      List.countP_map]
    apply List.countP_congr
    intro ev _
    simp
  rw [hcount, List.count_eq_of_nodup hnd]
  have hiff : slotKey day period ∈ (facultyPushes f sid).map Prod.fst ↔
      teaches f sid ∧ availableAt f day period := by
    rw [← exists_push_at, List.mem_map]
  by_cases h : teaches f sid ∧ availableAt f day period
  · rw [if_pos (hiff.2 h), if_pos h]
  · rw [if_neg (fun x => h (hiff.1 x)), if_neg h]

theorem sum_map_swap {α β : Type} (N : α → β → Nat) (l1 : List α) (l2 : List β) :
    (l1.map (fun a => (l2.map (fun b => N a b)).sum)).sum =
      (l2.map (fun b => (l1.map (fun a => N a b)).sum)).sum := by
  induction l1 with
  | nil => simp
  | cons a rest ih =>
    simp only [List.map_cons, List.sum_cons, ih, List.sum_map_add]

theorem length_filter_map_mk {α β : Type} (p : α × β → Bool) (a : α) (l2 : List β) :
    ((l2.map (Prod.mk a)).filter p).length =
      (l2.map (fun b => if p (a, b) then 1 else 0)).sum := by
  induction l2 with
  | nil => rfl
  | cons b bs ihb =>
    by_cases hp : p (a, b) = true
    · simp only [List.map_cons, List.filter_cons, hp, if_true, List.length_cons,
        List.sum_cons, ihb]
      omega
    · simp only [List.map_cons, List.filter_cons, hp, if_false, List.sum_cons, ihb,
        Nat.zero_add, Bool.false_eq_true]

theorem length_filter_product {α β : Type} (p : α × β → Bool) (l1 : List α) (l2 : List β) :
    ((List.product l1 l2).filter p).length =
      (l1.map (fun a => (l2.map (fun b => if p (a, b) then 1 else 0)).sum)).sum := by
  induction l1 with
  | nil => rfl
  | cons a rest ih =>
    have hcons : List.product (a :: rest) l2 = l2.map (Prod.mk a) ++ List.product rest l2 :=
      List.product_cons a rest l2
    rw [hcons, List.filter_append, List.length_append, ih, List.map_cons, List.sum_cons,
      length_filter_map_mk]

theorem length_flatMap_sum {α β : Type} (l : List α) (g : α → List β) :
    (l.flatMap g).length = (l.map (fun a => (g a).length)).sum := by
  induction l with
  | nil => rfl
  | cons a rest ih => simp [List.flatMap_cons, ih]

theorem sum_map_otherFaculty (R : List Faculty) (e : Option String) (g : Faculty → Nat) :
    ((otherFaculty R e).map g).sum =
      (R.map (fun f => if some f._id ≠ e then g f else 0)).sum := by
  induction R with
  | nil => rfl
  | cons f rest ih =>
    unfold otherFaculty at ih ⊢
    by_cases h : some f._id = e
    · simpa [List.filter_cons, h] using ih
    · simpa [List.filter_cons, h] using ih

/-- C6. Descriptors are never deduplicated: for a roster with well-formed
availability, the length of the list of cell `(day, period)` in the blocked map is the
number of pairs `(f, s)` of a roster faculty `f` whose id differs from the editing id
and a selected section `s` such that `f` teaches `s` and is available in the cell. -/
theorem descriptor_count_eq_conflicting_pairs (R : List Faculty) (S : List String)
    (e : Option String) (day : String) (period : Nat) (hR : rosterWellFormed R) :
    (conflictsAt (calculateBlockedSlots R S e) (slotKey day period)).length =
      ((List.product R S).filter (fun fs =>
        decide (some fs.1._id ≠ e ∧ teaches fs.1 fs.2 ∧
          availableAt fs.1 day period))).length := by
  rw [conflictsAt_calculateBlockedSlots, length_flatMap_sum, length_filter_product,
    sum_map_swap]
  congr 1
  apply List.map_congr_left
  intro sid _
  rw [length_flatMap_sum, sum_map_otherFaculty]
  congr 1
  apply List.map_congr_left
  intro f hf
  obtain ⟨hday, hper⟩ := hR f hf
  rw [length_pushedAt f sid day period hday hper]
  by_cases h1 : some f._id ≠ e <;> by_cases h2 : teaches f sid ∧ availableAt f day period
  · simp [h1, h2]
  · simp only [h1, h2, if_true, if_false, ne_eq, not_false_eq_true, true_and, decide_False,
      Bool.false_eq_true]
  · simp [h1]
  · simp [h1]

/-- C6, Scenario C: `F1` teaches `sec1` and `sec2` and is available on Monday period 1;
editing `F3` with both sections selected, the list of `Monday-1` has two descriptors. -/
theorem descriptor_count_eq_conflicting_pairs_witness :
    rosterWellFormed
        [⟨"f1", "F1", none, some [⟨"sec1", "2A"⟩, ⟨"sec2", "2B"⟩], some [⟨"Monday", [1]⟩]⟩] ∧
    (conflictsAt
        (calculateBlockedSlots
          [⟨"f1", "F1", none, some [⟨"sec1", "2A"⟩, ⟨"sec2", "2B"⟩], some [⟨"Monday", [1]⟩]⟩]
          ["sec1", "sec2"] (some "f3"))
        (slotKey "Monday" 1)).length = 2 :=
  have hwf : rosterWellFormed
      [⟨"f1", "F1", none, some [⟨"sec1", "2A"⟩, ⟨"sec2", "2B"⟩], some [⟨"Monday", [1]⟩]⟩] := by
    intro f hf
    simp only [List.mem_singleton] at hf
    subst hf
    exact ⟨by decide, by decide⟩
  ⟨hwf, (descriptor_count_eq_conflicting_pairs _ ["sec1", "sec2"] (some "f3") "Monday" 1
    hwf).trans (by decide)⟩

/-- C7, as stated, fails: with roster `[F1, F2]`, `F1` teaching `sec2`, `F2` teaching
`sec1`, both free on Monday period 1, and `S = [sec1, sec2]`, the list of `Monday-1`
holds the descriptor of `F2` before the descriptor of `F1`, although `F1` precedes `F2`
in the roster. -/
theorem descriptor_roster_order_counterexample :
    conflictsAt (calculateBlockedSlots [exampleFirst, exampleSecond] ["sec1", "sec2"] none)
        (slotKey "Monday" 1) =
      [descriptorOf exampleSecond "sec1", descriptorOf exampleFirst "sec2"] ∧
    ¬ (∀ (i j : Nat) (di dj : Descriptor) (f g : Faculty), i < j →
        (conflictsAt
          (calculateBlockedSlots [exampleFirst, exampleSecond] ["sec1", "sec2"] none)
          (slotKey "Monday" 1))[i]? = some di →
        (conflictsAt
          (calculateBlockedSlots [exampleFirst, exampleSecond] ["sec1", "sec2"] none)
          (slotKey "Monday" 1))[j]? = some dj →
        f ∈ [exampleFirst, exampleSecond] → g ∈ [exampleFirst, exampleSecond] →
        di.facultyName = f.name → dj.facultyName = g.name → f ≠ g →
        List.indexOf f [exampleFirst, exampleSecond] <
          List.indexOf g [exampleFirst, exampleSecond]) := by
  refine ⟨by decide, ?_⟩
  intro h
  have h1 := h 0 1 (descriptorOf exampleSecond "sec1") (descriptorOf exampleFirst "sec2")
    exampleSecond exampleFirst (by decide) (by decide) (by decide) (by decide) (by decide)
    (by decide) (by decide) (by decide)
  revert h1
  decide

theorem slotKey_eq_iff (d1 d2 : String) (p1 p2 : Nat) :
    slotKey d1 p1 = slotKey d2 p2 ↔ d1 = d2 ∧ p1 = p2 :=
  ⟨slotKey_inj, fun h => by rw [h.1, h.2]⟩

theorem pushedAt_entry (a : Availability) (d : Descriptor) (day : String) (period : Nat) :
    ((a.periods.map (fun p => (slotKey a.day p, d))).filter
        (fun ev => decide (ev.1 = slotKey day period))).map Prod.snd =
      (a.periods.filter (fun p => decide (a.day = day ∧ p = period))).map (fun _ => d) := by
  rw [List.filter_map, List.map_map]
  have hpred : ((fun ev : String × Descriptor => decide (ev.1 = slotKey day period)) ∘
      (fun p => (slotKey a.day p, d))) = (fun p => decide (a.day = day ∧ p = period)) := by
    funext p
    simp [slotKey_eq_iff]
  rw [hpred]
  rfl

/-- The descriptors one faculty pushes at a cell for a section: one copy of its
descriptor for each occurrence of the cell in its availability, if it teaches the
section. -/
theorem pushedAt_eq (f : Faculty) (sid day : String) (period : Nat) :
    pushedAt (slotKey day period) f sid =
      if teaches f sid then
        (f.availability.getD []).flatMap (fun a =>
          (a.periods.filter (fun p => decide (a.day = day ∧ p = period))).map
            (fun _ => descriptorOf f sid))
      else [] := by
  unfold pushedAt facultyPushes
  cases ht : teachesThisSection f sid with
  | false =>
    have hnt : ¬ teaches f sid := fun h => by
      rw [← teachesThisSection_iff, ht] at h
      exact Bool.false_ne_true h
    simp [hnt]
  | true =>
    have htt : teaches f sid := (teachesThisSection_iff f sid).1 ht
    rw [if_pos htt]
    cases f.availability with
    | none => rfl
    | some av =>
      simp only [Option.getD_some]
      induction av with
      | nil => rfl
      | cons a rest ih =>
        simp only [List.flatMap_cons, List.filter_append, List.map_append, ih,
          pushedAt_entry]

/-- C7, amended. The descriptors of a cell are grouped by selected section, in the
order of the selected section list; inside the group of one section they follow
roster order: the list is the concatenation, over the selected sections and inside
over the roster records other than the edited one, of one descriptor of that record
and section for each occurrence of the cell in the availability of a record that
teaches the section. -/
theorem descriptor_order_sections_then_roster (R : List Faculty) (S : List String)
    (e : Option String) (day : String) (period : Nat) :
    conflictsAt (calculateBlockedSlots R S e) (slotKey day period) =
      S.flatMap (fun sid =>
        (R.filter (fun f => decide (some f._id ≠ e))).flatMap (fun f =>
          if teaches f sid then
            (f.availability.getD []).flatMap (fun a =>
              (a.periods.filter (fun p => decide (a.day = day ∧ p = period))).map
                (fun _ => descriptorOf f sid))
          else [])) := by
  rw [conflictsAt_calculateBlockedSlots]
  unfold otherFaculty
  simp only [pushedAt_eq]

/-! ## The availability serializer -/

theorem DAYS_nodup : DAYS.Nodup := by decide

/-- C5, as stated, fails: the list `[Tuesday [1], Monday [1]]` is well-formed (weekdays,
sorted non-empty periods within `1..5`, distinct days), but serializing the slots that
`handleEdit` restores from it gives `[Monday [1], Tuesday [1]]`, in the order of
`DAYS`. -/
theorem roundtrip_day_order_counterexample :
    wellFormedAvailability 5 [⟨"Tuesday", [1]⟩, ⟨"Monday", [1]⟩] ∧
    convertSlotsToAvailability (periodsOf 5)
        (handleEdit initialState
          ⟨"f1", "F1", none, none, some [⟨"Tuesday", [1]⟩, ⟨"Monday", [1]⟩]⟩).selectedSlots =
      [⟨"Monday", [1]⟩, ⟨"Tuesday", [1]⟩] ∧
    convertSlotsToAvailability (periodsOf 5)
        (handleEdit initialState
          ⟨"f1", "F1", none, none, some [⟨"Tuesday", [1]⟩, ⟨"Monday", [1]⟩]⟩).selectedSlots ≠
      [⟨"Tuesday", [1]⟩, ⟨"Monday", [1]⟩] := by
  refine ⟨by decide, by decide, by decide⟩

/-- C5, amended. For a well-formed availability list whose entries are in Monday to
Friday order, serializing the slots restored from it returns the list itself, also
through `handleEdit`. -/
theorem roundtrip_of_week_ordered (n : Nat) (x : List Availability)
    (hx : wellFormedAvailability n x) (hord : inWeekOrder x) :
    convertSlotsToAvailability (periodsOf n) (restoreSlots (some x)) = x ∧
    ∀ (st : State) (f : Faculty), f.availability = some x →
      convertSlotsToAvailability (periodsOf n) (handleEdit st f).selectedSlots = x := by
  have hmain : convertSlotsToAvailability (periodsOf n) (restoreSlots (some x)) = x := by
    rw [convertSlotsToAvailability_eq]
    exact filterMap_eq_of_sublist _ DAYS x DAYS_nodup hord
      (fun a ha => dayEntry_restoreSlots_of_mem n x hx a ha)
      (fun d _ hd => dayEntry_restoreSlots_of_not_mem n x d hd)
  refine ⟨hmain, ?_⟩
  intro st f hf
  have hsel : (handleEdit st f).selectedSlots = restoreSlots (some x) := by
    rw [← hf]; rfl
  rw [hsel, hmain]

/-- C5, amended, at a concrete list. -/
theorem roundtrip_of_week_ordered_witness :
    wellFormedAvailability 5 [⟨"Monday", [1, 2]⟩, ⟨"Wednesday", [3]⟩] ∧
    inWeekOrder [⟨"Monday", [1, 2]⟩, ⟨"Wednesday", [3]⟩] ∧
    convertSlotsToAvailability (periodsOf 5)
        (restoreSlots (some [⟨"Monday", [1, 2]⟩, ⟨"Wednesday", [3]⟩])) =
      [⟨"Monday", [1, 2]⟩, ⟨"Wednesday", [3]⟩] :=
  ⟨by decide, by decide,
   (roundtrip_of_week_ordered 5 [⟨"Monday", [1, 2]⟩, ⟨"Wednesday", [3]⟩]
     (by decide) (by decide)).1⟩

/-- C9. For every selection map and period list `1..n`, the serialized list is
well-formed: every entry is for a weekday, has a non-empty, strictly ascending period
list within `1..n`, no two entries have the same day, and the days appear in Monday to
Friday order. -/
theorem serialized_availability_well_formed (selectedSlots : JsObject Bool) (n : Nat) :
    wellFormedAvailability n (convertSlotsToAvailability (periodsOf n) selectedSlots) ∧
    inWeekOrder (convertSlotsToAvailability (periodsOf n) selectedSlots) := by
  have hord : inWeekOrder (convertSlotsToAvailability (periodsOf n) selectedSlots) := by
    unfold inWeekOrder
    rw [convertSlotsToAvailability_eq]
    exact map_day_filterMap_sublist _ _ DAYS
  refine ⟨⟨?_, hord.nodup DAYS_nodup⟩, hord⟩
  intro a ha
  obtain ⟨hd, hne, heq⟩ := (mem_convertSlotsToAvailability _ _ a).1 ha
  refine ⟨hd, hne, ?_, ?_⟩
  · rw [heq]
    exact (periodsOf_pairwise n).filter _
  · intro p hp
    rw [heq] at hp
    exact ((mem_periodsForDay n selectedSlots a.day p).1 hp).1

/-- C10, as stated, fails: after `handleEdit` of a record available on Monday period 6,
the cell `(Monday, 6)` is selected, but with the period list `1..5` the serialized list
is empty, so the cell is in no entry. -/
theorem serializer_off_grid_counterexample :
    isSelected
        (handleEdit initialState ⟨"f1", "F1", none, none, some [⟨"Monday", [6]⟩]⟩).selectedSlots
        (slotKey "Monday" 6) = true ∧
    convertSlotsToAvailability (periodsOf 5)
        (handleEdit initialState
          ⟨"f1", "F1", none, none, some [⟨"Monday", [6]⟩]⟩).selectedSlots = [] ∧
    ¬ (∀ (d : String) (p : Nat),
        (∃ a ∈ convertSlotsToAvailability (periodsOf 5)
            (handleEdit initialState
              ⟨"f1", "F1", none, none, some [⟨"Monday", [6]⟩]⟩).selectedSlots,
          a.day = d ∧ p ∈ a.periods) ↔
        isSelected
          (handleEdit initialState
            ⟨"f1", "F1", none, none, some [⟨"Monday", [6]⟩]⟩).selectedSlots
          (slotKey d p) = true) := by
  refine ⟨by decide, by decide, ?_⟩
  intro h
  have h1 := (h "Monday" 6).2 (by decide)
  revert h1
  decide

/-- C10, amended. The serialized list represents exactly the selected cells of the
grid `DAYS × 1..n`: period `p` occurs in the entry for day `d` iff `d` is a weekday,
`p` is within `1..n` and the cell `(d, p)` is selected; a day has an entry iff it is a
weekday with at least one selected cell within `1..n`. -/
theorem serialized_cells_iff_selected_in_grid (selectedSlots : JsObject Bool) (n : Nat) :
    (∀ (d : String) (p : Nat),
        (∃ a ∈ convertSlotsToAvailability (periodsOf n) selectedSlots,
            a.day = d ∧ p ∈ a.periods) ↔
          d ∈ DAYS ∧ (1 ≤ p ∧ p ≤ n) ∧ isSelected selectedSlots (slotKey d p) = true) ∧
    (∀ d : String,
        (∃ a ∈ convertSlotsToAvailability (periodsOf n) selectedSlots, a.day = d) ↔
          d ∈ DAYS ∧ ∃ p, (1 ≤ p ∧ p ≤ n) ∧ isSelected selectedSlots (slotKey d p) = true) := by
  constructor
  · intro d p
    constructor
    · rintro ⟨a, ha, rfl, hp⟩
      obtain ⟨hd, _, heq⟩ := (mem_convertSlotsToAvailability _ _ a).1 ha
      rw [heq] at hp
      exact ⟨hd, (mem_periodsForDay n selectedSlots a.day p).1 hp⟩
    · rintro ⟨hd, hp⟩
      have hmem : p ∈ periodsForDay (periodsOf n) selectedSlots d :=
        (mem_periodsForDay n selectedSlots d p).2 hp
      refine ⟨⟨d, periodsForDay (periodsOf n) selectedSlots d⟩, ?_, rfl, hmem⟩
      exact (mem_convertSlotsToAvailability _ _ _).2
        ⟨hd, List.ne_nil_of_mem hmem, rfl⟩
  · intro d
    constructor
    · rintro ⟨a, ha, rfl⟩
      obtain ⟨hd, hne, heq⟩ := (mem_convertSlotsToAvailability _ _ a).1 ha
      obtain ⟨p, hp⟩ := List.exists_mem_of_ne_nil _ hne
      rw [heq] at hp
      exact ⟨hd, p, (mem_periodsForDay n selectedSlots a.day p).1 hp⟩
    · rintro ⟨hd, p, hp⟩
      have hmem : p ∈ periodsForDay (periodsOf n) selectedSlots d :=
        (mem_periodsForDay n selectedSlots d p).2 hp
      exact ⟨⟨d, periodsForDay (periodsOf n) selectedSlots d⟩,
        (mem_convertSlotsToAvailability _ _ _).2 ⟨hd, List.ne_nil_of_mem hmem, rfl⟩, rfl⟩

/-! ## Slot selection and recomputation -/

/-- C3, as stated, fails: on a page whose roster holds a record teaching `sec1` and
free on Monday period 1, clicking the free cell `Monday-1` and then selecting `sec1`
recomputes the blocked map; afterwards `Monday-1` is blocked and is still selected. -/
theorem recomputation_keeps_blocked_selection_counterexample :
    isSelected
        (blockedSlotsEffect
          (handleSectionToggle
            (handleSlotClick { initialState with facultyList := [exampleSecond] } "Monday" 1)
            "sec1")).selectedSlots
        (slotKey "Monday" 1) = true ∧
    slotKey "Monday" 1 ∈
      (blockedSlotsEffect
        (handleSectionToggle
          (handleSlotClick { initialState with facultyList := [exampleSecond] } "Monday" 1)
          "sec1")).blockedSlots.keys ∧
    ¬ (∀ key : String,
        isSelected
          (blockedSlotsEffect
            (handleSectionToggle
              (handleSlotClick { initialState with facultyList := [exampleSecond] }
                "Monday" 1)
              "sec1")).selectedSlots key = true →
        key ∉
          (blockedSlotsEffect
            (handleSectionToggle
              (handleSlotClick { initialState with facultyList := [exampleSecond] }
                "Monday" 1)
              "sec1")).blockedSlots.keys) := by
  refine ⟨by decide, by decide, ?_⟩
  intro h
  exact h (slotKey "Monday" 1) (by decide) (by decide)

/-- C3, amended. A recomputation of the blocked map never changes the selection, also
the one that follows `handleEdit` (the selection is then the one restored from the
record): a selected cell that the recomputation marks as blocked stays selected. So
after a recomputation no cell is both selected and blocked exactly when no cell
selected before it is in the recomputed map. -/
theorem recomputation_leaves_selection (st : State) :
    (blockedSlotsEffect st).selectedSlots = st.selectedSlots ∧
    (∀ f : Faculty,
        (blockedSlotsEffect (handleEdit st f)).selectedSlots = restoreSlots f.availability) ∧
    (blockedSlotsEffect st).blockedSlots =
        calculateBlockedSlots st.facultyList st.formData.selectedSections st.editingId ∧
    ((∀ key : String, isSelected (blockedSlotsEffect st).selectedSlots key = true →
          key ∉ (blockedSlotsEffect st).blockedSlots.keys) ↔
      (∀ key : String, isSelected st.selectedSlots key = true →
          key ∉ (calculateBlockedSlots st.facultyList st.formData.selectedSections
            st.editingId).keys)) := by
  have hsel : ∀ s : State, (blockedSlotsEffect s).selectedSlots = s.selectedSlots := by
    intro s
    unfold blockedSlotsEffect
    split <;> rfl
  have hblk : (blockedSlotsEffect st).blockedSlots =
      calculateBlockedSlots st.facultyList st.formData.selectedSections st.editingId := by
    unfold blockedSlotsEffect
    by_cases h : st.formData.selectedSections.length > 0
    · simp [h]
    · have h0 : st.formData.selectedSections = [] := by
        cases hs : st.formData.selectedSections with
        | nil => rfl
        | cons a l => simp [hs] at h
      simp [h0, calculateBlockedSlots]
  refine ⟨hsel st, fun f => ?_, hblk, ?_⟩
  · rw [hsel]; rfl
  · rw [hsel, hblk]

/-- C4. A click on a cell whose key is in the blocked map changes nothing: the
selection and the blocked map, indeed the whole state, are as before. -/
theorem blocked_click_changes_nothing (st : State) (day : String) (period : Nat)
    (h : slotKey day period ∈ st.blockedSlots.keys) :
    (handleSlotClick st day period).selectedSlots = st.selectedSlots ∧
    (handleSlotClick st day period).blockedSlots = st.blockedSlots ∧
    handleSlotClick st day period = st := by
  have hst : handleSlotClick st day period = st := by
    have hsome := (mem_keys_iff st.blockedSlots (slotKey day period)).1 h
    cases hget : st.blockedSlots.get (slotKey day period) with
    | none => rw [hget] at hsome; simp at hsome
    | some l => simp only [handleSlotClick, hget]
  rw [hst]
  exact ⟨rfl, rfl, rfl⟩

/-- C4, at a concrete state: `Monday-1` is blocked and `Tuesday-2` is selected; a click
on `Monday-1` leaves the state as it is. -/
theorem blocked_click_changes_nothing_witness :
    slotKey "Monday" 1 ∈
      ({ initialState with
          selectedSlots := [("Tuesday-2", true)]
          blockedSlots := [("Monday-1", [⟨"F1", "N/A", some "2A"⟩])] } : State).blockedSlots.keys ∧
    (handleSlotClick
        { initialState with
          selectedSlots := [("Tuesday-2", true)]
          blockedSlots := [("Monday-1", [⟨"F1", "N/A", some "2A"⟩])] }
        "Monday" 1).selectedSlots = [("Tuesday-2", true)] :=
  ⟨by decide,
   (blocked_click_changes_nothing
      { initialState with
        selectedSlots := [("Tuesday-2", true)]
        blockedSlots := [("Monday-1", [⟨"F1", "N/A", some "2A"⟩])] }
      "Monday" 1 (by decide)).1⟩

/-! ## The central invariant and the controller -/

/-- C2, as stated, fails: `exampleStore` satisfies the central invariant, and the
submission `exampleClash` claims Monday period 1 of `sec1`, which the stored document
already holds; `createFaculty` answers 201 and writes it, `updateFaculty` of another
document answers 200 and writes it, and the store no longer satisfies the central
invariant. -/
theorem conflicting_submission_is_written_counterexample :
    centralInvariant exampleStore ∧
    (∃ g ∈ exampleStore.faculty, submissionConflict exampleClash g) ∧
    (createFaculty exampleStore exampleClash "f2").1.status = 201 ∧
    (createFaculty exampleStore exampleClash "f2").1.success = true ∧
    ¬ centralInvariant (createFaculty exampleStore exampleClash "f2").2 ∧
    centralInvariant (createFaculty exampleStore exampleFree "f2").2 ∧
    (updateFaculty (createFaculty exampleStore exampleFree "f2").2 "f2" exampleClash).1.status
      = 200 ∧
    ¬ centralInvariant
      (updateFaculty (createFaculty exampleStore exampleFree "f2").2 "f2" exampleClash).2 := by
  refine ⟨by decide, by decide, by decide, by decide, by decide, by decide, by decide,
    by decide⟩

/-- C2, amended. The controller makes no conflict check and never answers with a
conflict error: its statuses are 200, 201, 400, 404 and 500. From a store that
satisfies the central invariant and has distinct identifiers, `createFaculty` and
`updateFaculty` lead to a store that satisfies both again whenever the submission
claims no cell of a shared section held by another stored document (other than the
one being updated). -/
theorem central_invariant_kept_by_conflict_free_submission (st : Store)
    (hinv : centralInvariant st) (hids : uniqueIds st) :
    (∀ (body : Body) (newId : String),
        (∀ g ∈ st.faculty, ¬ submissionConflict body g) →
          centralInvariant (createFaculty st body newId).2 ∧
            uniqueIds (createFaculty st body newId).2) ∧
    (∀ (id : String) (body : Body),
        (∀ g ∈ st.faculty, g._id ≠ id → ¬ submissionConflict body g) →
          centralInvariant (updateFaculty st id body).2 ∧
            uniqueIds (updateFaculty st id body).2) ∧
    (∀ (body : Body) (newId : String),
        (createFaculty st body newId).1.status ∈ [201, 400, 404, 500]) ∧
    (∀ (id : String) (body : Body),
        (updateFaculty st id body).1.status ∈ [200, 400, 404, 500]) := by
  refine ⟨?_, ?_, ?_, ?_⟩
  · intro body newId hfree
    rcases createFaculty_store st body newId with h | ⟨doc, hid, hsec, hav, hnew, _, h⟩
    · rw [h]; exact ⟨hinv, hids⟩
    · rw [h]
      constructor
      · unfold centralInvariant at hinv ⊢
        simp only
        rw [List.pairwise_append]
        refine ⟨hinv, List.pairwise_singleton _ _, ?_⟩
        intro g hg d hd hcon
        rw [List.mem_singleton] at hd
        subst hd
        have hc := Conflict_symm hcon
        unfold Conflict at hc
        rw [hsec, hav] at hc
        exact hfree g hg hc
      · unfold uniqueIds at hids ⊢
        simp only [List.map_append, List.map_cons, List.map_nil]
        rw [List.nodup_append]
        refine ⟨hids, List.nodup_singleton _, ?_⟩
        intro k hk1 hk2
        rw [List.mem_singleton] at hk2
        rw [hk2, hid] at hk1
        exact hnew hk1
  · intro id body hfree
    rcases updateFaculty_store st id body with h | ⟨doc, hid, hsec, hav, _, h⟩
    · rw [h]; exact ⟨hinv, hids⟩
    · rw [h]
      constructor
      · unfold centralInvariant at hinv ⊢
        simp only
        apply pairwise_replaceById _ id doc st.faculty hinv hids
        intro g hg hne
        have hno : ¬ Conflict doc g := by
          intro hc
          unfold Conflict at hc
          rw [hsec, hav] at hc
          exact hfree g hg hne hc
        exact ⟨fun hc => hno (Conflict_symm hc), hno⟩
      · unfold uniqueIds at hids ⊢
        simp only
        rw [map_id_replaceById id doc hid]
        exact hids
  · intro body newId
    obtain ⟨name, code, secs, av⟩ := body
    cases name <;> cases code <;> cases secs <;> cases av <;>
      try (exact (by decide : (400 : Nat) ∈ [201, 400, 404, 500]))
    unfold createFaculty
    simp only
    split_ifs with h1 h2 h3
    · exact (by decide : (400 : Nat) ∈ [201, 400, 404, 500])
    · exact (by decide : (400 : Nat) ∈ [201, 400, 404, 500])
    · exact (by decide : (400 : Nat) ∈ [201, 400, 404, 500])
    · split
      · exact (by decide : (404 : Nat) ∈ [201, 400, 404, 500])
      · split
        · exact (by decide : (500 : Nat) ∈ [201, 400, 404, 500])
        · split_ifs with h4
          · exact (by decide : (201 : Nat) ∈ [201, 400, 404, 500])
          · exact (by decide : (500 : Nat) ∈ [201, 400, 404, 500])
  · intro id body
    obtain ⟨name, code, secs, av⟩ := body
    cases name <;> cases code <;> cases secs <;> cases av <;>
      try (exact (by decide : (400 : Nat) ∈ [200, 400, 404, 500]))
    unfold updateFaculty
    simp only
    split_ifs with h1 h2
    · exact (by decide : (400 : Nat) ∈ [200, 400, 404, 500])
    · exact (by decide : (400 : Nat) ∈ [200, 400, 404, 500])
    · split
      · exact (by decide : (404 : Nat) ∈ [200, 400, 404, 500])
      · split
        · exact (by decide : (500 : Nat) ∈ [200, 400, 404, 500])
        · split_ifs with h4
          · split
            · exact (by decide : (404 : Nat) ∈ [200, 400, 404, 500])
            · exact (by decide : (200 : Nat) ∈ [200, 400, 404, 500])
          · exact (by decide : (500 : Nat) ∈ [200, 400, 404, 500])

/-- C2, amended, at a concrete store: the submission `exampleFree` claims Monday period
2 of `sec1`, a cell the stored document does not hold, and the store after
`createFaculty` satisfies the central invariant. -/
theorem central_invariant_kept_by_conflict_free_submission_witness :
    centralInvariant exampleStore ∧ uniqueIds exampleStore ∧
    (∀ g ∈ exampleStore.faculty, ¬ submissionConflict exampleFree g) ∧
    (createFaculty exampleStore exampleFree "f2").1.status = 201 ∧
    centralInvariant (createFaculty exampleStore exampleFree "f2").2 :=
  ⟨by decide, by decide, by decide, by decide,
   ((central_invariant_kept_by_conflict_free_submission exampleStore (by decide)
      (by decide)).1 exampleFree "f2" (by decide)).1⟩


/-! ## The checks of the controller, one by one -/

/-- A successful `createFaculty`: every check passed, and the store gains exactly the
document built from the submission. -/
theorem createFaculty_success (st : Store) (body : Body) (newId : String)
    (h : (createFaculty st body newId).1.success = true) :
    ∃ (name code : String) (secs : List String) (av : List Availability)
      (subject : StoredSubject) (dept : String),
      body = ⟨some name, some code, some secs, some av⟩ ∧
      name ≠ "" ∧ code ≠ "" ∧ secs ≠ [] ∧ av ≠ [] ∧
      findSubject st code = some subject ∧ subject.department = some dept ∧
      schemaValid (facultyDocument newId name subject dept secs av) = true ∧
      (findFaculty st newId).isNone = true ∧
      createFaculty st body newId =
        ({ status := 201, success := true, message := "Faculty created successfully",
           data := some (facultyDocument newId name subject dept secs av) },
         { st with
           faculty := st.faculty ++ [facultyDocument newId name subject dept secs av] }) := by
  obtain ⟨name, code, secs, av⟩ := body
  cases name <;> cases code <;> cases secs <;> cases av <;>
    try (exact absurd h Bool.false_ne_true)
  rename_i name code secs av
  unfold createFaculty at h ⊢
  simp only at h ⊢
  split_ifs at h ⊢ with h1 h2 h3
  · exact absurd h Bool.false_ne_true
  · exact absurd h Bool.false_ne_true
  · exact absurd h Bool.false_ne_true
  · split at h
    · exact absurd h Bool.false_ne_true
    · rename_i subject hsub
      split at h
      · exact absurd h Bool.false_ne_true
      · rename_i dept hdept
        split_ifs at h with h4
        · refine ⟨name, code, secs, av, subject, dept, rfl, ?_, ?_, ?_, ?_, hsub, hdept,
            h4.1, h4.2, ?_⟩
          · exact fun hn => h1 (Or.inl hn)
          · exact fun hn => h1 (Or.inr hn)
          · exact fun hn => h2 (by simp [hn])
          · exact fun hn => h3 (by simp [hn])
          · rw [if_pos h4]
            rfl
        · exact absurd h Bool.false_ne_true

/-- A successful `updateFaculty`: every check passed, the document exists, and it is
replaced by the document built from the submission. -/
theorem updateFaculty_success (st : Store) (id : String) (body : Body)
    (h : (updateFaculty st id body).1.success = true) :
    ∃ (name code : String) (secs : List String) (av : List Availability)
      (subject : StoredSubject) (dept : String),
      body = ⟨some name, some code, some secs, some av⟩ ∧
      name ≠ "" ∧ code ≠ "" ∧ secs ≠ [] ∧
      findSubject st code = some subject ∧ subject.department = some dept ∧
      schemaValid (facultyDocument id name subject dept secs av) = true ∧
      (findFaculty st id).isSome = true ∧
      updateFaculty st id body =
        ({ status := 200, success := true, message := "Faculty updated successfully",
           data := some (facultyDocument id name subject dept secs av) },
         { st with
           faculty := replaceById id (facultyDocument id name subject dept secs av)
             st.faculty }) := by
  obtain ⟨name, code, secs, av⟩ := body
  cases name <;> cases code <;> cases secs <;> cases av <;>
    try (exact absurd h Bool.false_ne_true)
  rename_i name code secs av
  unfold updateFaculty at h ⊢
  simp only at h ⊢
  split_ifs at h ⊢ with h1 h2
  · exact absurd h Bool.false_ne_true
  · exact absurd h Bool.false_ne_true
  · split at h
    · exact absurd h Bool.false_ne_true
    · rename_i subject hsub
      split at h
      · exact absurd h Bool.false_ne_true
      · rename_i dept hdept
        split_ifs at h with h4
        · split at h
          · exact absurd h Bool.false_ne_true
          · rename_i found hfound
            refine ⟨name, code, secs, av, subject, dept, rfl, ?_, ?_, ?_, hsub, hdept,
              h4, by simp [hfound], ?_⟩
            · exact fun hn => h1 (Or.inl hn)
            · exact fun hn => h1 (Or.inr hn)
            · exact fun hn => h2 (by simp [hn])
            · rw [if_pos h4]
              rfl
        · exact absurd h Bool.false_ne_true

/-- The response of `createFaculty` to a submission with all four fields present, a
non-empty name and a non-empty subject code that resolves to no subject. -/
theorem createFaculty_unresolved (st : Store) (name code : String) (secs : List String)
    (av : List Availability) (newId : String) (hname : name ≠ "") (hcode : code ≠ "")
    (hsub : findSubject st code = none) :
    createFaculty st ⟨some name, some code, some secs, some av⟩ newId =
      (if secs = [] then failure 400 "At least one section must be selected"
       else if av = [] then failure 400 "At least one availability slot is required"
       else failure 404 ("Subject with code \"" ++ code ++ "\" not found"), st) := by
  unfold createFaculty
  simp only [hname, hcode, or_self, if_false, hsub, List.length_eq_zero]
  split_ifs <;> rfl

/-- The response of `updateFaculty` to a submission with all four fields present, a
non-empty name and a non-empty subject code that resolves to no subject. -/
theorem updateFaculty_unresolved (st : Store) (id name code : String) (secs : List String)
    (av : List Availability) (hname : name ≠ "") (hcode : code ≠ "")
    (hsub : findSubject st code = none) :
    updateFaculty st id ⟨some name, some code, some secs, some av⟩ =
      (if secs = [] then failure 400 "At least one section must be selected"
       else failure 404 ("Subject with code \"" ++ code ++ "\" not found"), st) := by
  unfold updateFaculty
  simp only [hname, hcode, or_self, if_false, hsub, List.length_eq_zero]
  split_ifs <;> rfl

/-- C11, as stated, fails: for a non-empty name and the subject code `NOPE`, which
resolves to no subject of `exampleStore`, `createFaculty` answers 400 when the section
list is empty and 400 when the availability list is empty, and `updateFaculty` answers
400 when the section list is empty; none of the three answers is the 404. -/
theorem subject_check_order_counterexample :
    findSubject exampleStore "NOPE" = none ∧
    (createFaculty exampleStore
        ⟨some "Ravi", some "NOPE", some [], some [⟨"Monday", [2]⟩]⟩ "f2").1 =
      failure 400 "At least one section must be selected" ∧
    (createFaculty exampleStore
        ⟨some "Ravi", some "NOPE", some ["sec1"], some []⟩ "f2").1 =
      failure 400 "At least one availability slot is required" ∧
    (updateFaculty exampleStore "f1"
        ⟨some "Ravi", some "NOPE", some [], some [⟨"Monday", [2]⟩]⟩).1 =
      failure 400 "At least one section must be selected" := by
  refine ⟨by decide, by decide, by decide, by decide⟩

/-- C11, amended. The subject lookup comes after the emptiness checks: for a
submission with a non-empty name and a non-empty subject code that resolves to no
subject, `createFaculty` answers 400 for an empty section list, else 400 for an empty
availability list, else 404 naming the subject code; `updateFaculty` answers 400 for
an empty section list and else 404 naming the subject code, whatever the availability
list is; and both answer 400 when the section list or the availability list is
missing. -/
theorem subject_check_after_emptiness_checks (st : Store) (name code : String)
    (hname : name ≠ "") (hcode : code ≠ "") (hsub : findSubject st code = none) :
    (∀ (secs : List String) (av : List Availability) (newId : String),
        (createFaculty st ⟨some name, some code, some secs, some av⟩ newId).1 =
          if secs = [] then failure 400 "At least one section must be selected"
          else if av = [] then failure 400 "At least one availability slot is required"
          else failure 404 ("Subject with code \"" ++ code ++ "\" not found")) ∧
    (∀ (secs : List String) (av : List Availability) (id : String),
        (updateFaculty st id ⟨some name, some code, some secs, some av⟩).1 =
          if secs = [] then failure 400 "At least one section must be selected"
          else failure 404 ("Subject with code \"" ++ code ++ "\" not found")) ∧
    (∀ (secs : Option (List String)) (av : Option (List Availability)) (newId id : String),
        secs = none ∨ av = none →
          (createFaculty st ⟨some name, some code, secs, av⟩ newId).1 =
              failure 400 "Name, subject, sections, and availability are required" ∧
            (updateFaculty st id ⟨some name, some code, secs, av⟩).1 =
              failure 400 "Name, subject, sections, and availability are required") := by
  refine ⟨?_, ?_, ?_⟩
  · intro secs av newId
    rw [createFaculty_unresolved st name code secs av newId hname hcode hsub]
  · intro secs av id
    rw [updateFaculty_unresolved st id name code secs av hname hcode hsub]
  · intro secs av newId id h
    cases secs <;> cases av <;> first
      | exact ⟨rfl, rfl⟩
      | (rcases h with h | h <;> cases h)

/-- C11, amended, at a concrete store: the code `NOPE` resolves to no subject of
`exampleStore`, and with a section and an availability entry `createFaculty` answers
404 naming it. -/
theorem subject_check_after_emptiness_checks_witness :
    (createFaculty exampleStore
        ⟨some "Ravi", some "NOPE", some ["sec1"], some [⟨"Monday", [2]⟩]⟩ "f2").1 =
      failure 404 "Subject with code \"NOPE\" not found" :=
  ((subject_check_after_emptiness_checks exampleStore "Ravi" "NOPE" (by decide) (by decide)
    (by decide)).1 ["sec1"] [⟨"Monday", [2]⟩] "f2").trans (by decide)

/-- C17, as stated, fails: with a non-empty name, section list and availability list,
the empty subject code matches no subject of `exampleStore`, and `createFaculty` and
`updateFaculty` answer 400, not 404. -/
theorem unresolved_subject_counterexample :
    findSubject exampleStore "" = none ∧
    (createFaculty exampleStore
        ⟨some "Ravi", some "", some ["sec1"], some [⟨"Monday", [2]⟩]⟩ "f2").1 =
      failure 400 "Name, subject, sections, and availability are required" ∧
    (updateFaculty exampleStore "f1"
        ⟨some "Ravi", some "", some ["sec1"], some [⟨"Monday", [2]⟩]⟩).1 =
      failure 400 "Name, subject, sections, and availability are required" := by
  refine ⟨by decide, by decide, by decide⟩

/-- C17, amended. For a submission with a non-empty name, a non-empty subject code, a
non-empty section list and a non-empty availability list, if the subject code matches
no stored subject then `createFaculty` and `updateFaculty` answer 404 with
`success = false`, the message contains the subject code, and the store is
unchanged. -/
theorem unresolved_subject_is_not_found (st : Store) (name code : String)
    (secs : List String) (av : List Availability) (newId id : String)
    (hname : name ≠ "") (hcode : code ≠ "") (hsecs : secs ≠ []) (hav : av ≠ [])
    (hsub : findSubject st code = none) :
    (createFaculty st ⟨some name, some code, some secs, some av⟩ newId).1.status = 404 ∧
    (createFaculty st ⟨some name, some code, some secs, some av⟩ newId).1.success = false ∧
    (createFaculty st ⟨some name, some code, some secs, some av⟩ newId).1.message =
      "Subject with code \"" ++ code ++ "\" not found" ∧
    (createFaculty st ⟨some name, some code, some secs, some av⟩ newId).2 = st ∧
    (updateFaculty st id ⟨some name, some code, some secs, some av⟩).1.status = 404 ∧
    (updateFaculty st id ⟨some name, some code, some secs, some av⟩).1.success = false ∧
    (updateFaculty st id ⟨some name, some code, some secs, some av⟩).1.message =
      "Subject with code \"" ++ code ++ "\" not found" ∧
    (updateFaculty st id ⟨some name, some code, some secs, some av⟩).2 = st := by
  rw [createFaculty_unresolved st name code secs av newId hname hcode hsub,
    updateFaculty_unresolved st id name code secs av hname hcode hsub]
  simp [hsecs, hav, failure]

/-- C17, amended, at a concrete store. -/
theorem unresolved_subject_is_not_found_witness :
    (createFaculty exampleStore
        ⟨some "Ravi", some "NOPE", some ["sec1"], some [⟨"Monday", [2]⟩]⟩ "f2").1.status
      = 404 ∧
    (updateFaculty exampleStore "f1"
        ⟨some "Ravi", some "NOPE", some ["sec1"], some [⟨"Monday", [2]⟩]⟩).2 =
      exampleStore :=
  ⟨(unresolved_subject_is_not_found exampleStore "Ravi" "NOPE" ["sec1"] [⟨"Monday", [2]⟩]
      "f2" "f1" (by decide) (by decide) (by decide) (by decide) (by decide)).1,
   (unresolved_subject_is_not_found exampleStore "Ravi" "NOPE" ["sec1"] [⟨"Monday", [2]⟩]
      "f2" "f1" (by decide) (by decide) (by decide) (by decide) (by decide)).2.2.2.2.2.2.2⟩

/-- Sufficient conditions for `createFaculty` to succeed; the period lists and the
repetition of a day play no part. -/
theorem createFaculty_ok (st : Store) (name code : String) (secs : List String)
    (av : List Availability) (newId : String) (subject : StoredSubject) (dept : String)
    (hname : trim name ≠ "") (hcode : code ≠ "") (hsecs : secs ≠ []) (hav : av ≠ [])
    (hdays : ∀ a ∈ av, a.day ∈ DAYS) (hsub : findSubject st code = some subject)
    (hdept : subject.department = some dept) (hnew : (findFaculty st newId).isNone = true) :
    createFaculty st ⟨some name, some code, some secs, some av⟩ newId =
      ({ status := 201, success := true, message := "Faculty created successfully",
         data := some (facultyDocument newId name subject dept secs av) },
       { st with
         faculty := st.faculty ++ [facultyDocument newId name subject dept secs av] }) := by
  have hname0 : name ≠ "" := by
    intro h
    rw [h] at hname
    exact hname (by decide)
  have hvalid : schemaValid (facultyDocument newId name subject dept secs av) = true := by
    simp only [schemaValid, facultyDocument, Bool.and_eq_true, decide_eq_true_eq,
      List.all_eq_true]
    exact ⟨⟨hname, List.length_pos.2 hav⟩, hdays⟩
  unfold createFaculty
  simp only [hname0, hcode, or_self, if_false, List.length_eq_zero, hsecs, hav, hsub, hdept]
  rw [if_pos ⟨hvalid, hnew⟩]
  rfl

/-- Sufficient conditions for `updateFaculty` to succeed; the period lists and the
repetition of a day play no part. -/
theorem updateFaculty_ok (st : Store) (id name code : String) (secs : List String)
    (av : List Availability) (subject : StoredSubject) (dept : String) (old : StoredFaculty)
    (hname : trim name ≠ "") (hcode : code ≠ "") (hsecs : secs ≠ []) (hav : av ≠ [])
    (hdays : ∀ a ∈ av, a.day ∈ DAYS) (hsub : findSubject st code = some subject)
    (hdept : subject.department = some dept) (hold : findFaculty st id = some old) :
    updateFaculty st id ⟨some name, some code, some secs, some av⟩ =
      ({ status := 200, success := true, message := "Faculty updated successfully",
         data := some (facultyDocument id name subject dept secs av) },
       { st with
         faculty := replaceById id (facultyDocument id name subject dept secs av)
           st.faculty }) := by
  have hname0 : name ≠ "" := by
    intro h
    rw [h] at hname
    exact hname (by decide)
  have hvalid : schemaValid (facultyDocument id name subject dept secs av) = true := by
    simp only [schemaValid, facultyDocument, Bool.and_eq_true, decide_eq_true_eq,
      List.all_eq_true]
    exact ⟨⟨hname, List.length_pos.2 hav⟩, hdays⟩
  unfold updateFaculty
  simp only [hname0, hcode, or_self, if_false, List.length_eq_zero, hsecs, hsub, hdept]
  rw [if_pos (by exact hvalid)]
  simp only [hold]
  rfl

theorem deleteFaculty_store (st : Store) (id : String) :
    ((deleteFaculty st id).1.success = false ∧ (deleteFaculty st id).2 = st) ∨
      ((deleteFaculty st id).1.success = true ∧
        (deleteFaculty st id).2 = { st with faculty := removeById id st.faculty }) := by
  unfold deleteFaculty
  split
  · exact Or.inl ⟨rfl, rfl⟩
  · exact Or.inr ⟨rfl, rfl⟩

theorem createFaculty_failure_status (st : Store) (body : Body) (newId : String) :
    (createFaculty st body newId).1.success = true ∨
      (createFaculty st body newId).1.status ∈ [400, 404, 500] := by
  obtain ⟨name, code, secs, av⟩ := body
  cases name <;> cases code <;> cases secs <;> cases av <;>
    try (exact Or.inr (by decide : (400 : Nat) ∈ [400, 404, 500]))
  unfold createFaculty
  simp only
  split_ifs with h1 h2 h3
  · exact Or.inr (by decide : (400 : Nat) ∈ [400, 404, 500])
  · exact Or.inr (by decide : (400 : Nat) ∈ [400, 404, 500])
  · exact Or.inr (by decide : (400 : Nat) ∈ [400, 404, 500])
  · split
    · exact Or.inr (by decide : (404 : Nat) ∈ [400, 404, 500])
    · split
      · exact Or.inr (by decide : (500 : Nat) ∈ [400, 404, 500])
      · split_ifs with h4
        · exact Or.inl rfl
        · exact Or.inr (by decide : (500 : Nat) ∈ [400, 404, 500])

theorem updateFaculty_failure_status (st : Store) (id : String) (body : Body) :
    (updateFaculty st id body).1.success = true ∨
      (updateFaculty st id body).1.status ∈ [400, 404, 500] := by
  obtain ⟨name, code, secs, av⟩ := body
  cases name <;> cases code <;> cases secs <;> cases av <;>
    try (exact Or.inr (by decide : (400 : Nat) ∈ [400, 404, 500]))
  unfold updateFaculty
  simp only
  split_ifs with h1 h2
  · exact Or.inr (by decide : (400 : Nat) ∈ [400, 404, 500])
  · exact Or.inr (by decide : (400 : Nat) ∈ [400, 404, 500])
  · split
    · exact Or.inr (by decide : (404 : Nat) ∈ [400, 404, 500])
    · split
      · exact Or.inr (by decide : (500 : Nat) ∈ [400, 404, 500])
      · split_ifs with h4
        · split
          · exact Or.inr (by decide : (404 : Nat) ∈ [400, 404, 500])
          · exact Or.inl rfl
        · exact Or.inr (by decide : (500 : Nat) ∈ [400, 404, 500])

theorem createFaculty_data_none (st : Store) (body : Body) (newId : String) :
    (createFaculty st body newId).1.success = true ∨
      (createFaculty st body newId).1.data = none := by
  obtain ⟨name, code, secs, av⟩ := body
  cases name <;> cases code <;> cases secs <;> cases av <;>
    try (exact Or.inr rfl)
  unfold createFaculty
  simp only
  split_ifs with h1 h2 h3
  · exact Or.inr rfl
  · exact Or.inr rfl
  · exact Or.inr rfl
  · split
    · exact Or.inr rfl
    · split
      · exact Or.inr rfl
      · split_ifs with h4
        · exact Or.inl rfl
        · exact Or.inr rfl

theorem updateFaculty_data_none (st : Store) (id : String) (body : Body) :
    (updateFaculty st id body).1.success = true ∨
      (updateFaculty st id body).1.data = none := by
  obtain ⟨name, code, secs, av⟩ := body
  cases name <;> cases code <;> cases secs <;> cases av <;>
    try (exact Or.inr rfl)
  unfold updateFaculty
  simp only
  split_ifs with h1 h2
  · exact Or.inr rfl
  · exact Or.inr rfl
  · split
    · exact Or.inr rfl
    · split
      · exact Or.inr rfl
      · split_ifs with h4
        · split
          · exact Or.inr rfl
          · exact Or.inl rfl
        · exact Or.inr rfl

theorem find_append_fresh (l : List StoredFaculty) (doc : StoredFaculty)
    (h : (l.find? (fun f => decide (f._id = doc._id))).isNone = true) :
    (l ++ [doc]).find? (fun f => decide (f._id = doc._id)) = some doc := by
  rw [Option.isNone_iff_eq_none] at h
  rw [List.find?_append, h]
  simp

/-- The whole `createFaculty` when the part up to the write has failed: the same
answer, without data, and the same store. -/
theorem createFacultyHandler_of_failed (st : Store) (body : Body) (newId : String)
    (readThrows : Bool) (h : (createFaculty st body newId).1.data = none) :
    createFacultyHandler st body newId readThrows =
      ({ status := (createFaculty st body newId).1.status
         success := (createFaculty st body newId).1.success
         message := (createFaculty st body newId).1.message
         data := none },
       (createFaculty st body newId).2) := by
  unfold createFacultyHandler
  rw [h]

/-- The whole `createFaculty` when the write has happened: 500 if the read throws,
else 201 with the populated document; the store is the written one in both cases. -/
theorem createFacultyHandler_of_written (st : Store) (body : Body) (newId : String)
    (readThrows : Bool) (hs : (createFaculty st body newId).1.success = true) :
    ∃ doc : StoredFaculty,
      (createFaculty st body newId).1.data = some doc ∧ doc._id = newId ∧
      (createFaculty st body newId).2 = { st with faculty := st.faculty ++ [doc] } ∧
      createFacultyHandler st body newId readThrows =
        (if readThrows then handlerFailure 500 "Server error"
         else { status := 201, success := true, message := "Faculty created successfully",
                data := some (populate { st with faculty := st.faculty ++ [doc] } doc) },
         { st with faculty := st.faculty ++ [doc] }) := by
  obtain ⟨name, code, secs, av, subject, dept, _, _, _, _, _, _, _, _, hnew, heq⟩ :=
    createFaculty_success st body newId hs
  refine ⟨facultyDocument newId name subject dept secs av, by rw [heq], rfl, by rw [heq], ?_⟩
  have hfind : findFaculty
      { st with faculty := st.faculty ++ [facultyDocument newId name subject dept secs av] }
      (facultyDocument newId name subject dept secs av)._id =
        some (facultyDocument newId name subject dept secs av) :=
    find_append_fresh st.faculty _ hnew
  unfold createFacultyHandler
  rw [heq]
  simp only
  cases readThrows with
  | true => rfl
  | false =>
    simp only [Bool.false_eq_true, if_false]
    rw [hfind]

theorem updateFacultyHandler_of_failed (st : Store) (id : String) (body : Body)
    (readThrows : Bool) (h : (updateFaculty st id body).1.data = none) :
    updateFacultyHandler st id body readThrows =
      ({ status := (updateFaculty st id body).1.status
         success := (updateFaculty st id body).1.success
         message := (updateFaculty st id body).1.message
         data := none },
       (updateFaculty st id body).2) := by
  unfold updateFacultyHandler
  rw [h]

theorem updateFacultyHandler_of_written (st : Store) (id : String) (body : Body)
    (readThrows : Bool) (hs : (updateFaculty st id body).1.success = true) :
    ∃ doc : StoredFaculty,
      (updateFaculty st id body).1.data = some doc ∧ doc._id = id ∧
      (updateFaculty st id body).2 = { st with faculty := replaceById id doc st.faculty } ∧
      updateFacultyHandler st id body readThrows =
        (if readThrows then handlerFailure 500 "Server error"
         else { status := 200, success := true, message := "Faculty updated successfully",
                data := some
                  (populate { st with faculty := replaceById id doc st.faculty } doc) },
         { st with faculty := replaceById id doc st.faculty }) := by
  obtain ⟨name, code, secs, av, subject, dept, _, _, _, _, _, _, _, _, heq⟩ :=
    updateFaculty_success st id body hs
  refine ⟨facultyDocument id name subject dept secs av, by rw [heq], rfl, by rw [heq], ?_⟩
  unfold updateFacultyHandler
  rw [heq]
  simp only
  cases readThrows with
  | true => rfl
  | false => simp only [Bool.false_eq_true, if_false]

/-- When the read that follows the write succeeds, the whole handlers answer with the
status, success flag and message of the part up to the write, and leave its store. -/
theorem handlers_agree_when_read_succeeds (st : Store) (body : Body) (newId id : String) :
    (createFacultyHandler st body newId false).1.status =
        (createFaculty st body newId).1.status ∧
      (createFacultyHandler st body newId false).1.success =
        (createFaculty st body newId).1.success ∧
      (createFacultyHandler st body newId false).1.message =
        (createFaculty st body newId).1.message ∧
      (createFacultyHandler st body newId false).2 = (createFaculty st body newId).2 ∧
      (updateFacultyHandler st id body false).1.status =
        (updateFaculty st id body).1.status ∧
      (updateFacultyHandler st id body false).1.success =
        (updateFaculty st id body).1.success ∧
      (updateFacultyHandler st id body false).1.message =
        (updateFaculty st id body).1.message ∧
      (updateFacultyHandler st id body false).2 = (updateFaculty st id body).2 := by
  have hc : (createFacultyHandler st body newId false).1.status =
        (createFaculty st body newId).1.status ∧
      (createFacultyHandler st body newId false).1.success =
        (createFaculty st body newId).1.success ∧
      (createFacultyHandler st body newId false).1.message =
        (createFaculty st body newId).1.message ∧
      (createFacultyHandler st body newId false).2 = (createFaculty st body newId).2 := by
    rcases createFaculty_data_none st body newId with hs | hnone
    · obtain ⟨doc, _, _, hst, heq⟩ := createFacultyHandler_of_written st body newId false hs
      obtain ⟨_, _, _, _, _, _, _, _, _, _, _, _, _, _, _, hweq⟩ :=
        createFaculty_success st body newId hs
      rw [heq, hst]
      rw [hweq]
      exact ⟨rfl, rfl, rfl, rfl⟩
    · rw [createFacultyHandler_of_failed st body newId false hnone]
      exact ⟨rfl, rfl, rfl, rfl⟩
  have hu : (updateFacultyHandler st id body false).1.status =
        (updateFaculty st id body).1.status ∧
      (updateFacultyHandler st id body false).1.success =
        (updateFaculty st id body).1.success ∧
      (updateFacultyHandler st id body false).1.message =
        (updateFaculty st id body).1.message ∧
      (updateFacultyHandler st id body false).2 = (updateFaculty st id body).2 := by
    rcases updateFaculty_data_none st id body with hs | hnone
    · obtain ⟨doc, _, _, hst, heq⟩ := updateFacultyHandler_of_written st id body false hs
      obtain ⟨_, _, _, _, _, _, _, _, _, _, _, _, _, _, hweq⟩ :=
        updateFaculty_success st id body hs
      rw [heq, hst]
      rw [hweq]
      exact ⟨rfl, rfl, rfl, rfl⟩
    · rw [updateFacultyHandler_of_failed st id body false hnone]
      exact ⟨rfl, rfl, rfl, rfl⟩
  exact ⟨hc.1, hc.2.1, hc.2.2.1, hc.2.2.2, hu.1, hu.2.1, hu.2.2.1, hu.2.2.2⟩

/-- C12, as stated, fails: when the read that follows the write throws,
`createFaculty` answers 500 with `success = false` although the new document is
already stored, and `updateFaculty` answers 500 although the update is applied. -/
theorem failed_request_after_write_counterexample :
    (createFacultyHandler exampleStore exampleFree "f2" true).1 =
      handlerFailure 500 "Server error" ∧
    (createFacultyHandler exampleStore exampleFree "f2" true).2.faculty =
      exampleStore.faculty ++
        [⟨"f2", "Ravi", "sub1", "dep1", ["sec1"], [⟨"Monday", [2]⟩]⟩] ∧
    (createFacultyHandler exampleStore exampleFree "f2" true).2 ≠ exampleStore ∧
    (updateFacultyHandler exampleStore "f1" exampleFree true).1 =
      handlerFailure 500 "Server error" ∧
    (updateFacultyHandler exampleStore "f1" exampleFree true).2.faculty =
      [⟨"f1", "Ravi", "sub1", "dep1", ["sec1"], [⟨"Monday", [2]⟩]⟩] ∧
    (updateFacultyHandler exampleStore "f1" exampleFree true).2 ≠ exampleStore := by
  refine ⟨by decide, by decide, by decide, by decide, by decide, by decide⟩

/-- C12, amended. When `createFaculty` or `updateFaculty` answers with
`success = false`, the status is 400, 404 or 500; the store is exactly what it was if
the status is 400 or 404, and also if it is 500 unless the read that follows the write
threw. A failure of `deleteFaculty` (404) leaves the store as it was. And when
`createFaculty` or `updateFaculty` changes the store, every check has passed (all
fields present, name, subject code and section list non-empty, the subject and its
department resolved, the schema validators satisfied). -/
theorem failed_request_leaves_store_unless_read_throws (st : Store) :
    (∀ (body : Body) (newId : String) (readThrows : Bool),
        (createFacultyHandler st body newId readThrows).1.success = false →
          (createFacultyHandler st body newId readThrows).1.status ∈ [400, 404, 500] ∧
          ((createFacultyHandler st body newId readThrows).1.status ≠ 500 →
            (createFacultyHandler st body newId readThrows).2 = st) ∧
          (readThrows = false → (createFacultyHandler st body newId readThrows).2 = st)) ∧
    (∀ (id : String) (body : Body) (readThrows : Bool),
        (updateFacultyHandler st id body readThrows).1.success = false →
          (updateFacultyHandler st id body readThrows).1.status ∈ [400, 404, 500] ∧
          ((updateFacultyHandler st id body readThrows).1.status ≠ 500 →
            (updateFacultyHandler st id body readThrows).2 = st) ∧
          (readThrows = false → (updateFacultyHandler st id body readThrows).2 = st)) ∧
    (∀ id : String,
        (deleteFaculty st id).1.success = false →
          (deleteFaculty st id).2 = st ∧ (deleteFaculty st id).1.status = 404) ∧
    (∀ (body : Body) (newId : String) (readThrows : Bool),
        (createFacultyHandler st body newId readThrows).2 ≠ st →
        ∃ (name code : String) (secs : List String) (av : List Availability)
          (subject : StoredSubject) (dept : String),
          body = ⟨some name, some code, some secs, some av⟩ ∧
          name ≠ "" ∧ code ≠ "" ∧ secs ≠ [] ∧ av ≠ [] ∧
          findSubject st code = some subject ∧ subject.department = some dept ∧
          schemaValid (facultyDocument newId name subject dept secs av) = true) ∧
    (∀ (id : String) (body : Body) (readThrows : Bool),
        (updateFacultyHandler st id body readThrows).2 ≠ st →
        ∃ (name code : String) (secs : List String) (av : List Availability)
          (subject : StoredSubject) (dept : String),
          body = ⟨some name, some code, some secs, some av⟩ ∧
          name ≠ "" ∧ code ≠ "" ∧ secs ≠ [] ∧
          findSubject st code = some subject ∧ subject.department = some dept ∧
          schemaValid (facultyDocument id name subject dept secs av) = true) := by
  refine ⟨?_, ?_, ?_, ?_, ?_⟩
  · intro body newId readThrows hfail
    rcases createFaculty_data_none st body newId with hs | hnone
    · obtain ⟨doc, _, _, _, heq⟩ := createFacultyHandler_of_written st body newId readThrows hs
      rw [heq] at hfail ⊢
      cases readThrows with
      | true =>
        exact ⟨(by decide : (500 : Nat) ∈ [400, 404, 500]), fun h => absurd rfl h,
          fun h => Bool.noConfusion h⟩
      | false =>
        have h2 : true = false := hfail
        exact Bool.noConfusion h2
    · rw [createFacultyHandler_of_failed st body newId readThrows hnone] at hfail ⊢
      simp only at hfail ⊢
      have hstatus : (createFaculty st body newId).1.status ∈ [400, 404, 500] := by
        rcases createFaculty_failure_status st body newId with hs | hs
        · rw [hs] at hfail; exact absurd hfail (by decide)
        · exact hs
      have hst : (createFaculty st body newId).2 = st := by
        rcases createFaculty_store st body newId with h | ⟨_, _, _, _, _, hs, _⟩
        · exact h
        · rw [hs] at hfail; exact absurd hfail (by decide)
      exact ⟨hstatus, fun _ => hst, fun _ => hst⟩
  · intro id body readThrows hfail
    rcases updateFaculty_data_none st id body with hs | hnone
    · obtain ⟨doc, _, _, _, heq⟩ := updateFacultyHandler_of_written st id body readThrows hs
      rw [heq] at hfail ⊢
      cases readThrows with
      | true =>
        exact ⟨(by decide : (500 : Nat) ∈ [400, 404, 500]), fun h => absurd rfl h,
          fun h => Bool.noConfusion h⟩
      | false =>
        have h2 : true = false := hfail
        exact Bool.noConfusion h2
    · rw [updateFacultyHandler_of_failed st id body readThrows hnone] at hfail ⊢
      simp only at hfail ⊢
      have hstatus : (updateFaculty st id body).1.status ∈ [400, 404, 500] := by
        rcases updateFaculty_failure_status st id body with hs | hs
        · rw [hs] at hfail; exact absurd hfail (by decide)
        · exact hs
      have hst : (updateFaculty st id body).2 = st := by
        rcases updateFaculty_store st id body with h | ⟨_, _, _, _, hs, _⟩
        · exact h
        · rw [hs] at hfail; exact absurd hfail (by decide)
      exact ⟨hstatus, fun _ => hst, fun _ => hst⟩
  · intro id hfail
    unfold deleteFaculty at hfail ⊢
    split at hfail
    · rename_i hnone
      simp [hnone, failure]
    · exact absurd hfail Bool.true_eq_false.mp
  · intro body newId readThrows hne
    have hs : (createFaculty st body newId).1.success = true := by
      rcases createFaculty_data_none st body newId with hs | hnone
      · exact hs
      · rw [createFacultyHandler_of_failed st body newId readThrows hnone] at hne
        rcases createFaculty_store st body newId with h | ⟨_, _, _, _, _, hs, _⟩
        · exact absurd h hne
        · exact hs
    obtain ⟨name, code, secs, av, subject, dept, hb, h1, h2, h3, h4, h5, h6, h7, _, _⟩ :=
      createFaculty_success st body newId hs
    exact ⟨name, code, secs, av, subject, dept, hb, h1, h2, h3, h4, h5, h6, h7⟩
  · intro id body readThrows hne
    have hs : (updateFaculty st id body).1.success = true := by
      rcases updateFaculty_data_none st id body with hs | hnone
      · exact hs
      · rw [updateFacultyHandler_of_failed st id body readThrows hnone] at hne
        rcases updateFaculty_store st id body with h | ⟨_, _, _, _, hs, _⟩
        · exact absurd h hne
        · exact hs
    obtain ⟨name, code, secs, av, subject, dept, hb, h1, h2, h3, h5, h6, h7, _, _⟩ :=
      updateFaculty_success st id body hs
    exact ⟨name, code, secs, av, subject, dept, hb, h1, h2, h3, h5, h6, h7⟩

/-- C12, amended, at a concrete store: a create with an unknown subject code, an update
of a missing document and a delete of a missing document fail, and the general
statement gives back the store. -/
theorem failed_request_leaves_store_unless_read_throws_witness :
    (createFacultyHandler exampleStore
        ⟨some "Ravi", some "NOPE", some ["sec1"], some [⟨"Monday", [2]⟩]⟩ "f2" true).2 =
      exampleStore ∧
    (updateFacultyHandler exampleStore "f7" exampleFree false).2 = exampleStore ∧
    (deleteFaculty exampleStore "f7").2 = exampleStore :=
  ⟨((failed_request_leaves_store_unless_read_throws exampleStore).1 _ "f2" true
      (by decide)).2.1 (by decide),
   ((failed_request_leaves_store_unless_read_throws exampleStore).2.1 "f7" exampleFree false
      (by decide)).2.2 rfl,
   ((failed_request_leaves_store_unless_read_throws exampleStore).2.2.1 "f7"
      (by decide)).1⟩

/-- C13, the code at the failing input: a name of three blanks is not rejected by the
presence check; with the other fields valid, `createFaculty` and `updateFaculty` look
the subject up, build the document with the trimmed (empty) name, fail the schema
validation and answer 500 `Server error`, not the 400 of a validation error. A
missing or empty name is answered with the 400. In each case the store is unchanged. -/
theorem whitespace_name_is_server_error :
    createFaculty exampleStore
        ⟨some "   ", some "CS101", some ["sec1"], some [⟨"Monday", [2]⟩]⟩ "f2" =
      (failure 500 "Server error", exampleStore) ∧
    updateFaculty exampleStore "f1"
        ⟨some "   ", some "CS101", some ["sec1"], some [⟨"Monday", [2]⟩]⟩ =
      (failure 500 "Server error", exampleStore) ∧
    createFaculty exampleStore
        ⟨some "", some "CS101", some ["sec1"], some [⟨"Monday", [2]⟩]⟩ "f2" =
      (failure 400 "Name, subject, sections, and availability are required", exampleStore) ∧
    updateFaculty exampleStore "f1"
        ⟨none, some "CS101", some ["sec1"], some [⟨"Monday", [2]⟩]⟩ =
      (failure 400 "Name, subject, sections, and availability are required",
        exampleStore) := by
  refine ⟨by decide, by decide, by decide, by decide⟩

/-- C14, as stated, fails: in `exampleStoreOther` the subject `CS101` belongs to
`dep1`, the section `sec9` belongs to `dep2` and `ghost` is no section; `createFaculty`
with the section list `[sec9, ghost]` answers 201 and stores a document of department
`dep1` with these sections, and `updateFaculty` answers 200 and stores them too; the
whole handlers answer the same, the populated data listing the section `sec9` of the
other department. -/
theorem foreign_section_is_written_counterexample :
    ¬ sectionInDepartment exampleStoreOther "dep1" "sec9" ∧
    ¬ sectionInDepartment exampleStoreOther "dep1" "ghost" ∧
    (createFaculty exampleStoreOther
        ⟨some "Ravi", some "CS101", some ["sec9", "ghost"], some [⟨"Monday", [2]⟩]⟩
        "f2").1.status = 201 ∧
    (createFaculty exampleStoreOther
        ⟨some "Ravi", some "CS101", some ["sec9", "ghost"], some [⟨"Monday", [2]⟩]⟩
        "f2").2.faculty =
      exampleStoreOther.faculty ++
        [⟨"f2", "Ravi", "sub1", "dep1", ["sec9", "ghost"], [⟨"Monday", [2]⟩]⟩] ∧
    (updateFaculty exampleStoreOther "f1"
        ⟨some "Asha", some "CS101", some ["sec9", "ghost"], some [⟨"Monday", [1]⟩]⟩).1.status
      = 200 ∧
    (updateFaculty exampleStoreOther "f1"
        ⟨some "Asha", some "CS101", some ["sec9", "ghost"], some [⟨"Monday", [1]⟩]⟩).2.faculty =
      [⟨"f1", "Asha", "sub1", "dep1", ["sec9", "ghost"], [⟨"Monday", [1]⟩]⟩] ∧
    (createFacultyHandler exampleStoreOther
        ⟨some "Ravi", some "CS101", some ["sec9", "ghost"], some [⟨"Monday", [2]⟩]⟩
        "f2" false).1 =
      { status := 201, success := true, message := "Faculty created successfully",
        data := some ⟨"f2", "Ravi", some ⟨"sub1", "CS101", some "dep1"⟩, "dep1",
          [⟨"sec9", "3A", "dep2"⟩], [⟨"Monday", [2]⟩]⟩ } ∧
    (updateFacultyHandler exampleStoreOther "f1"
        ⟨some "Asha", some "CS101", some ["sec9", "ghost"], some [⟨"Monday", [1]⟩]⟩
        false).1.status = 200 := by
  refine ⟨by decide, by decide, by decide, by decide, by decide, by decide, by decide,
    by decide⟩


theorem createFaculty_missing_sections (st : Store) (body : Body) (newId id : String)
    (h : body.sections = none ∨ body.sections = some []) :
    (createFaculty st body newId).1.status = 400 ∧
      (createFaculty st body newId).1.data = none ∧
      (createFaculty st body newId).2 = st ∧
      (updateFaculty st id body).1.status = 400 ∧
      (updateFaculty st id body).1.data = none ∧
      (updateFaculty st id body).2 = st := by
  obtain ⟨name, code, secs, av⟩ := body
  simp only at h
  rcases h with h | h
  · subst h
    cases name <;> cases code <;> cases av <;> exact ⟨rfl, rfl, rfl, rfl, rfl, rfl⟩
  · subst h
    cases name <;> cases code <;> cases av <;> try (exact ⟨rfl, rfl, rfl, rfl, rfl, rfl⟩)
    rename_i name code av
    unfold createFaculty updateFaculty
    simp only [List.length_nil, if_true]
    by_cases hn : name = "" ∨ code = ""
    · rw [if_pos hn]
      exact ⟨rfl, rfl, rfl, rfl, rfl, rfl⟩
    · rw [if_neg hn]
      exact ⟨rfl, rfl, rfl, rfl, rfl, rfl⟩

/-- The part of the handlers up to the write never reads the stored sections. -/
theorem write_ignores_stored_sections (st : Store) (body : Body) (newId id : String)
    (stored : List StoredSection) :
    (createFaculty { st with sections := stored } body newId).1 =
        (createFaculty st body newId).1 ∧
      (createFaculty { st with sections := stored } body newId).2.faculty =
        (createFaculty st body newId).2.faculty ∧
      (updateFaculty { st with sections := stored } id body).1 =
        (updateFaculty st id body).1 ∧
      (updateFaculty { st with sections := stored } id body).2.faculty =
        (updateFaculty st id body).2.faculty := by
  obtain ⟨name, code, secs, av⟩ := body
  cases name <;> cases code <;> cases secs <;> cases av <;>
    try (exact ⟨rfl, rfl, rfl, rfl⟩)
  rename_i name code secs av
  have e1 : findSubject { st with sections := stored } code = findSubject st code := rfl
  have e2 : findFaculty { st with sections := stored } newId = findFaculty st newId := rfl
  have e3 : findFaculty { st with sections := stored } id = findFaculty st id := rfl
  unfold createFaculty updateFaculty
  simp only [e1, e2, e3]
  refine ⟨?_, ?_, ?_, ?_⟩ <;> (repeat' split) <;> rfl

theorem mem_replaceById_self (id : String) (doc : StoredFaculty) (l : List StoredFaculty)
    (h : (l.find? (fun f => decide (f._id = id))).isSome = true) :
    doc ∈ replaceById id doc l := by
  induction l with
  | nil => simp at h
  | cons f rest ih =>
    unfold replaceById
    by_cases hf : f._id = id
    · simp [hf]
    · rw [if_neg hf]
      rw [List.find?_cons_of_neg _ (by simpa using hf)] at h
      exact List.mem_cons_of_mem _ (ih h)

theorem createFacultyHandler_ignores_sections (st : Store) (body : Body) (newId : String)
    (readThrows : Bool) (stored : List StoredSection) :
    (createFacultyHandler { st with sections := stored } body newId readThrows).1.status =
        (createFacultyHandler st body newId readThrows).1.status ∧
      (createFacultyHandler { st with sections := stored } body newId readThrows).1.success =
        (createFacultyHandler st body newId readThrows).1.success ∧
      (createFacultyHandler { st with sections := stored } body newId readThrows).1.message =
        (createFacultyHandler st body newId readThrows).1.message ∧
      (createFacultyHandler { st with sections := stored } body newId readThrows).2.faculty =
        (createFacultyHandler st body newId readThrows).2.faculty := by
  obtain ⟨c1, c2, _, _⟩ := write_ignores_stored_sections st body newId newId stored
  rcases createFaculty_data_none st body newId with hs | hnone
  · obtain ⟨doc, hdata, _, _, heq⟩ :=
      createFacultyHandler_of_written st body newId readThrows hs
    obtain ⟨doc', hd', _, _, heq'⟩ :=
      createFacultyHandler_of_written { st with sections := stored } body newId
        readThrows (by rw [c1]; exact hs)
    have hdd : doc' = doc := by
      rw [c1, hdata] at hd'
      exact (Option.some.inj hd').symm
    subst hdd
    rw [heq, heq']
    cases readThrows <;> exact ⟨rfl, rfl, rfl, rfl⟩
  · rw [createFacultyHandler_of_failed st body newId readThrows hnone,
      createFacultyHandler_of_failed { st with sections := stored } body newId
        readThrows (by rw [c1]; exact hnone)]
    simp only [c1, true_and]
    exact c2

theorem updateFacultyHandler_ignores_sections (st : Store) (id : String) (body : Body)
    (readThrows : Bool) (stored : List StoredSection) :
    (updateFacultyHandler { st with sections := stored } id body readThrows).1.status =
        (updateFacultyHandler st id body readThrows).1.status ∧
      (updateFacultyHandler { st with sections := stored } id body readThrows).1.success =
        (updateFacultyHandler st id body readThrows).1.success ∧
      (updateFacultyHandler { st with sections := stored } id body readThrows).1.message =
        (updateFacultyHandler st id body readThrows).1.message ∧
      (updateFacultyHandler { st with sections := stored } id body readThrows).2.faculty =
        (updateFacultyHandler st id body readThrows).2.faculty := by
  obtain ⟨_, _, u1, u2⟩ := write_ignores_stored_sections st body id id stored
  rcases updateFaculty_data_none st id body with hs | hnone
  · obtain ⟨doc, hdata, _, _, heq⟩ :=
      updateFacultyHandler_of_written st id body readThrows hs
    obtain ⟨doc', hd', _, _, heq'⟩ :=
      updateFacultyHandler_of_written { st with sections := stored } id body
        readThrows (by rw [u1]; exact hs)
    have hdd : doc' = doc := by
      rw [u1, hdata] at hd'
      exact (Option.some.inj hd').symm
    subst hdd
    rw [heq, heq']
    cases readThrows <;> exact ⟨rfl, rfl, rfl, rfl⟩
  · rw [updateFacultyHandler_of_failed st id body readThrows hnone,
      updateFacultyHandler_of_failed { st with sections := stored } id body
        readThrows (by rw [u1]; exact hnone)]
    simp only [u1, true_and]
    exact u2

/-- C14, amended. `createFaculty` and `updateFaculty` reject a missing or empty section
list with a 400 and leave the store unchanged; they never check the section
identifiers against the stored sections: the status, the success flag, the message
and the stored faculty documents do not depend on the stored sections, and a
successful request stores the submitted section list as it is. Only the populated
data of the answer reads the stored sections. -/
theorem section_list_checked_for_emptiness_only (st : Store) (body : Body)
    (newId id : String) (readThrows : Bool) :
    (body.sections = none ∨ body.sections = some [] →
        (createFacultyHandler st body newId readThrows).1.status = 400 ∧
          (createFacultyHandler st body newId readThrows).2 = st ∧
          (updateFacultyHandler st id body readThrows).1.status = 400 ∧
          (updateFacultyHandler st id body readThrows).2 = st) ∧
    (∀ stored : List StoredSection,
        (createFacultyHandler { st with sections := stored } body newId readThrows).1.status =
            (createFacultyHandler st body newId readThrows).1.status ∧
          (createFacultyHandler { st with sections := stored } body newId
              readThrows).1.success =
            (createFacultyHandler st body newId readThrows).1.success ∧
          (createFacultyHandler { st with sections := stored } body newId
              readThrows).1.message =
            (createFacultyHandler st body newId readThrows).1.message ∧
          (createFacultyHandler { st with sections := stored } body newId
              readThrows).2.faculty =
            (createFacultyHandler st body newId readThrows).2.faculty ∧
          (updateFacultyHandler { st with sections := stored } id body readThrows).1.status =
            (updateFacultyHandler st id body readThrows).1.status ∧
          (updateFacultyHandler { st with sections := stored } id body
              readThrows).1.success =
            (updateFacultyHandler st id body readThrows).1.success ∧
          (updateFacultyHandler { st with sections := stored } id body
              readThrows).1.message =
            (updateFacultyHandler st id body readThrows).1.message ∧
          (updateFacultyHandler { st with sections := stored } id body
              readThrows).2.faculty =
            (updateFacultyHandler st id body readThrows).2.faculty) ∧
    ((createFacultyHandler st body newId readThrows).1.success = true →
        ∃ doc ∈ (createFacultyHandler st body newId readThrows).2.faculty,
          doc._id = newId ∧ some doc.sections = body.sections ∧
          (createFacultyHandler st body newId readThrows).1.data =
            some (populate (createFacultyHandler st body newId readThrows).2 doc)) ∧
    ((updateFacultyHandler st id body readThrows).1.success = true →
        ∃ doc ∈ (updateFacultyHandler st id body readThrows).2.faculty,
          doc._id = id ∧ some doc.sections = body.sections ∧
          (updateFacultyHandler st id body readThrows).1.data =
            some (populate (updateFacultyHandler st id body readThrows).2 doc)) := by
  refine ⟨?_, ?_, ?_, ?_⟩
  · intro h
    obtain ⟨h1, h2, h3, h4, h5, h6⟩ := createFaculty_missing_sections st body newId id h
    rw [createFacultyHandler_of_failed st body newId readThrows h2,
      updateFacultyHandler_of_failed st id body readThrows h5]
    exact ⟨h1, h3, h4, h6⟩
  · intro stored
    obtain ⟨c1, c2, c3, c4⟩ :=
      createFacultyHandler_ignores_sections st body newId readThrows stored
    obtain ⟨u1, u2, u3, u4⟩ :=
      updateFacultyHandler_ignores_sections st id body readThrows stored
    exact ⟨c1, c2, c3, c4, u1, u2, u3, u4⟩
  · intro hs
    have hw : (createFaculty st body newId).1.success = true := by
      rcases createFaculty_data_none st body newId with h | hnone
      · exact h
      · rw [createFacultyHandler_of_failed st body newId readThrows hnone] at hs
        rcases createFaculty_failure_status st body newId with h | h
        · exact h
        · exact hs
    obtain ⟨name, code, secs, av, subject, dept, hb, _, _, _, _, _, _, _, _, hweq⟩ :=
      createFaculty_success st body newId hw
    obtain ⟨doc, hdata, hid, _, heq⟩ :=
      createFacultyHandler_of_written st body newId readThrows hw
    have hdoc : doc = facultyDocument newId name subject dept secs av := by
      rw [hweq] at hdata
      exact (Option.some.inj hdata).symm
    rw [heq] at hs ⊢
    cases readThrows with
    | true =>
      have h2 : false = true := hs
      exact Bool.noConfusion h2
    | false =>
      refine ⟨doc, by simp, hid, ?_, rfl⟩
      rw [hdoc, hb]
      rfl
  · intro hs
    have hw : (updateFaculty st id body).1.success = true := by
      rcases updateFaculty_data_none st id body with h | hnone
      · exact h
      · rw [updateFacultyHandler_of_failed st id body readThrows hnone] at hs
        exact hs
    obtain ⟨name, code, secs, av, subject, dept, hb, _, _, _, _, _, _, hfound, hweq⟩ :=
      updateFaculty_success st id body hw
    obtain ⟨doc, hdata, hid, _, heq⟩ :=
      updateFacultyHandler_of_written st id body readThrows hw
    have hdoc : doc = facultyDocument id name subject dept secs av := by
      rw [hweq] at hdata
      exact (Option.some.inj hdata).symm
    rw [heq] at hs ⊢
    cases readThrows with
    | true =>
      have h2 : false = true := hs
      exact Bool.noConfusion h2
    | false =>
      refine ⟨doc, mem_replaceById_self id doc st.faculty hfound, hid, ?_, rfl⟩
      rw [hdoc, hb]
      rfl

/-- C14, amended, at a concrete store: an empty section list is rejected with a 400
and the store is unchanged. -/
theorem section_list_checked_for_emptiness_only_witness :
    (createFacultyHandler exampleStore
        ⟨some "Ravi", some "CS101", some [], some [⟨"Monday", [2]⟩]⟩ "f2" false).1.status
      = 400 ∧
    (createFacultyHandler exampleStore
        ⟨some "Ravi", some "CS101", some [], some [⟨"Monday", [2]⟩]⟩ "f2" false).2 =
      exampleStore :=
  ⟨((section_list_checked_for_emptiness_only exampleStore
      ⟨some "Ravi", some "CS101", some [], some [⟨"Monday", [2]⟩]⟩ "f2" "f1" false).1
      (Or.inr rfl)).1,
   ((section_list_checked_for_emptiness_only exampleStore
      ⟨some "Ravi", some "CS101", some [], some [⟨"Monday", [2]⟩]⟩ "f2" "f1" false).1
      (Or.inr rfl)).2.1⟩

/-- C15, the code at the failing input: for an empty availability list with the other
fields valid, `createFaculty` answers the 400 `At least one availability slot is
required` before the subject lookup; `updateFaculty` has no such check: it looks the
subject up and answers 404 when the code is unknown, and otherwise fails the schema
validation of the update and answers 500 `Server error`. For no store does
`updateFaculty` answer an empty availability list with a 400 when the name, the
subject code and the section list are non-empty. -/
theorem update_skips_availability_check :
    createFaculty exampleStore ⟨some "Ravi", some "CS101", some ["sec1"], some []⟩ "f2" =
      (failure 400 "At least one availability slot is required", exampleStore) ∧
    updateFaculty exampleStore "f1" ⟨some "Ravi", some "CS101", some ["sec1"], some []⟩ =
      (failure 500 "Server error", exampleStore) ∧
    updateFaculty exampleStore "f1" ⟨some "Ravi", some "NOPE", some ["sec1"], some []⟩ =
      (failure 404 "Subject with code \"NOPE\" not found", exampleStore) ∧
    (∀ (st : Store) (id name code : String) (secs : List String),
        name ≠ "" → code ≠ "" → secs ≠ [] →
          (updateFaculty st id ⟨some name, some code, some secs, some []⟩).1.status = 404 ∨
          (updateFaculty st id ⟨some name, some code, some secs, some []⟩).1.status = 500) := by
  refine ⟨by decide, by decide, by decide, ?_⟩
  intro st id name code secs hname hcode hsecs
  unfold updateFaculty
  simp only [hname, hcode, or_self, if_false, List.length_eq_zero, hsecs]
  split
  · exact Or.inl rfl
  · split
    · exact Or.inr rfl
    · have hv : ∀ (i n s d : String) (l : List String),
          schemaValid (⟨i, n, s, d, l, []⟩ : StoredFaculty) = false := by
        intro i n s d l
        simp [schemaValid]
      rw [if_neg (by rw [hv]; exact Bool.false_ne_true)]
      exact Or.inr rfl

/-- C16, as stated, fails: `createFaculty` stores an availability list with two entries
for Monday as submitted, and one with an entry whose period list is empty, and
`updateFaculty` stores a list with both defects; the answers are 201 and 200. -/
theorem malformed_availability_is_stored_counterexample :
    hasDuplicateDay [⟨"Monday", [1]⟩, ⟨"Monday", [2]⟩] ∧
    createFaculty exampleStore
        ⟨some "Ravi", some "CS101", some ["sec1"],
          some [⟨"Monday", [1]⟩, ⟨"Monday", [2]⟩]⟩ "f2" =
      ({ status := 201, success := true, message := "Faculty created successfully",
         data := some ⟨"f2", "Ravi", "sub1", "dep1", ["sec1"],
           [⟨"Monday", [1]⟩, ⟨"Monday", [2]⟩]⟩ },
       { exampleStore with
         faculty := exampleStore.faculty ++
           [⟨"f2", "Ravi", "sub1", "dep1", ["sec1"], [⟨"Monday", [1]⟩, ⟨"Monday", [2]⟩]⟩] }) ∧
    hasEmptyPeriods [⟨"Tuesday", []⟩] ∧
    (createFaculty exampleStore
        ⟨some "Ravi", some "CS101", some ["sec1"], some [⟨"Tuesday", []⟩]⟩ "f2").2.faculty =
      exampleStore.faculty ++ [⟨"f2", "Ravi", "sub1", "dep1", ["sec1"], [⟨"Tuesday", []⟩]⟩] ∧
    updateFaculty exampleStore "f1"
        ⟨some "Asha", some "CS101", some ["sec1"],
          some [⟨"Monday", [1]⟩, ⟨"Monday", []⟩]⟩ =
      ({ status := 200, success := true, message := "Faculty updated successfully",
         data := some ⟨"f1", "Asha", "sub1", "dep1", ["sec1"],
           [⟨"Monday", [1]⟩, ⟨"Monday", []⟩]⟩ },
       { exampleStore with
         faculty := [⟨"f1", "Asha", "sub1", "dep1", ["sec1"],
           [⟨"Monday", [1]⟩, ⟨"Monday", []⟩]⟩] }) := by
  refine ⟨by decide, by decide, by decide, by decide, by decide⟩

/-- C16, amended. `createFaculty` and `updateFaculty` never normalize the availability
list: a successful request stores the submitted list unchanged. The only conditions
they put on the list are that it is non-empty and that every entry's day is one of the
five weekdays; with the other checks passed, a list that meets these two is stored as
submitted, whether or not it repeats a day or holds an empty period list. -/
theorem availability_is_stored_as_submitted (st : Store) (name code : String)
    (secs : List String) (av : List Availability) (newId id : String) :
    ((createFaculty st ⟨some name, some code, some secs, some av⟩ newId).1.success = true →
        av ≠ [] ∧ (∀ a ∈ av, a.day ∈ DAYS) ∧
        ∃ doc : StoredFaculty, doc.availability = av ∧
          (createFaculty st ⟨some name, some code, some secs, some av⟩ newId).2.faculty =
            st.faculty ++ [doc]) ∧
    ((updateFaculty st id ⟨some name, some code, some secs, some av⟩).1.success = true →
        av ≠ [] ∧ (∀ a ∈ av, a.day ∈ DAYS) ∧
        ∃ doc : StoredFaculty, doc.availability = av ∧
          (updateFaculty st id ⟨some name, some code, some secs, some av⟩).2.faculty =
            replaceById id doc st.faculty) ∧
    (∀ (subject : StoredSubject) (dept : String),
        trim name ≠ "" → code ≠ "" → secs ≠ [] → av ≠ [] → (∀ a ∈ av, a.day ∈ DAYS) →
        findSubject st code = some subject → subject.department = some dept →
        ((findFaculty st newId).isNone = true →
          (createFaculty st ⟨some name, some code, some secs, some av⟩ newId).1.success
            = true) ∧
        ((findFaculty st id).isSome = true →
          (updateFaculty st id ⟨some name, some code, some secs, some av⟩).1.success
            = true)) := by
  have hvalid : ∀ doc : StoredFaculty, schemaValid doc = true →
      doc.availability ≠ [] ∧ ∀ a ∈ doc.availability, a.day ∈ DAYS := by
    intro doc h
    simp only [schemaValid, Bool.and_eq_true, decide_eq_true_eq, List.all_eq_true] at h
    exact ⟨List.length_pos.1 h.1.2, h.2⟩
  refine ⟨?_, ?_, ?_⟩
  · intro hs
    obtain ⟨name', code', secs', av', subject, dept, hb, _, _, _, _, _, _, hv, _, heq⟩ :=
      createFaculty_success st _ newId hs
    injection hb with h1 h2 h3 h4
    injection h4 with h4
    subst h4
    rw [heq]
    exact ⟨(hvalid _ hv).1, (hvalid _ hv).2, _, rfl, rfl⟩
  · intro hs
    obtain ⟨name', code', secs', av', subject, dept, hb, _, _, _, _, _, hv, _, heq⟩ :=
      updateFaculty_success st id _ hs
    injection hb with h1 h2 h3 h4
    injection h4 with h4
    subst h4
    rw [heq]
    exact ⟨(hvalid _ hv).1, (hvalid _ hv).2, _, rfl, rfl⟩
  · intro subject dept hname hcode hsecs hav hdays hsub hdept
    constructor
    · intro hnew
      rw [createFaculty_ok st name code secs av newId subject dept hname hcode hsecs hav
        hdays hsub hdept hnew]
    · intro hold
      obtain ⟨old, hold'⟩ := Option.isSome_iff_exists.1 hold
      rw [updateFaculty_ok st id name code secs av subject dept old hname hcode hsecs hav
        hdays hsub hdept hold']

/-- C16, amended, at a concrete store: the list with two entries for Monday passes
every check, so `createFaculty` succeeds and stores it. -/
theorem availability_is_stored_as_submitted_witness :
    (createFaculty exampleStore
        ⟨some "Ravi", some "CS101", some ["sec1"],
          some [⟨"Monday", [1]⟩, ⟨"Monday", [2]⟩]⟩ "f2").1.success = true :=
  ((availability_is_stored_as_submitted exampleStore "Ravi" "CS101" ["sec1"]
      [⟨"Monday", [1]⟩, ⟨"Monday", [2]⟩] "f2" "f1").2.2
    ⟨"sub1", "CS101", some "dep1"⟩ "dep1" (by decide) (by decide) (by decide) (by decide)
    (by decide) (by decide) rfl).1 (by decide)

/-! ## Clicks on free cells and the provenance of descriptors -/

theorem handleSlotClick_free (st : State) (day : String) (period : Nat)
    (h : slotKey day period ∉ st.blockedSlots.keys) :
    handleSlotClick st day period =
      { st with
        selectedSlots := st.selectedSlots.set (slotKey day period)
          (!(isSelected st.selectedSlots (slotKey day period))) } := by
  have hnone : st.blockedSlots.get (slotKey day period) = none := by
    cases hget : st.blockedSlots.get (slotKey day period) with
    | none => rfl
    | some l =>
      exact absurd ((mem_keys_iff st.blockedSlots (slotKey day period)).2 (by simp [hget])) h
  simp only [handleSlotClick, hnone]

/-- C19. A click on a cell that is not blocked flips exactly that cell: it is selected
afterwards iff it was not selected before, every other key and so every other cell
keeps its status, the blocked map is unchanged, and a second click on the cell gives
back the original selection set. -/
theorem free_click_flips_exactly_that_cell (st : State) (day : String) (period : Nat)
    (h : slotKey day period ∉ st.blockedSlots.keys) :
    isSelected (handleSlotClick st day period).selectedSlots (slotKey day period) =
        !(isSelected st.selectedSlots (slotKey day period)) ∧
    (∀ k : String, k ≠ slotKey day period →
        isSelected (handleSlotClick st day period).selectedSlots k =
          isSelected st.selectedSlots k) ∧
    (∀ (d : String) (p : Nat), ¬ (d = day ∧ p = period) →
        isSelected (handleSlotClick st day period).selectedSlots (slotKey d p) =
          isSelected st.selectedSlots (slotKey d p)) ∧
    (handleSlotClick st day period).blockedSlots = st.blockedSlots ∧
    (∀ k : String,
        isSelected
            (handleSlotClick (handleSlotClick st day period) day period).selectedSlots k =
          isSelected st.selectedSlots k) := by
  have hclick := handleSlotClick_free st day period h
  have hother : ∀ k : String, k ≠ slotKey day period →
      isSelected (handleSlotClick st day period).selectedSlots k =
        isSelected st.selectedSlots k := by
    intro k hk
    rw [hclick]
    simp only [isSelected_set, hk, if_false]
  have hsame : isSelected (handleSlotClick st day period).selectedSlots (slotKey day period) =
      !(isSelected st.selectedSlots (slotKey day period)) := by
    rw [hclick]
    simp only [isSelected_set, if_true]
  have hblocked : (handleSlotClick st day period).blockedSlots = st.blockedSlots := by
    rw [hclick]
  refine ⟨hsame, hother, ?_, hblocked, ?_⟩
  · intro d p hne
    exact hother _ (fun hk => hne (slotKey_inj hk))
  · intro k
    have h2 : slotKey day period ∉ (handleSlotClick st day period).blockedSlots.keys := by
      rw [hblocked]; exact h
    rw [handleSlotClick_free _ day period h2]
    simp only [isSelected_set]
    by_cases hk : k = slotKey day period
    · rw [if_pos hk, hsame, Bool.not_not, hk]
    · rw [if_neg hk]
      exact hother k hk

/-- C19, at a concrete state: `Monday-1` is free and unselected, `Tuesday-2` is
selected; the click selects `Monday-1` and leaves `Tuesday-2` selected. -/
theorem free_click_flips_exactly_that_cell_witness :
    isSelected
        (handleSlotClick { initialState with selectedSlots := [("Tuesday-2", true)] }
          "Monday" 1).selectedSlots (slotKey "Monday" 1) = true ∧
    isSelected
        (handleSlotClick { initialState with selectedSlots := [("Tuesday-2", true)] }
          "Monday" 1).selectedSlots (slotKey "Tuesday" 2) = true :=
  ⟨(free_click_flips_exactly_that_cell
      { initialState with selectedSlots := [("Tuesday-2", true)] } "Monday" 1
      (by decide)).1.trans (by decide),
   ((free_click_flips_exactly_that_cell
      { initialState with selectedSlots := [("Tuesday-2", true)] } "Monday" 1
      (by decide)).2.2.1 "Tuesday" 2 (by decide)).trans (by decide)⟩

theorem sectionCodeOf_of_teaches (f : Faculty) (sid : String) (h : teaches f sid) :
    ∃ sec ∈ f.sections.getD [], sec._id = sid ∧ sectionCodeOf f sid = some sec.code := by
  obtain ⟨s, hs, hid⟩ := h
  unfold sectionCodeOf
  cases hsec : f.sections with
  | none => rw [hsec] at hs; simp at hs
  | some ss =>
    rw [hsec] at hs
    simp only [Option.getD_some] at hs ⊢
    cases hfind : ss.find? (fun s => decide (s._id = sid)) with
    | none =>
      rw [List.find?_eq_none] at hfind
      exact absurd (by simpa using hid) (hfind s hs)
    | some sec =>
      refine ⟨sec, List.mem_of_find?_eq_some hfind, ?_, rfl⟩
      simpa using List.find?_some hfind

/-- C20. Every descriptor in the list of cell `(day, period)` is justified and
correctly tagged: it comes from a roster faculty `f` whose id differs from the editing
id and a selected section `sid` that `f` teaches, with `(day, period)` in the
availability of `f`; it carries the name of `f`, the subject code of `f` (`N/A` when
`f` has no subject, or an empty code) and the code of the section of `f` whose id is
`sid`. -/
theorem descriptor_is_justified_and_tagged (R : List Faculty) (S : List String)
    (e : Option String) (day : String) (period : Nat) (d : Descriptor)
    (h : d ∈ conflictsAt (calculateBlockedSlots R S e) (slotKey day period)) :
    ∃ f ∈ R, some f._id ≠ e ∧ ∃ sid ∈ S, teaches f sid ∧ availableAt f day period ∧
      d.facultyName = f.name ∧
      (f.subject = none → d.subject = "N/A") ∧
      (∀ s : Subject, f.subject = some s → s.code ≠ "" → d.subject = s.code) ∧
      (∀ s : Subject, f.subject = some s → s.code = "" → d.subject = "N/A") ∧
      ∃ sec ∈ f.sections.getD [], sec._id = sid ∧ d.sectionCode = some sec.code := by
  rw [conflictsAt_calculateBlockedSlots] at h
  simp only [List.mem_flatMap] at h
  obtain ⟨sid, hsid, f, hf, hd⟩ := h
  obtain ⟨hfR, hne⟩ := (mem_otherFaculty R e f).1 hf
  unfold pushedAt at hd
  simp only [List.mem_map, List.mem_filter, decide_eq_true_eq] at hd
  obtain ⟨ev, ⟨hev, hkey⟩, rfl⟩ := hd
  obtain ⟨ht, hav⟩ := (exists_push_at f sid day period).1 ⟨ev, hev, hkey⟩
  obtain ⟨_, a, _, p, _, rfl⟩ := (mem_facultyPushes f sid ev).1 hev
  obtain ⟨sec, hsec, hid, hcode⟩ := sectionCodeOf_of_teaches f sid ht
  refine ⟨f, hfR, hne, sid, hsid, ht, hav, rfl, ?_, ?_, ?_, sec, hsec, hid, hcode⟩
  · intro hnone
    simp [descriptorOf, subjectLabel, hnone]
  · intro s hs hcode
    simp [descriptorOf, subjectLabel, hs, hcode]
  · intro s hs hcode
    simp [descriptorOf, subjectLabel, hs, hcode]

/-- C20, Scenario B: `F1` teaches `sec1` and is available on Monday periods 1 and 2;
editing `F2` with `S = [sec1]`, the lists of `Monday-1` and `Monday-2` each hold the
descriptor of `F1`, and the general statement traces it back to a roster record. -/
theorem descriptor_is_justified_and_tagged_witness :
    conflictsAt
        (calculateBlockedSlots
          [⟨"f1", "F1", some ⟨"CS101", none⟩, some [⟨"sec1", "2A"⟩], some [⟨"Monday", [1, 2]⟩]⟩]
          ["sec1"] (some "f2")) (slotKey "Monday" 1) = [⟨"F1", "CS101", some "2A"⟩] ∧
    conflictsAt
        (calculateBlockedSlots
          [⟨"f1", "F1", some ⟨"CS101", none⟩, some [⟨"sec1", "2A"⟩], some [⟨"Monday", [1, 2]⟩]⟩]
          ["sec1"] (some "f2")) (slotKey "Monday" 2) = [⟨"F1", "CS101", some "2A"⟩] ∧
    ∃ f ∈
        [(⟨"f1", "F1", some ⟨"CS101", none⟩, some [⟨"sec1", "2A"⟩],
          some [⟨"Monday", [1, 2]⟩]⟩ : Faculty)],
      availableAt f "Monday" 2 := by
  refine ⟨by decide, by decide, ?_⟩
  obtain ⟨f, hf, _, _, _, _, hav, _⟩ := descriptor_is_justified_and_tagged
    [⟨"f1", "F1", some ⟨"CS101", none⟩, some [⟨"sec1", "2A"⟩], some [⟨"Monday", [1, 2]⟩]⟩]
    ["sec1"] (some "f2") "Monday" 2 ⟨"F1", "CS101", some "2A"⟩ (by decide)
  exact ⟨f, hf, hav⟩

/-! ## When the blocked-slot computation raises -/

theorem foldlM_ok {α β ε : Type} (f : β → α → Except ε β) (g : β → α → β) (l : List α)
    (h : ∀ b, ∀ a ∈ l, f b a = Except.ok (g b a)) :
    ∀ b, l.foldlM f b = Except.ok (l.foldl g b) := by
  induction l with
  | nil => intro b; rfl
  | cons a rest ih =>
    intro b
    rw [List.foldlM_cons, h b a (List.mem_cons_self _ _), List.foldl_cons]
    exact ih (fun b' a' ha' => h b' a' (List.mem_cons_of_mem _ ha')) (g b a)

theorem sectionCodeOfChecked_ok (f : Faculty) (sid : String)
    (h : teachesThisSection f sid = true) :
    sectionCodeOfChecked f sid = Except.ok (sectionCodeOf f sid) := by
  unfold sectionCodeOfChecked sectionCodeOf
  unfold teachesThisSection at h
  cases hsec : f.sections with
  | none => rw [hsec] at h; exact absurd h Bool.false_ne_true
  | some ss => rfl

theorem blockFacultyChecked_ok (f : RawFaculty) (sid : String)
    (h : teachesThisSection f.typed sid = true) (availability : List RawAvailability)
    (hp : ∀ a ∈ availability, a.periods.isSome = true)
    (blocked : JsObject (List Descriptor)) :
    blockFacultyChecked blocked f sid availability =
      Except.ok (blockFaculty blocked f.typed sid (availability.map RawAvailability.typed)) := by
  unfold blockFacultyChecked blockFaculty
  rw [List.foldl_map]
  apply foldlM_ok
  intro b avail havail
  obtain ⟨ps, hps⟩ := Option.isSome_iff_exists.1 (hp avail havail)
  simp only [hps, RawAvailability.typed, Option.getD_some]
  apply foldlM_ok
  intro b1 period _
  rw [sectionCodeOfChecked_ok f.typed sid h]
  rfl

theorem blockSectionChecked_ok (sid : String) (others : List RawFaculty)
    (hp : periodsPresent others) (blocked : JsObject (List Descriptor)) :
    blockSectionChecked blocked others sid =
      Except.ok (blockSection blocked (others.map RawFaculty.typed) sid) := by
  unfold blockSectionChecked blockSection
  rw [List.foldl_map]
  apply foldlM_ok
  intro b f hf
  cases ht : teachesThisSection f.typed sid with
  | false => cases hav : f.availability <;> simp [RawFaculty.typed, hav] <;> rfl
  | true =>
    cases hav : f.availability with
    | none => simp [RawFaculty.typed, hav]; rfl
    | some av =>
      have hpa : ∀ a ∈ av, a.periods.isSome = true := by
        intro a ha
        have := hp f hf a
        rw [hav] at this
        exact this ha
      simp only [Option.isSome_some, Bool.and_self, if_true]
      rw [blockFacultyChecked_ok f sid ht av hpa b]
      simp [RawFaculty.typed, hav]

theorem typed_raw (f : Faculty) : f.raw.typed = f := by
  obtain ⟨i, n, s, ss, av⟩ := f
  cases av with
  | none => rfl
  | some l =>
    simp only [Faculty.raw, RawFaculty.typed, Option.map_some', List.map_map]
    congr 2
    conv_rhs => rw [← List.map_id l]
    apply List.map_congr_left
    intro a _
    rfl

theorem periodsPresent_raw (R : List Faculty) : periodsPresent (R.map Faculty.raw) := by
  intro f hf a ha
  obtain ⟨g, _, rfl⟩ := List.mem_map.1 hf
  cases hav : g.availability with
  | none => simp [Faculty.raw, hav] at ha
  | some l =>
    simp only [Faculty.raw, hav, Option.map_some', Option.getD_some, List.mem_map] at ha
    obtain ⟨x, _, rfl⟩ := ha
    rfl

/-- The computation on a roster whose availability entries all carry a period list
ends without error in the map of `calculateBlockedSlots` on the typed roster. -/
theorem calculateBlockedSlotsChecked_ok (R : List RawFaculty) (S : List String)
    (e : Option String) (hp : periodsPresent R) :
    calculateBlockedSlotsChecked R S e =
      Except.ok (calculateBlockedSlots (R.map RawFaculty.typed) S e) := by
  have hothers : otherFaculty (R.map RawFaculty.typed) e =
      (R.filter (fun f => decide (some f._id ≠ e))).map RawFaculty.typed := by
    unfold otherFaculty
    rw [List.filter_map]
    rfl
  have hpo : periodsPresent (R.filter (fun f => decide (some f._id ≠ e))) :=
    fun f hf => hp f (List.mem_of_mem_filter hf)
  unfold calculateBlockedSlotsChecked calculateBlockedSlots
  apply foldlM_ok
  intro b sid _
  rw [hothers]
  exact blockSectionChecked_ok sid _ hpo b

/-- C18, as stated, fails: a record that teaches the selected section `sec1` and whose
availability entry for Monday has no period list makes the computation raise the
`TypeError` of `avail.periods.forEach`. -/
theorem blocked_slot_computation_raises_counterexample :
    calculateBlockedSlotsChecked
        [⟨"f1", "F1", none, some [⟨"sec1", "2A"⟩], some [⟨"Monday", none⟩]⟩]
        ["sec1"] none =
      Except.error "TypeError: cannot read properties of undefined (reading 'forEach')" ∧
    ¬ periodsPresent [⟨"f1", "F1", none, some [⟨"sec1", "2A"⟩], some [⟨"Monday", none⟩]⟩] :=
  ⟨rfl, by decide⟩

/-- C18, amended. The blocked-slot computation raises nothing on a roster whose
availability entries each carry a period list, whatever else its records lack
(sections, subject, availability): for every such roster, selected section list and
editing id it ends without error in the map of `calculateBlockedSlots`; this holds
for every typed roster; and when no roster faculty other than the edited one teaches
a selected section in any cell of its availability the map is empty. -/
theorem blocked_slot_computation_never_raises (R : List RawFaculty) (S : List String)
    (e : Option String) (hp : periodsPresent R) :
    calculateBlockedSlotsChecked R S e =
        Except.ok (calculateBlockedSlots (R.map RawFaculty.typed) S e) ∧
    (∀ msg : String, calculateBlockedSlotsChecked R S e ≠ Except.error msg) ∧
    (∀ T : List Faculty,
        calculateBlockedSlotsChecked (T.map Faculty.raw) S e =
          Except.ok (calculateBlockedSlots T S e)) ∧
    (∀ T : List Faculty,
        (∀ f ∈ T, some f._id ≠ e → ∀ sid ∈ S, teaches f sid →
            ∀ (day : String) (period : Nat), ¬ availableAt f day period) →
          calculateBlockedSlots T S e = []) := by
  have hok := calculateBlockedSlotsChecked_ok R S e hp
  refine ⟨hok, ?_, ?_, ?_⟩
  · intro msg hmsg
    rw [hok] at hmsg
    cases hmsg
  · intro T
    rw [calculateBlockedSlotsChecked_ok (T.map Faculty.raw) S e (periodsPresent_raw T),
      List.map_map]
    congr 2
    conv_rhs => rw [← List.map_id T]
    apply List.map_congr_left
    intro f _
    exact typed_raw f
  · intro T hfree
    rw [calculateBlockedSlots_eq_replay, replay_eq_nil_iff]
    apply allPushes_nil_of_forall
    intro sid hsid f hf
    obtain ⟨hfR, hne⟩ := (mem_otherFaculty T e f).1 hf
    by_contra hcon
    obtain ⟨ev, hev⟩ := List.exists_mem_of_ne_nil _ hcon
    obtain ⟨ht, a, ha, p, hp', _⟩ := (mem_facultyPushes f sid ev).1 hev
    exact hfree f hfR hne sid hsid ht a.day p ⟨a, ha, rfl, hp'⟩

/-- C18, amended, at a concrete roster: one record lacks sections, subject and
availability, one teaches the selected section without availability, one has an empty
availability list, one is available on Monday period 1; every entry carries its
period list and the computation ends without error. -/
theorem blocked_slot_computation_never_raises_witness :
    periodsPresent
        [⟨"f1", "F1", none, none, none⟩,
         ⟨"f2", "F2", none, some [⟨"sec1", "2A"⟩], none⟩,
         ⟨"f3", "F3", some ⟨"", none⟩, some [⟨"sec1", "2A"⟩], some []⟩,
         ⟨"f4", "F4", none, some [⟨"sec1", "2A"⟩], some [⟨"Monday", some [1]⟩]⟩] ∧
    calculateBlockedSlotsChecked
        [⟨"f1", "F1", none, none, none⟩,
         ⟨"f2", "F2", none, some [⟨"sec1", "2A"⟩], none⟩,
         ⟨"f3", "F3", some ⟨"", none⟩, some [⟨"sec1", "2A"⟩], some []⟩,
         ⟨"f4", "F4", none, some [⟨"sec1", "2A"⟩], some [⟨"Monday", some [1]⟩]⟩]
        ["sec1"] none =
      Except.ok [("Monday-1", [⟨"F4", "N/A", some "2A"⟩])] :=
  ⟨by decide,
   (blocked_slot_computation_never_raises _ ["sec1"] none (by decide)).1.trans rfl⟩

/-! ## The written record, and sequences of clicks -/

theorem findFaculty_replaceById (id : String) (doc : StoredFaculty) (hdoc : doc._id = id)
    (l : List StoredFaculty)
    (h : (l.find? (fun f => decide (f._id = id))).isSome = true) :
    (replaceById id doc l).find? (fun f => decide (f._id = id)) = some doc := by
  induction l with
  | nil => simp at h
  | cons f rest ih =>
    unfold replaceById
    by_cases hf : f._id = id
    · rw [if_pos hf, List.find?_cons_of_pos _ (by simpa using hdoc)]
    · rw [if_neg hf, List.find?_cons_of_neg _ (by simpa using hf)]
      rw [List.find?_cons_of_neg _ (by simpa using hf)] at h
      exact ih h

/-- C21. For every successful `createFaculty` or `updateFaculty` request, the written
faculty document has the department of the subject resolved from the submitted subject
code, that subject as its subject, the submitted name trimmed as its name, and the
submitted section list and availability list in full; `createFaculty` appends it to
the stored documents, `updateFaculty` puts it in the place of the document of that
identifier, which is then what a lookup by the identifier finds. -/
theorem written_record_follows_submission (st : Store) (body : Body) (newId id : String) :
    ((createFaculty st body newId).1.success = true →
        ∃ (name code : String) (secs : List String) (av : List Availability)
          (subject : StoredSubject) (dept : String) (doc : StoredFaculty),
          body = ⟨some name, some code, some secs, some av⟩ ∧
          findSubject st code = some subject ∧ subject.department = some dept ∧
          (createFaculty st body newId).1.data = some doc ∧
          (createFaculty st body newId).2.faculty = st.faculty ++ [doc] ∧
          doc._id = newId ∧ doc.department = dept ∧ doc.subject = subject._id ∧
          doc.name = trim name ∧ doc.sections = secs ∧ doc.availability = av) ∧
    ((updateFaculty st id body).1.success = true →
        ∃ (name code : String) (secs : List String) (av : List Availability)
          (subject : StoredSubject) (dept : String) (doc : StoredFaculty),
          body = ⟨some name, some code, some secs, some av⟩ ∧
          findSubject st code = some subject ∧ subject.department = some dept ∧
          (updateFaculty st id body).1.data = some doc ∧
          (updateFaculty st id body).2.faculty = replaceById id doc st.faculty ∧
          findFaculty (updateFaculty st id body).2 id = some doc ∧
          doc._id = id ∧ doc.department = dept ∧ doc.subject = subject._id ∧
          doc.name = trim name ∧ doc.sections = secs ∧ doc.availability = av) := by
  constructor
  · intro hs
    obtain ⟨name, code, secs, av, subject, dept, hb, _, _, _, _, hsub, hdept, _, _, heq⟩ :=
      createFaculty_success st body newId hs
    refine ⟨name, code, secs, av, subject, dept,
      facultyDocument newId name subject dept secs av, hb, hsub, hdept, ?_, ?_,
      rfl, rfl, rfl, rfl, rfl, rfl⟩
    · rw [heq]
    · rw [heq]
  · intro hs
    obtain ⟨name, code, secs, av, subject, dept, hb, _, _, _, hsub, hdept, _, hfound, heq⟩ :=
      updateFaculty_success st id body hs
    refine ⟨name, code, secs, av, subject, dept,
      facultyDocument id name subject dept secs av, hb, hsub, hdept, ?_, ?_, ?_,
      rfl, rfl, rfl, rfl, rfl, rfl⟩
    · rw [heq]
    · rw [heq]
    · rw [heq]
      exact findFaculty_replaceById id _ rfl st.faculty hfound

/-- C21, at a concrete store: the update of `f1` with the name ` Asha R ` and a new
availability succeeds, and the stored document has the trimmed name, the department
`dep1` of the subject `CS101` and exactly the submitted availability. -/
theorem written_record_follows_submission_witness :
    (updateFaculty exampleStore "f1"
        ⟨some " Asha R ", some "CS101", some ["sec1"], some [⟨"Friday", [3, 4]⟩]⟩).2.faculty =
      [⟨"f1", "Asha R", "sub1", "dep1", ["sec1"], [⟨"Friday", [3, 4]⟩]⟩] ∧
    ∃ doc : StoredFaculty,
      findFaculty
          (updateFaculty exampleStore "f1"
            ⟨some " Asha R ", some "CS101", some ["sec1"], some [⟨"Friday", [3, 4]⟩]⟩).2
          "f1" = some doc ∧
        doc.availability = [⟨"Friday", [3, 4]⟩] := by
  refine ⟨by decide, ?_⟩
  obtain ⟨name, code, secs, av, subject, dept, doc, hb, _, _, _, _, hfind, _, _, _, _, _,
    hav⟩ := (written_record_follows_submission exampleStore
      ⟨some " Asha R ", some "CS101", some ["sec1"], some [⟨"Friday", [3, 4]⟩]⟩
      "f2" "f1").2 (by decide)
  injection hb with _ _ _ h4
  injection h4 with h4
  exact ⟨doc, hfind, by rw [hav, ← h4]⟩

/-- One click keeps every property of the form "no selected key among these is
blocked", and keeps the blocked map. -/
theorem handleSlotClick_keeps (P : String → Prop) (st : State) (day : String) (period : Nat)
    (h : ∀ k : String, P k → isSelected st.selectedSlots k = true → k ∉ st.blockedSlots.keys) :
    (handleSlotClick st day period).blockedSlots = st.blockedSlots ∧
    ∀ k : String, P k → isSelected (handleSlotClick st day period).selectedSlots k = true →
      k ∉ (handleSlotClick st day period).blockedSlots.keys := by
  by_cases hb : slotKey day period ∈ st.blockedSlots.keys
  · have hst : handleSlotClick st day period = st := by
      have hsome := (mem_keys_iff st.blockedSlots (slotKey day period)).1 hb
      cases hget : st.blockedSlots.get (slotKey day period) with
      | none => rw [hget] at hsome; simp at hsome
      | some l => simp only [handleSlotClick, hget]
    rw [hst]
    exact ⟨rfl, h⟩
  · rw [handleSlotClick_free st day period hb]
    refine ⟨rfl, ?_⟩
    intro k hP hsel
    simp only [isSelected_set] at hsel
    by_cases hk : k = slotKey day period
    · rw [hk]; exact hb
    · rw [if_neg hk] at hsel
      exact h k hP hsel

theorem clickSequence_keeps (P : String → Prop) (clicks : List (String × Nat)) :
    ∀ st : State,
      (∀ k : String, P k → isSelected st.selectedSlots k = true →
          k ∉ st.blockedSlots.keys) →
      (clickSequence st clicks).blockedSlots = st.blockedSlots ∧
      ∀ k : String, P k → isSelected (clickSequence st clicks).selectedSlots k = true →
        k ∉ (clickSequence st clicks).blockedSlots.keys := by
  induction clicks with
  | nil => intro st h; exact ⟨rfl, h⟩
  | cons c rest ih =>
    intro st h
    obtain ⟨hb1, h1⟩ := handleSlotClick_keeps P st c.1 c.2 h
    obtain ⟨hb2, h2⟩ := ih (handleSlotClick st c.1 c.2) h1
    exact ⟨hb2.trans hb1, h2⟩

/-- C22. With the blocked map held fixed, clicks preserve "no selected cell is
blocked": from a state in which no selected cell has its key in the blocked map, the
state after any finite sequence of `handleSlotClick` calls has the same blocked map
and again no selected cell with its key in it. -/
theorem clicks_keep_selection_off_blocked_cells (st : State)
    (clicks : List (String × Nat))
    (h : noSelectedCellBlocked st.selectedSlots st.blockedSlots) :
    (clickSequence st clicks).blockedSlots = st.blockedSlots ∧
    noSelectedCellBlocked (clickSequence st clicks).selectedSlots st.blockedSlots ∧
    noSelectedCellBlocked (clickSequence st clicks).selectedSlots
      (clickSequence st clicks).blockedSlots := by
  have hP : ∀ k : String, (∃ (d : String) (p : Nat), k = slotKey d p) →
      isSelected st.selectedSlots k = true → k ∉ st.blockedSlots.keys := by
    rintro k ⟨d, p, rfl⟩ hsel
    exact h d p hsel
  obtain ⟨hb, hk⟩ := clickSequence_keeps (fun k => ∃ (d : String) (p : Nat), k = slotKey d p)
    clicks st hP
  have hfinal : noSelectedCellBlocked (clickSequence st clicks).selectedSlots
      (clickSequence st clicks).blockedSlots :=
    fun d p hsel => hk (slotKey d p) ⟨d, p, rfl⟩ hsel
  refine ⟨hb, ?_, hfinal⟩
  rw [← hb]
  exact hfinal

/-- C22, at a concrete state: `Monday-1` is blocked and `Tuesday-2` is selected; after
clicks on `Monday-1`, `Wednesday-3`, `Tuesday-2` and `Monday-1` again, `Wednesday-3` is
the selected cell and `Monday-1` is still unselected. -/
theorem clicks_keep_selection_off_blocked_cells_witness :
    isSelected
        (clickSequence
          { initialState with
            selectedSlots := [("Tuesday-2", true)]
            blockedSlots := [("Monday-1", [⟨"F1", "N/A", some "2A"⟩])] }
          [("Monday", 1), ("Wednesday", 3), ("Tuesday", 2), ("Monday", 1)]).selectedSlots
        (slotKey "Wednesday" 3) = true ∧
    noSelectedCellBlocked
        (clickSequence
          { initialState with
            selectedSlots := [("Tuesday-2", true)]
            blockedSlots := [("Monday-1", [⟨"F1", "N/A", some "2A"⟩])] }
          [("Monday", 1), ("Wednesday", 3), ("Tuesday", 2), ("Monday", 1)]).selectedSlots
        [("Monday-1", [⟨"F1", "N/A", some "2A"⟩])] :=
  ⟨by decide,
   (clicks_keep_selection_off_blocked_cells
      { initialState with
        selectedSlots := [("Tuesday-2", true)]
        blockedSlots := [("Monday-1", [⟨"F1", "N/A", some "2A"⟩])] }
      [("Monday", 1), ("Wednesday", 3), ("Tuesday", 2), ("Monday", 1)]
      (by
        intro d p hsel hmem
        have hk : slotKey d p = "Monday-1" := by
          simpa [JsObject.keys] using hmem
        rw [hk] at hsel
        exact absurd hsel (by decide))).2.1⟩

end FacultyManagement
